import Mathlib

/-!
# Pulse-width-encoding driver: DShot framing and the two encoder backends

A shallow embedding of `components/dshot_protocol/src/dshot.c`,
`components/pulse-width-encoding/src/pwe.c`, `pwe_io_rmt.c` and `pwe_io_spi.c`.

Conventions of the embedding.

* Machine integers are `Nat`; every place where the C type truncates is written with an
  explicit `% 2 ^ w`.
* A C function that returns `esp_err_t` and mutates objects through pointers becomes a
  function returning the error code together with the new value of every object it may
  write.
* Array accesses are bounds checked: a function that would read or write outside the
  object it was given returns `none`.  `some _` therefore includes memory safety.
* `while` loops carry an iteration budget; the caller passes a budget that is provably
  enough, and an exhausted budget is `none` as well.
* The target (ESP32) is little-endian.
-/

namespace PWE

/-! ## Error codes (`esp_err.h`) -/

/-- The `esp_err_t` values that the driver returns. -/
inductive esp_err_t
  | ESP_OK
  | ESP_ERR_NO_MEM
  | ESP_ERR_INVALID_ARG
  | ESP_ERR_INVALID_STATE
  | ESP_FAIL
  deriving DecidableEq, Repr

open esp_err_t

/-! ## Integer helpers -/

/-- `#define UINTROUNDDIV(divd, divor) ( ((divd) + ((divor) / 2)) / (divor) )`.
Every use in the driver has `uint32_t` (or 32-bit `size_t`) operands, so the sum wraps
modulo `2 ^ 32`. -/
def UINTROUNDDIV (divd divor : Nat) : Nat := ((divd + divor / 2) % 2 ^ 32) / divor

/-- `#define UINTCEILDIV(divd, divor) ( ((divd) + (divor) - 1) / (divor) )`, with 32-bit
unsigned operands as well. -/
def UINTCEILDIV (divd divor : Nat) : Nat := ((divd + divor - 1) % 2 ^ 32) / divor

/-- Subtraction of two 32-bit unsigned values. -/
def u32_sub (a b : Nat) : Nat := (a + (2 ^ 32 - b % 2 ^ 32)) % 2 ^ 32

/-- Multiplication of two 32-bit unsigned values. -/
def u32_mul (a b : Nat) : Nat := (a * b) % 2 ^ 32

/-- The C test `byte & (1 << k)` used as a condition. -/
def bit_set (byte k : Nat) : Bool := (byte &&& (1 <<< k)) != 0

/-- Checked array read. -/
def rd {α : Type} (a : List α) (i : Nat) : Option α := a[i]?

/-- Checked array write. -/
def wr {α : Type} (a : List α) (i : Nat) (v : α) : Option (List α) :=
  if i < a.length then some (a.set i v) else none

/-! ## DShot packet (`dshot.c`, lines 15-18 and 129-158) -/

def DSHOT_THROTTLE_POSITION : Nat := 5
def DSHOT_TELEMETRY_POSITION : Nat := 4
def NIBBLES_SIZE : Nat := 4
def DSHOT_NUMBER_OF_NIBBLES : Nat := 3

/-- Line 134, `thrust = thrust == 0 ? 0 : thrust + 47;` assigned back to a `uint16_t`. -/
def dshot_value (thrust : Nat) : Nat :=
  if thrust = 0 then 0 else (thrust + 47) % 2 ^ 16

/-- Lines 139-142: `packet` after the two `|=` and before the checksum is inserted. -/
def dshot_packet_nocsum (thrust : Nat) (request_telemetry : Bool) : Nat :=
  let packet := 0
  let packet := (packet ||| (dshot_value thrust <<< DSHOT_THROTTLE_POSITION)) % 2 ^ 16
  let packet :=
    (packet ||| (((if request_telemetry then 1 else 0) &&& 0x01) <<< DSHOT_TELEMETRY_POSITION))
      % 2 ^ 16
  packet

/-- Lines 148-151: the checksum loop, `n` iterations left, on `(checksum, csum_data)`. -/
def dshot_csum_loop : Nat → Nat × Nat → Nat × Nat
  | 0, st => st
  | n + 1, (checksum, csum_data) =>
      dshot_csum_loop n (checksum ^^^ (csum_data &&& 0x0F), csum_data >>> NIBBLES_SIZE)

/-- Lines 140-151: the value of `checksum` when the loop is left. -/
def dshot_checksum (packet : Nat) : Nat :=
  let checksum := 0
  let csum_data := packet
  let csum_data := csum_data >>> NIBBLES_SIZE
  (dshot_csum_loop DSHOT_NUMBER_OF_NIBBLES (checksum, csum_data)).1

/-- Lines 139-153: `packet` as it stands before the endian conversion. -/
def dshot_packet (thrust : Nat) (request_telemetry : Bool) : Nat :=
  let packet := dshot_packet_nocsum thrust request_telemetry
  (packet ||| (dshot_checksum packet &&& 0x0F)) % 2 ^ 16

/-- Lines 156-158: `out_buffer |= packet >> 8; out_buffer |= packet << 8;` in `uint16_t`. -/
def dshot_out_buffer (packet : Nat) : Nat :=
  let out_buffer := 0x00
  let out_buffer := (out_buffer ||| (packet >>> 8)) % 2 ^ 16
  let out_buffer := (out_buffer ||| (packet <<< 8)) % 2 ^ 16
  out_buffer

/-- The two bytes of a `uint16_t` object in memory order on the little-endian target,
which is what `(uint8_t *)&out_buffer` points at. -/
def u16_bytes (w : Nat) : List Nat := [w % 256, (w / 256) % 256]

/-- Nibble `k` (0 = least significant) of a word. -/
def nibble (w k : Nat) : Nat := (w >>> (4 * k)) &&& 0xF

/-! ## Buffered-Waveform backend (`pwe_io_rmt.c`) -/

/-- Modelled from the spec: the pulse descriptor of the pulse-train peripheral, whose
declaration (`rmt_item32_t` of the vendor SDK) is not part of the repository.  One
descriptor holds a first level with its duration in ticks and a second level with its
duration; the two duration fields are 15 bits wide (the spec's "descriptor duration-field
width" `0x7FFF`). -/
structure rmt_item32_t where
  duration0 : Nat
  level0 : Nat
  duration1 : Nat
  level1 : Nat
  deriving DecidableEq, Repr

/-- The initialiser `{{{ high, 1, low, 0 }}}` of lines 66-67 and 119-120: a `uint16_t`
tick count stored in a 15-bit field keeps its low 15 bits. -/
def rmt_item (high low : Nat) : rmt_item32_t :=
  { duration0 := high % 2 ^ 15, level0 := 1, duration1 := low % 2 ^ 15, level1 := 0 }

/-- The part of the vendor `rmt_config_t` that the driver reads. -/
structure rmt_config_t where
  channel : Nat
  clk_div : Nat
  deriving DecidableEq, Repr

/-- `pwe_io_rmt_handle_t` (lines 22-32).  `max_payload_length` is `base.max_payload_length`;
the function pointers of `base` are fixed by the constructor and are represented by the
dispatch functions of `pwe_t` below.  `buffer` is the trailing descriptor array of
`max_payload_length` entries.

In the C struct `rmt_item32_t buffer[0]` is declared directly before
`size_t _total_bits_to_send`, so descriptor 0 and that field are the same 32-bit word of
the allocation.  The structure below keeps them as two fields: a store to one does not
show in the other.  The conversion stores descriptors only and the buffered send reads
descriptors only; the streaming send (capacity 0, no descriptor stored) stores the bit
count and the translator reads the bit count.  The statements about a converted handle
therefore give its descriptors, capacity, configuration and tick counts, and say nothing
about `_total_bits_to_send` after a conversion. -/
structure pwe_io_rmt_handle_t where
  max_payload_length : Nat
  rmt_conf : rmt_config_t
  trst : Nat
  t1h : Nat
  t1l : Nat
  t0h : Nat
  t0l : Nat
  buffer : List rmt_item32_t
  _total_bits_to_send : Nat
  deriving DecidableEq, Repr

/-- `const rmt_item32_t bit0 = {{{ pwe_rmt->t0h, 1, pwe_rmt->t0l, 0 }}};` -/
def rmt_bit0 (h : pwe_io_rmt_handle_t) : rmt_item32_t := rmt_item h.t0h h.t0l

/-- `const rmt_item32_t bit1 = {{{ pwe_rmt->t1h, 1, pwe_rmt->t1l, 0 }}};` -/
def rmt_bit1 (h : pwe_io_rmt_handle_t) : rmt_item32_t := rmt_item h.t1h h.t1l

/-- The `while (bits_src_proceeded < len)` loop of `pwe_io_rmt_convert_buffer`
(lines 122-131).  First argument: iteration budget.  The counter stays below `len`, a
`uint32_t`, so `++bits_src_proceeded` cannot wrap. -/
def pwe_io_rmt_convert_loop (bit0 bit1 : rmt_item32_t) (data : List Nat) (len : Nat) :
    Nat → Nat → List rmt_item32_t → Option (Nat × List rmt_item32_t)
  | 0, bits_src_proceeded, buffer =>
      if bits_src_proceeded < len then none else some (bits_src_proceeded, buffer)
  | fuel + 1, bits_src_proceeded, buffer =>
      if bits_src_proceeded < len then do
        let byte_offset := bits_src_proceeded / 8
        let bit_offset := (7 - bits_src_proceeded % 8) % 2 ^ 8
        let byte ← rd data byte_offset
        let buffer ← wr buffer bits_src_proceeded (if bit_set byte bit_offset then bit1 else bit0)
        pwe_io_rmt_convert_loop bit0 bit1 data len fuel (bits_src_proceeded + 1) buffer
      else some (bits_src_proceeded, buffer)

/-- `pwe_io_rmt_convert_buffer` (lines 115-134).  The result is the error code, the handle
after the call and the value of `*outgoing_buffer_len` after the call (unchanged when the
length check fails). -/
def pwe_io_rmt_convert_buffer (h : pwe_io_rmt_handle_t) (data : List Nat) (len : Nat)
    (outgoing_buffer_len : Nat) : Option (esp_err_t × pwe_io_rmt_handle_t × Nat) :=
  if h.max_payload_length ≥ len then do
    let bit0 := rmt_bit0 h
    let bit1 := rmt_bit1 h
    let bits_src_proceeded := 0
    let (bits_src_proceeded, buffer) ←
      pwe_io_rmt_convert_loop bit0 bit1 data len len bits_src_proceeded h.buffer
    some (ESP_OK, { h with buffer := buffer }, bits_src_proceeded)
  else some (ESP_ERR_INVALID_ARG, h, outgoing_buffer_len)

/-- The local variables of `pwe_rmt_adapter` that change while it runs.  `psrc` and `pdest`
are kept as offsets from `src` and `dest`. -/
structure adapter_state where
  dest : List rmt_item32_t
  psrc : Nat
  pdest : Nat
  translated_byte_num : Nat
  translated_bit_num : Nat
  bits_remain_in_input : Nat
  deriving DecidableEq, Repr

/-- The `for (int i = 0; i < 8; i++)` loop of `pwe_rmt_adapter` (lines 76-87), with its
`break`.  First argument: iteration budget, second: `i`. `--bits_remain_in_input` is a
`size_t` decrement and wraps from 0 to `2 ^ 32 - 1`. -/
def pwe_rmt_adapter_for (bit0 bit1 : rmt_item32_t) (src : List Nat) :
    Nat → Nat → adapter_state → Option adapter_state
  | 0, i, st => if i < 8 then none else some st
  | fuel + 1, i, st =>
      if i < 8 then do
        let byte ← rd src st.psrc
        let dest ← wr st.dest st.pdest (if bit_set byte (7 - i) then bit1 else bit0)
        let st := { st with
          dest := dest
          translated_bit_num := st.translated_bit_num + 1
          pdest := st.pdest + 1
          bits_remain_in_input := u32_sub st.bits_remain_in_input 1 }
        if st.bits_remain_in_input = 0 then some st
        else pwe_rmt_adapter_for bit0 bit1 src fuel (i + 1) st
      else some st

/-- The `while (translated_byte_num < bytes_can_be_translated)` loop of `pwe_rmt_adapter`
(lines 75-93), with its `break`.  First argument: iteration budget. -/
def pwe_rmt_adapter_while (bit0 bit1 : rmt_item32_t) (src : List Nat)
    (bytes_can_be_translated : Nat) : Nat → adapter_state → Option adapter_state
  | 0, st => if st.translated_byte_num < bytes_can_be_translated then none else some st
  | fuel + 1, st =>
      if st.translated_byte_num < bytes_can_be_translated then do
        let st ← pwe_rmt_adapter_for bit0 bit1 src 8 0 st
        let st := { st with
          translated_byte_num := st.translated_byte_num + 1
          psrc := st.psrc + 1 }
        if st.bits_remain_in_input = 0 then some st
        else pwe_rmt_adapter_while bit0 bit1 src bytes_can_be_translated fuel st
      else some st

/-- `pwe_rmt_adapter` (lines 51-96), the translator that the peripheral driver calls back.
`pwe_rmt` is the context that `rmt_translator_get_context` yields; `src` is the memory
from the source pointer on and `dest` the memory from the destination pointer on (`none`
for a NULL pointer).  The result is the destination memory after the call and the values
stored to `*translated_size` and `*item_num`. -/
def pwe_rmt_adapter (pwe_rmt : Option pwe_io_rmt_handle_t) (src : Option (List Nat))
    (dest : Option (List rmt_item32_t)) (src_size wanted_num : Nat) :
    Option (Option (List rmt_item32_t) × Nat × Nat) :=
  match pwe_rmt, src, dest with
  | some pwe_rmt, some src, some dest => do
      let bit0 := rmt_bit0 pwe_rmt
      let bit1 := rmt_bit1 pwe_rmt
      let bytes_can_be_translated := wanted_num / 8
      let bits_remain_in_input :=
        u32_sub pwe_rmt._total_bits_to_send
          (u32_mul (u32_sub (UINTCEILDIV pwe_rmt._total_bits_to_send 8) src_size) 8)
      let st ← pwe_rmt_adapter_while bit0 bit1 src bytes_can_be_translated
        bytes_can_be_translated
        { dest := dest, psrc := 0, pdest := 0, translated_byte_num := 0,
          translated_bit_num := 0, bits_remain_in_input := bits_remain_in_input }
      some (some st.dest, st.translated_byte_num, st.translated_bit_num)
  | _, _, _ => some (dest, 0, 0)

/-- The assignment `pwe_rmt->_total_bits_to_send = len;` of `pwe_io_rmt_on_the_fly_send`
(line 146), the only place where the streaming bit count is set, together with the byte
count `UINTCEILDIV(len, 8)` that it passes to the peripheral driver (line 147). -/
def pwe_io_rmt_on_the_fly_send_prepare (h : pwe_io_rmt_handle_t) (len : Nat) :
    pwe_io_rmt_handle_t × Nat :=
  ({ h with _total_bits_to_send := len }, UINTCEILDIV len 8)

/-! ## Clocked-Shift backend (`pwe_io_spi.c`) -/

/-- `pwe_io_spi_handle_t` (lines 61-73); `max_payload_length` is `base.max_payload_length`,
`buffer` the trailing byte array.  The peripheral identifiers (`spi_conf`, `iohdl`) play
no part in the conversion and are left out. -/
structure pwe_io_spi_handle_t where
  max_payload_length : Nat
  sclk : Nat
  t1h : Nat
  t1l : Nat
  t0h : Nat
  t0l : Nat
  trst : Nat
  buffer_size : Nat
  buffer : List Nat
  deriving DecidableEq, Repr

/-- The mask `(uint16_t)(((uint8_t)(0xff << (8 - t)) << 8) >> bit_offset_dest)` of lines
132-139.  `8 - t` is an `int`; a negative shift count is undefined, and so is a right
shift of an `int` by 32 or more. -/
def spi_mask (t bit_offset_dest : Nat) : Option Nat :=
  if t ≤ 8 ∧ bit_offset_dest < 32 then
    some (((((0xff <<< (8 - t)) % 2 ^ 8) <<< 8) >>> bit_offset_dest) % 2 ^ 16)
  else none

/-- The local variables of `pwe_io_spi_convert_buffer` that change in its loop. -/
structure spi_state where
  buffer : List Nat
  bits_src_proceeded : Nat
  overflow_byte : Nat
  bit_offset_dest : Nat
  byte_offset_dest : Nat
  deriving DecidableEq, Repr

/-- One pass through the body of the `while` loop of `pwe_io_spi_convert_buffer`
(lines 122-144).  Both branches of `if (src_bit_val)` are the same code on `(t1h, t1l)`
and on `(t0h, t0l)`. -/
def pwe_io_spi_convert_step (h : pwe_io_spi_handle_t) (data : List Nat) (st : spi_state) :
    Option spi_state := do
  let bit_offset_src := st.bits_src_proceeded % 8
  let byte_offset_src := st.bits_src_proceeded / 8
  let src_byte ← rd data byte_offset_src
  let src_bit_val := bit_set src_byte (7 - bit_offset_src)
  let cur ← rd st.buffer st.byte_offset_dest
  let temp_buffer := (cur <<< 8) % 2 ^ 16
  let (temp_buffer, bit_offset_dest, byte_offset_dest) :=
    if st.bit_offset_dest ≥ 8 then
      ((st.overflow_byte <<< 8) % 2 ^ 16, st.bit_offset_dest % 8, (st.byte_offset_dest + 1) % 2 ^ 32)
    else (temp_buffer, st.bit_offset_dest, st.byte_offset_dest)
  let (th, tl) := if src_bit_val then (h.t1h, h.t1l) else (h.t0h, h.t0l)
  let mask_high ← spi_mask th bit_offset_dest
  let temp_buffer := temp_buffer ||| mask_high
  let bit_offset_dest := (bit_offset_dest + th) % 2 ^ 32
  let mask_low ← spi_mask tl bit_offset_dest
  let temp_buffer := temp_buffer &&& (0xFFFF ^^^ mask_low)
  let bit_offset_dest := (bit_offset_dest + tl) % 2 ^ 32
  let buffer ← wr st.buffer byte_offset_dest (temp_buffer / 256)
  let overflow_byte := temp_buffer % 256
  some { buffer := buffer, bits_src_proceeded := st.bits_src_proceeded + 1,
         overflow_byte := overflow_byte, bit_offset_dest := bit_offset_dest,
         byte_offset_dest := byte_offset_dest }

/-- The `while (bits_src_proceeded < len)` loop of `pwe_io_spi_convert_buffer`.  First
argument: iteration budget. -/
def pwe_io_spi_convert_loop (h : pwe_io_spi_handle_t) (data : List Nat) (len : Nat) :
    Nat → spi_state → Option spi_state
  | 0, st => if st.bits_src_proceeded < len then none else some st
  | fuel + 1, st =>
      if st.bits_src_proceeded < len then do
        let st ← pwe_io_spi_convert_step h data st
        pwe_io_spi_convert_loop h data len fuel st
      else some st

/-- `memset(buffer, 0, n)` on a byte array. -/
def memset_zero (buffer : List Nat) (n : Nat) : Option (List Nat) :=
  if n ≤ buffer.length then some (List.replicate n 0 ++ buffer.drop n) else none

/-- `pwe_io_spi_convert_buffer` (lines 111-150).  The result is the error code, the handle
after the call and the value of `*outgoing_buffer_len` after the call.  The handle is a
value here, so the NULL test of line 113 has no counterpart. -/
def pwe_io_spi_convert_buffer (h : pwe_io_spi_handle_t) (data : List Nat) (len : Nat)
    (outgoing_buffer_len : Nat) : Option (esp_err_t × pwe_io_spi_handle_t × Nat) :=
  if h.max_payload_length ≥ len then do
    let buffer ← memset_zero h.buffer (UINTCEILDIV h.buffer_size 8)
    let st ← pwe_io_spi_convert_loop h data len len
      { buffer := buffer, bits_src_proceeded := 0, overflow_byte := 0x00,
        bit_offset_dest := 0, byte_offset_dest := 0 }
    let bits_dest_filled := (st.byte_offset_dest * 8 + st.bit_offset_dest) % 2 ^ 32
    some (ESP_OK, { h with buffer := st.buffer }, bits_dest_filled)
  else some (ESP_ERR_INVALID_ARG, h, outgoing_buffer_len)

/-! ## Backend interface (`pwe.h`, `pwe.c`) -/

/-- An encoder object: `struct pwe_s` is the first member of the state of one of the two
backends, and the function pointers in it are the ones its constructor stored
(`pwe_io_rmt.c` lines 201-207, `pwe_io_spi.c` lines 205-211). -/
inductive pwe_t
  | rmt (h : pwe_io_rmt_handle_t)
  | spi (h : pwe_io_spi_handle_t)
  deriving DecidableEq, Repr

/-- `pwe_handle_t`, a pointer that may be NULL. -/
abbrev pwe_handle_t := Option pwe_t

/-- `handle->max_payload_length`. -/
def pwe_t.max_payload_length : pwe_t → Nat
  | .rmt h => h.max_payload_length
  | .spi h => h.max_payload_length

/-- `handle->convert_buffer`, already applied to the handle: `none` would be a NULL
function pointer, which neither constructor stores. -/
def pwe_t.convert_buffer : pwe_t → Option (List Nat → Nat → Nat → Option (esp_err_t × pwe_t × Nat))
  | .rmt h => some fun data len outgoing_buffer_len =>
      (pwe_io_rmt_convert_buffer h data len outgoing_buffer_len).map
        fun r => (r.1, pwe_t.rmt r.2.1, r.2.2)
  | .spi h => some fun data len outgoing_buffer_len =>
      (pwe_io_spi_convert_buffer h data len outgoing_buffer_len).map
        fun r => (r.1, pwe_t.spi r.2.1, r.2.2)

/-- `pwe_io_convert_buffer` (`pwe.c` lines 45-51). -/
def pwe_io_convert_buffer (handle : pwe_handle_t) (data : List Nat) (len : Nat)
    (outgoing_buffer_len : Nat) : Option (esp_err_t × pwe_handle_t × Nat) :=
  match handle with
  | none => some (ESP_ERR_INVALID_ARG, handle, outgoing_buffer_len)
  | some p =>
      match p.convert_buffer with
      | none => some (ESP_ERR_INVALID_ARG, handle, outgoing_buffer_len)
      | some convert_buffer =>
          if len ≤ p.max_payload_length then
            (convert_buffer data len outgoing_buffer_len).map fun r => (r.1, some r.2.1, r.2.2)
          else some (ESP_ERR_INVALID_ARG, handle, outgoing_buffer_len)

/-! ## DShot session (`dshot.c`) -/

/-- `struct dshot_s` (lines 20-25).  `periodic_timer` is `none` while the field holds the
indeterminate content of the fresh block, and the handle that `esp_timer_create` stored
afterwards.  The spinlock carries no data; its calls are recorded as events. -/
structure dshot_s where
  pwe : pwe_handle_t
  io_buffer_len : Nat
  periodic_timer : Option Nat := none
  deriving DecidableEq, Repr

/-- `dshot_handle_t`, a pointer that may be NULL. -/
abbrev dshot_handle_t := Option dshot_s

/-- `dshot_update` (lines 129-165).  `thrust` is the `uint16_t` argument.  The result is the
error code and the session after the call. -/
def dshot_update (hdl : dshot_handle_t) (thrust : Nat) (request_telemetry : Bool) :
    Option (esp_err_t × dshot_handle_t) :=
  match hdl with
  | none => some (ESP_ERR_INVALID_ARG, hdl)
  | some s =>
      if thrust ≤ 2000 then do
        let packet := dshot_packet thrust request_telemetry
        let out_buffer := dshot_out_buffer packet
        let (ret, pwe, io_buffer_len) ←
          pwe_io_convert_buffer s.pwe (u16_bytes out_buffer) 16 s.io_buffer_len
        some (ret, some { s with pwe := pwe, io_buffer_len := io_buffer_len })
      else some (ESP_ERR_INVALID_ARG, hdl)

/-! ## Handles of a DShot600 session

`dshot_new_pwe_rmt` and `dshot_new_pwe_spi` create their backend with capacity 16.  For
the DShot600 preset the Buffered-Waveform backend runs at 50 ns per tick (clock divisor 4)
and the Clocked-Shift backend at 333 ns per slot. -/

/-- Buffered-Waveform handle of a DShot600 session, descriptor array not yet written. -/
def dshot600_rmt_handle : pwe_io_rmt_handle_t :=
  { max_payload_length := 16, rmt_conf := { channel := 0, clk_div := 4 }, trst := 3,
    t1h := 25, t1l := 8, t0h := 13, t0l := 21,
    buffer := List.replicate 16 { duration0 := 0, level0 := 0, duration1 := 0, level1 := 0 },
    _total_bits_to_send := 0 }

/-- Clocked-Shift handle of a DShot600 session: slots 4/1 for a 1 bit and 2/3 for a 0 bit,
`buffer_size = 5 * 16` bits in ten zeroed bytes. -/
def dshot600_spi_handle : pwe_io_spi_handle_t :=
  { max_payload_length := 16, sclk := 3003003, t1h := 4, t1l := 1, t0h := 2, t0l := 3,
    trst := 3333, buffer_size := 80, buffer := List.replicate 10 0 }

/-! ## Reference notions used to state the properties -/

/-- Input bit `i` of a byte sequence, most significant bit of each byte first. -/
def src_bit (data : List Nat) (i : Nat) : Bool := (data.getD (i / 8) 0).testBit (7 - i % 8)

/-- Number of slots of the symbol that the Clocked-Shift backend emits for a bit. -/
def spi_slots (h : pwe_io_spi_handle_t) (b : Bool) : Nat :=
  if b then h.t1h + h.t1l else h.t0h + h.t0l

/-- Sum of the slot totals of the first `n` input bits: the output position at which the
symbol of input bit `n` starts. -/
def spi_slot_sum (h : pwe_io_spi_handle_t) (data : List Nat) : Nat → Nat
  | 0 => 0
  | n + 1 => spi_slot_sum h data n + spi_slots h (src_bit data n)

/-- The handle is laid out as `pwe_new_spi_backend` leaves it (lines 196-201):
`buffer_size` is `max_slots_per_bit * buffer_size` bits, the trailing array has
`UINTCEILDIV(buffer_size, 8)` bytes, and neither computation wrapped. -/
def spi_handle_allocated (h : pwe_io_spi_handle_t) : Prop :=
  h.buffer_size = max (h.t0h + h.t0l) (h.t1h + h.t1l) * h.max_payload_length ∧
  h.buffer_size + 7 < 2 ^ 32 ∧
  h.buffer.length = UINTCEILDIV h.buffer_size 8

instance (h : pwe_io_spi_handle_t) : Decidable (spi_handle_allocated h) := by
  unfold spi_handle_allocated
  infer_instance

/-- Number of high slots of the symbol that the Clocked-Shift backend emits for a bit. -/
def spi_slots_high (h : pwe_io_spi_handle_t) (b : Bool) : Nat :=
  if b then h.t1h else h.t0h

/-- Reference expansion: output position `p` is 1 exactly when it lies in the high phase
of the symbol of one of the `len` input bits, the symbol of input bit `i` starting at
`spi_slot_sum h data i`. -/
def spi_expected_bit (h : pwe_io_spi_handle_t) (data : List Nat) (len p : Nat) : Bool :=
  (List.range len).any fun i =>
    decide (spi_slot_sum h data i ≤ p ∧
      p < spi_slot_sum h data i + spi_slots_high h (src_bit data i))

/-- Decoder of the round-trip test, step 1: the length of the run of 1 bits at the start
of the `i`-th window of `S` output bits. -/
def window_run (buffer : List Nat) (S i : Nat) : Nat :=
  (((List.range S).map fun j => src_bit buffer (i * S + j)).takeWhile id).length

/-- Decoder of the round-trip test, step 2: the window reads as 1 iff its run of 1 bits is
longer than half of `S`. -/
def window_decode (buffer : List Nat) (S i : Nat) : Bool := decide (S < 2 * window_run buffer S i)

/-- Buffered-Waveform handle in streaming mode (capacity 0, no descriptor array), as
`led_strip_new_pwe_rmt` creates it: WS2812 timing at 100 ns per tick. -/
def ws2812_rmt_handle : pwe_io_rmt_handle_t :=
  { max_payload_length := 0, rmt_conf := { channel := 0, clk_div := 8 }, trst := 50,
    t1h := 8, t1l := 5, t0h := 4, t0l := 9, buffer := [], _total_bits_to_send := 0 }

/-! ## Timing configuration (`pwe.h`) and the rounding error -/

/-- `pwe_config_t` (`pwe.h` lines 37-47); all fields are `uint32_t` nanoseconds. -/
structure pwe_config_t where
  T1H : Nat
  T1L : Nat
  T0H : Nat
  T0L : Nat
  TRST : Nat
  T1H_ACC : Nat
  T1L_ACC : Nat
  T0H_ACC : Nat
  T0L_ACC : Nat
  deriving DecidableEq, Repr

/-- `calc_aligned_error` (`pwe_io_rmt.c` lines 17-20, repeated word for word in
`pwe_io_spi.c` lines 19-22): `abs((int)(divided - UINTROUNDDIV(divided, divisor) * divisor))`.
The subtraction and the product are `uint32_t`; the cast reads a value of `2 ^ 31` or more
as negative.  Division by zero and `abs(INT_MIN)` are undefined. -/
def calc_aligned_error (divided divisor : Nat) : Option Nat :=
  if divisor = 0 then none
  else
    let diff := u32_sub divided (u32_mul (UINTROUNDDIV divided divisor) divisor)
    if diff < 2 ^ 31 then some diff
    else if diff = 2 ^ 31 then none
    else some (2 ^ 32 - diff)

/-- The C operator `&&` on operands whose evaluation may be undefined: the right operand
is evaluated only when the left one is true. -/
def c_and (a b : Option Bool) : Option Bool :=
  match a with
  | none => none
  | some false => some false
  | some true => b

/-! ## Construction of the Buffered-Waveform backend (`pwe_io_rmt.c` lines 168-210) -/

/-- What `malloc` hands back for the handle: the content of the fresh block is arbitrary,
so the initial value of `_total_bits_to_send` and of every descriptor is a parameter. -/
structure rmt_block where
  total_bits : Nat
  items : Nat → rmt_item32_t

/-- `ITEM_MIN_STEP_NS` as lines 173-174 compute it from the peripheral base clock
`APB_CLK_FREQ` (a constant of the vendor SDK, a parameter here) and the clock divisor.  Both
divisions are undefined for a zero divisor. -/
def rmt_min_step (APB_CLK_FREQ clk_div : Nat) : Option Nat :=
  if clk_div = 0 then none
  else
    let RMT_BASE_CLK_HZ := (APB_CLK_FREQ / clk_div) % 2 ^ 32
    if RMT_BASE_CLK_HZ = 0 then none
    else some (1000000000 / RMT_BASE_CLK_HZ)

/-- `pwe_new_rmt_backend`.  `config` and `rmt_conf` are `none` for a NULL pointer; `block`
is the result of `malloc` (`none` when it fails), whose request size
`sizeof(pwe_io_rmt_handle_t) + buffer_size * sizeof(rmt_item32_t)` is taken not to wrap.
The result is the error code and the handle stored through `handle` (`none` when nothing
is stored).  The tick counts are `uint16_t` fields. -/
def pwe_new_rmt_backend (APB_CLK_FREQ : Nat) (config : Option pwe_config_t)
    (rmt_conf : Option rmt_config_t) (buffer_size : Nat) (block : Option rmt_block) :
    Option (esp_err_t × Option pwe_io_rmt_handle_t) :=
  match config, rmt_conf with
  | none, _ => some (ESP_ERR_INVALID_ARG, none)
  | some _, none => some (ESP_ERR_INVALID_ARG, none)
  | some config, some rmt_conf => do
      let ITEM_MIN_STEP_NS ← rmt_min_step APB_CLK_FREQ rmt_conf.clk_div
      let ITEM_MAX_PERIOD_NS := u32_mul ITEM_MIN_STEP_NS 0x7fff
      if ¬ (config.T1H ≤ ITEM_MAX_PERIOD_NS ∧ config.T1L ≤ ITEM_MAX_PERIOD_NS ∧
            config.T0H ≤ ITEM_MAX_PERIOD_NS ∧ config.T0L ≤ ITEM_MAX_PERIOD_NS) then
        some (ESP_ERR_INVALID_ARG, none)
      else do
        let resolution_ok ←
          c_and ((calc_aligned_error config.T1H ITEM_MIN_STEP_NS).map (decide <| · < config.T1H_ACC))
          (c_and ((calc_aligned_error config.T1L ITEM_MIN_STEP_NS).map (decide <| · < config.T1L_ACC))
          (c_and ((calc_aligned_error config.T0H ITEM_MIN_STEP_NS).map (decide <| · < config.T0H_ACC))
                 ((calc_aligned_error config.T0L ITEM_MIN_STEP_NS).map (decide <| · < config.T0L_ACC))))
        if ¬ resolution_ok then some (ESP_ERR_INVALID_ARG, none)
        else
          match block with
          | none => some (ESP_ERR_NO_MEM, none)
          | some block =>
              let trst := config.TRST / 1000
              let trst := if trst = 0 then 1 else trst
              some (ESP_OK, some
                { max_payload_length := buffer_size
                  rmt_conf := rmt_conf
                  trst := trst
                  t1h := UINTROUNDDIV config.T1H ITEM_MIN_STEP_NS % 2 ^ 16
                  t1l := UINTROUNDDIV config.T1L ITEM_MIN_STEP_NS % 2 ^ 16
                  t0h := UINTROUNDDIV config.T0H ITEM_MIN_STEP_NS % 2 ^ 16
                  t0l := UINTROUNDDIV config.T0L ITEM_MIN_STEP_NS % 2 ^ 16
                  buffer := (List.range buffer_size).map block.items
                  _total_bits_to_send := block.total_bits })

/-- Distance from `d` to the nearest multiple of `s`. -/
def dist_to_multiple (d s : Nat) : Nat := min (d % s) (s - d % s)

/-- Absolute difference of two naturals, `|a - b|`. -/
def abs_diff (a b : Nat) : Nat := (a - b) + (b - a)

/-- The clock arithmetic of lines 173-175 is defined and does not wrap: the divisor is not
zero, the divided clock is between 1 Hz and 1 GHz, and `ITEM_MIN_STEP_NS * 0x7fff` plus
half a step fits 32 bits.  With an 80 MHz base clock this holds for every divisor from 1
to 255. -/
def rmt_clock_ok (APB_CLK_FREQ clk_div : Nat) : Prop :=
  0 < clk_div ∧ clk_div ≤ APB_CLK_FREQ ∧ APB_CLK_FREQ / clk_div ≤ 1000000000 ∧
  APB_CLK_FREQ / clk_div < 2 ^ 32 ∧
  (1000000000 / (APB_CLK_FREQ / clk_div)) * 0x8000 ≤ 2 ^ 32

instance (APB_CLK_FREQ clk_div : Nat) : Decidable (rmt_clock_ok APB_CLK_FREQ clk_div) := by
  unfold rmt_clock_ok
  infer_instance

/-- The DShot600 preset `PWE_DSHOT600_CONFIG` (`dshot.h` lines 48-59). -/
def PWE_DSHOT600_CONFIG : pwe_config_t :=
  { T1H := 1250, T1L := 416, T0H := 625, T0L := 1041,
    T1H_ACC := 200, T1L_ACC := 200, T0H_ACC := 200, T0L_ACC := 200, TRST := 3333 }

/-- The rejection condition of the Buffered-Waveform constructor in the words of the spec:
some duration exceeds `minStep * 0x7FFF`, or the distance from some duration to its
nearest multiple of `minStep` is at least that duration's tolerance. -/
def rmt_timing_infeasible (config : pwe_config_t) (minStep : Nat) : Prop :=
  (minStep * 0x7FFF < config.T1H ∨ minStep * 0x7FFF < config.T1L ∨
   minStep * 0x7FFF < config.T0H ∨ minStep * 0x7FFF < config.T0L) ∨
  (config.T1H_ACC ≤ dist_to_multiple config.T1H minStep ∨
   config.T1L_ACC ≤ dist_to_multiple config.T1L minStep ∨
   config.T0H_ACC ≤ dist_to_multiple config.T0H minStep ∨
   config.T0L_ACC ≤ dist_to_multiple config.T0L minStep)

instance (config : pwe_config_t) (minStep : Nat) : Decidable (rmt_timing_infeasible config minStep) := by
  unfold rmt_timing_infeasible
  infer_instance

/-- What holds of a stored tick count: it is the duration rounded to the nearest multiple
of the step, `(d + s / 2) / s`, it is within half a step and within the tolerance of the
duration, and it fits the 15-bit duration field. -/
def rmt_tick_ok (ticks d s tol : Nat) : Prop :=
  ticks = (d + s / 2) / s ∧ abs_diff (ticks * s) d ≤ s / 2 ∧ abs_diff (ticks * s) d < tol ∧
  ticks ≤ 0x7FFF

/-! ## Construction of the Clocked-Shift backend (`pwe_io_spi.c` lines 24-59, 175-214) -/

/-- The three variables that the scan of `find_suitable_factor` updates; the last two are
`uint16_t`. -/
structure factor_state where
  current_factor : Nat
  current_error : Nat
  current_multiple : Nat
  deriving DecidableEq, Repr

/-- One pass through the body of the `for` loop of `find_suitable_factor` (lines 36-56) for
the candidate `num`.  The result is the state after the pass and whether the loop is left
by `break`.  The four errors and `temp_multiple` are `uint16_t`. -/
def find_suitable_factor_body (a b c d range max_val num : Nat) (st : factor_state) :
    Option (factor_state × Bool) := do
  let a_align_err := (← calc_aligned_error a num) % 2 ^ 16
  let b_align_err := (← calc_aligned_error b num) % 2 ^ 16
  let c_align_err := (← calc_aligned_error c num) % 2 ^ 16
  let d_align_err := (← calc_aligned_error d num) % 2 ^ 16
  let max_align_err := if a_align_err > b_align_err then a_align_err else b_align_err
  let max_align_err := if max_align_err > c_align_err then max_align_err else c_align_err
  let max_align_err := if max_align_err > d_align_err then max_align_err else d_align_err
  if max_align_err < range then
    let temp_multiple := UINTROUNDDIV max_val num % 2 ^ 16
    if temp_multiple > 4 then some (st, true)
    else if (max_align_err < st.current_error ∧ st.current_multiple ≤ temp_multiple) ∨
        (max_align_err < st.current_error / 2 ∧ temp_multiple > st.current_multiple) then
      some ({ current_factor := num, current_error := max_align_err,
              current_multiple := temp_multiple }, false)
    else some (st, false)
  else some (st, false)

/-- The loop `for (uint32_t num = ...; num > 1; --num)` of `find_suitable_factor`, by
recursion on the value of `num`. -/
def find_suitable_factor_loop (a b c d range max_val : Nat) :
    Nat → factor_state → Option factor_state
  | 0, st => some st
  | 1, st => some st
  | num + 2, st => do
      let (st, left) ← find_suitable_factor_body a b c d range max_val (num + 2) st
      if left then some st
      else find_suitable_factor_loop a b c d range max_val (num + 1) st

set_option linter.unusedVariables false in
/-- `find_suitable_factor` (lines 24-59).  `range` is a `uint16_t` parameter, the argument
is converted on entry.  Lines 30 and 31 assign to `min_val`, as in the source, so that
`max_val` stays the larger of `a` and `b`. -/
def find_suitable_factor (a b c d range : Nat) : Option Nat := do
  let range := range % 2 ^ 16
  let min_val := if a < b then a else b
  let min_val := if min_val < c then min_val else c
  let min_val := if min_val < d then min_val else d
  let max_val := if a > b then a else b
  let min_val := if max_val > c then max_val else c
  let min_val := if max_val > d then max_val else d
  let current_factor := 0
  let current_error := (range + 1) % 2 ^ 16
  let current_multiple := 0
  let st ← find_suitable_factor_loop a b c d range max_val (u32_sub ((min_val + range) % 2 ^ 32) 1)
    { current_factor := current_factor, current_error := current_error,
      current_multiple := current_multiple }
  some st.current_factor

/-- `accepted_range` of line 183: the `uint32_t` sum of the four tolerances, divided by 4. -/
def spi_accepted_range (config : pwe_config_t) : Nat :=
  ((config.T1H_ACC + config.T1L_ACC + config.T0H_ACC + config.T0L_ACC) % 2 ^ 32) / 4

/-- `pwe_io_spi_config_t` (`pwe_io_spi.h` lines 17-20). -/
structure pwe_io_spi_config_t where
  gpio : Nat
  spi_bus : Nat
  deriving DecidableEq, Repr

/-- `pwe_new_spi_backend` (lines 175-214).  `config` and `spi_conf` are `none` for a NULL
pointer (`spi_conf` is not tested, and copying from NULL is undefined); `calloc_ok` tells
whether `heap_caps_calloc` succeeds, and its block is zeroed.  The result is the error
code and the handle stored through `handle` (`none` when nothing is stored).  The slot
counts are `uint8_t` fields, `max_slots_per_bit` is a `uint16_t`. -/
def pwe_new_spi_backend (config : Option pwe_config_t) (spi_conf : Option pwe_io_spi_config_t)
    (buffer_size : Nat) (calloc_ok : Bool) : Option (esp_err_t × Option pwe_io_spi_handle_t) :=
  match config with
  | none => some (ESP_ERR_INVALID_ARG, none)
  | some config => do
      let trst := config.TRST
      let accepted_range := spi_accepted_range config
      let period_per_slot_ns ←
        find_suitable_factor config.T1H config.T1L config.T0H config.T0L accepted_range
      if period_per_slot_ns = 0 then some (ESP_ERR_INVALID_ARG, none)
      else
        let sclk := 1000000000 / period_per_slot_ns
        let t1h := UINTROUNDDIV config.T1H period_per_slot_ns % 2 ^ 8
        let t1l := UINTROUNDDIV config.T1L period_per_slot_ns % 2 ^ 8
        let t0h := UINTROUNDDIV config.T0H period_per_slot_ns % 2 ^ 8
        let t0l := UINTROUNDDIV config.T0L period_per_slot_ns % 2 ^ 8
        let max_slots_per_bit := (if t0h + t0l > t1h + t1l then t0h + t0l else t1h + t1l) % 2 ^ 16
        let temp_buffer_size := u32_mul max_slots_per_bit buffer_size
        if ¬ calloc_ok then some (ESP_ERR_NO_MEM, none)
        else
          match spi_conf with
          | none => none
          | some _ =>
              some (ESP_OK, some
                { max_payload_length := buffer_size
                  sclk := sclk
                  t1h := t1h, t1l := t1l, t0h := t0h, t0l := t0l
                  trst := trst
                  buffer_size := temp_buffer_size
                  buffer := List.replicate (UINTCEILDIV temp_buffer_size 8) 0 })

/-- The candidate period `num` passes the tests of lines 43 and 45 of
`find_suitable_factor`: its four rounding errors, as `uint16_t`, are below `range`, and
the multiple of `max_val`, as `uint16_t`, is at most 4. -/
def factor_ok (a b c d range max_val num : Nat) : Prop :=
  ∃ ea eb ec ed, calc_aligned_error a num = some ea ∧ calc_aligned_error b num = some eb ∧
    calc_aligned_error c num = some ec ∧ calc_aligned_error d num = some ed ∧
    ea % 2 ^ 16 < range ∧ eb % 2 ^ 16 < range ∧ ec % 2 ^ 16 < range ∧ ed % 2 ^ 16 < range ∧
    UINTROUNDDIV max_val num % 2 ^ 16 ≤ 4

/-! ## Calls into the vendor SDK -/

/-- A call that the driver makes into the peripheral drivers, the timer service, the
spinlock, the ROM or the heap of the vendor SDK, with the arguments that matter here.
Functions that make such calls return the list of their calls in order. -/
inductive hw_call
  | rmt_config (conf : rmt_config_t)
  | rmt_driver_install (channel : Nat)
  | rmt_translator_init (channel : Nat)
  | rmt_translator_set_context (channel : Nat)
  | rmt_write_items (channel : Nat) (items : List rmt_item32_t) (item_num : Nat)
  | rmt_write_sample (channel : Nat) (src : List Nat) (src_size : Nat)
  | spi_bus_initialize (max_transfer_sz : Nat)
  | spi_bus_add_device (clock_speed_hz : Nat)
  | spi_device_transmit (length : Nat) (tx_buffer : List Nat)
  | esp_rom_delay_us (us : Nat)
  | free_pwe
  | free_dshot
  | spinlock_acquire
  | spinlock_release
  | esp_timer_create
  | esp_timer_start_periodic (timer : Nat) (period : Nat)
  | esp_timer_stop (timer : Nat)
  deriving DecidableEq, Repr

/-- The environment of the driver: the error code that each call returns. -/
abbrev hw_env := hw_call → esp_err_t

/-- A chain of `ESP_RETURN_ON_ERROR(call, ...)` statements followed by `return ESP_OK`:
the calls are made in order up to the first one that fails, whose code is returned. -/
def hw_chain (hw : hw_env) : List hw_call → esp_err_t × List hw_call
  | [] => (ESP_OK, [])
  | c :: cs =>
      if hw c ≠ ESP_OK then (hw c, [c])
      else ((hw_chain hw cs).1, c :: (hw_chain hw cs).2)

/-! ## Transmission and reset of the two backends -/

/-- `pwe_io_rmt_init` (`pwe_io_rmt.c` lines 98-106). -/
def pwe_io_rmt_init (hw : hw_env) (h : pwe_io_rmt_handle_t) : esp_err_t × List hw_call :=
  hw_chain hw
    [hw_call.rmt_config h.rmt_conf, hw_call.rmt_driver_install h.rmt_conf.channel,
     hw_call.rmt_translator_init h.rmt_conf.channel,
     hw_call.rmt_translator_set_context h.rmt_conf.channel]

/-- `pwe_io_rmt_write` (`pwe_io_rmt.c` lines 136-141): the descriptor array and the count
are handed to `rmt_write_items`. -/
def pwe_io_rmt_write (hw : hw_env) (h : pwe_io_rmt_handle_t) (len : Nat) :
    esp_err_t × List hw_call :=
  hw_chain hw [hw_call.rmt_write_items h.rmt_conf.channel h.buffer len]

/-- `pwe_io_rmt_on_the_fly_send` (`pwe_io_rmt.c` lines 143-149): the bit count is recorded,
`rmt_write_sample` is called, its result is not looked at, and `ESP_OK` is returned. -/
def pwe_io_rmt_on_the_fly_send (h : pwe_io_rmt_handle_t) (data : List Nat) (len : Nat) :
    esp_err_t × pwe_io_rmt_handle_t × List hw_call :=
  ( ESP_OK, (pwe_io_rmt_on_the_fly_send_prepare h len).1,
    [hw_call.rmt_write_sample h.rmt_conf.channel data
      (pwe_io_rmt_on_the_fly_send_prepare h len).2] )

/-- The function `pwe_io_spi_ensure_rst` of `pwe_io_rmt.c` (lines 151-166), which is the
reset of the Buffered-Waveform backend: one descriptor with both levels low is written,
then the delay is requested.  The handle is a value, so the NULL test has no counterpart. -/
def pwe_io_rmt.pwe_io_spi_ensure_rst (h : pwe_io_rmt_handle_t) : esp_err_t × List hw_call :=
  let rmt_item : rmt_item32_t := { duration0 := 1, duration1 := 1, level0 := 0, level1 := 0 }
  (ESP_OK, [hw_call.rmt_write_items h.rmt_conf.channel [rmt_item] 1,
            hw_call.esp_rom_delay_us h.trst])

/-- `pwe_io_spi_init` (`pwe_io_spi.c` lines 75-100). -/
def pwe_io_spi_init (hw : hw_env) (h : pwe_io_spi_handle_t) : esp_err_t × List hw_call :=
  hw_chain hw
    [hw_call.spi_bus_initialize (UINTCEILDIV h.max_payload_length 8),
     hw_call.spi_bus_add_device h.sclk]

/-- `pwe_io_spi_write` (`pwe_io_spi.c` lines 152-163): a transaction of `len` bits from the
byte buffer. -/
def pwe_io_spi_write (hw : hw_env) (h : pwe_io_spi_handle_t) (len : Nat) :
    esp_err_t × List hw_call :=
  hw_chain hw [hw_call.spi_device_transmit len h.buffer]

/-- `pwe_io_spi_ensure_rst` of `pwe_io_spi.c` (lines 165-173). -/
def pwe_io_spi_ensure_rst (h : pwe_io_spi_handle_t) : esp_err_t × List hw_call :=
  let delay_us := h.trst / 1000
  let delay_us := if delay_us = 0 then 1 else delay_us
  (ESP_OK, [hw_call.esp_rom_delay_us delay_us])

/-! ## Backend interface, continued (`pwe.c`) -/

/-- `handle->init`, applied to the handle. -/
def pwe_t.init : pwe_t → Option (hw_env → esp_err_t × List hw_call)
  | .rmt h => some fun hw => pwe_io_rmt_init hw h
  | .spi h => some fun hw => pwe_io_spi_init hw h

/-- `handle->write`, applied to the handle. -/
def pwe_t.write : pwe_t → Option (hw_env → Nat → esp_err_t × List hw_call)
  | .rmt h => some fun hw len => pwe_io_rmt_write hw h len
  | .spi h => some fun hw len => pwe_io_spi_write hw h len

/-- `handle->on_the_fly_send`, applied to the handle; the Clocked-Shift constructor
stores NULL (`pwe_io_spi.c` line 209). -/
def pwe_t.on_the_fly_send : pwe_t → Option (List Nat → Nat → esp_err_t × pwe_t × List hw_call)
  | .rmt h => some fun data len =>
      ((pwe_io_rmt_on_the_fly_send h data len).1,
       pwe_t.rmt (pwe_io_rmt_on_the_fly_send h data len).2.1,
       (pwe_io_rmt_on_the_fly_send h data len).2.2)
  | .spi _ => none

/-- `handle->ensure_rst`, applied to the handle. -/
def pwe_t.ensure_rst : pwe_t → Option (esp_err_t × List hw_call)
  | .rmt h => some (pwe_io_rmt.pwe_io_spi_ensure_rst h)
  | .spi h => some (pwe_io_spi_ensure_rst h)

/-- `pwe_init` (`pwe.c` lines 12-17). -/
def pwe_init (hw : hw_env) (handle : pwe_handle_t) : esp_err_t × List hw_call :=
  match handle with
  | none => (ESP_ERR_INVALID_ARG, [])
  | some p =>
      match p.init with
      | none => (ESP_ERR_INVALID_ARG, [])
      | some init => init hw

/-- `pwe_io_write` (`pwe.c` lines 53-58). -/
def pwe_io_write (hw : hw_env) (handle : pwe_handle_t) (len : Nat) : esp_err_t × List hw_call :=
  match handle with
  | none => (ESP_ERR_INVALID_ARG, [])
  | some p =>
      match p.write with
      | none => (ESP_ERR_INVALID_ARG, [])
      | some write => write hw len

/-- `pwe_ensure_rst` (`pwe.c` lines 60-64).  The handle is dereferenced without a NULL
test. -/
def pwe_ensure_rst (handle : pwe_handle_t) : Option (esp_err_t × List hw_call) :=
  match handle with
  | none => none
  | some p =>
      match p.ensure_rst with
      | none => some (ESP_ERR_INVALID_ARG, [])
      | some r => some r

/-- `pwe_send` (`pwe.c` lines 26-43).  The result is the error code, the encoder after the
call and the calls made. -/
def pwe_send (hw : hw_env) (handle : pwe_handle_t) (data : List Nat) (len : Nat) :
    Option (esp_err_t × pwe_handle_t × List hw_call) :=
  match handle with
  | none => some (ESP_ERR_INVALID_ARG, handle, [])
  | some p =>
      let outgoing_buffer_size := 0
      if p.max_payload_length = 0 then
        match p.on_the_fly_send with
        | some on_the_fly_send =>
            some ((on_the_fly_send data len).1, some (on_the_fly_send data len).2.1,
                  (on_the_fly_send data len).2.2)
        | none => some (ESP_ERR_INVALID_STATE, handle, [])
      else if ¬ (len ≤ p.max_payload_length) then some (ESP_ERR_INVALID_ARG, handle, [])
      else do
        let (err, handle, outgoing_buffer_size) ←
          pwe_io_convert_buffer handle data len outgoing_buffer_size
        if err ≠ ESP_OK then some (err, handle, [])
        else
          let (err, calls) := pwe_io_write hw handle outgoing_buffer_size
          if err ≠ ESP_OK then some (err, handle, calls)
          else some (ESP_OK, handle, calls)

/-- `pwe_delete_rmt_backend` (`pwe_io_rmt.c` lines 212-218). -/
def pwe_delete_rmt_backend (handle : pwe_handle_t) : esp_err_t × List hw_call :=
  match handle with
  | none => (ESP_ERR_INVALID_ARG, [])
  | some _ => (ESP_OK, [hw_call.free_pwe])

/-! ## Creation of a DShot session (`dshot.c` lines 27-89) -/

/-- The tail shared by `dshot_new_pwe_rmt` (lines 38-53) and `dshot_new_pwe_spi` (lines
73-88) once the backend exists.  `hdl` tells whether the output pointer is non-NULL (this
is what line 39 tests); `dshot_block` is the result of `malloc(sizeof(dshot_t))`, `none`
when it fails, otherwise the arbitrary initial value of `io_buffer_len`.  Storing through
a NULL `dshot_handle` is undefined.  Both error labels end in
`ESP_ERROR_CHECK(pwe_delete_rmt_backend(pwe_handle))`, which aborts on an error. -/
def dshot_new_tail (hw : hw_env) (pwe_handle : pwe_handle_t) (hdl : Bool)
    (dshot_block : Option Nat) : Option (esp_err_t × dshot_handle_t × List hw_call) :=
  let err_dshot_alloc (ret : esp_err_t) (calls : List hw_call) :
      Option (esp_err_t × dshot_handle_t × List hw_call) :=
    if (pwe_delete_rmt_backend pwe_handle).1 ≠ ESP_OK then none
    else some (ret, none, calls ++ (pwe_delete_rmt_backend pwe_handle).2)
  if ¬ hdl then err_dshot_alloc ESP_ERR_NO_MEM []
  else
    match dshot_block with
    | none => none
    | some io_buffer_len =>
        let dshot_handle : dshot_s := { pwe := pwe_handle, io_buffer_len := io_buffer_len }
        if (pwe_init hw pwe_handle).1 ≠ ESP_OK then
          err_dshot_alloc (pwe_init hw pwe_handle).1
            ((pwe_init hw pwe_handle).2 ++ [hw_call.free_dshot])
        else some (ESP_OK, some dshot_handle, (pwe_init hw pwe_handle).2)

/-- `dshot_new_pwe_rmt` (lines 27-54).  The clock divisor of the copied configuration is
forced to 4 and the backend gets capacity 16.  The result is the error code, the session
stored through `hdl` (`none` when nothing is stored) and the calls made. -/
def dshot_new_pwe_rmt (APB_CLK_FREQ : Nat) (hw : hw_env) (pwe_conf : Option pwe_config_t)
    (rmt_conf : Option rmt_config_t) (hdl : Bool) (pwe_block : Option rmt_block)
    (dshot_block : Option Nat) : Option (esp_err_t × dshot_handle_t × List hw_call) :=
  match pwe_conf, rmt_conf with
  | none, _ => some (ESP_ERR_INVALID_ARG, none, [])
  | some _, none => some (ESP_ERR_INVALID_ARG, none, [])
  | some pwe_conf, some rmt_conf => do
      let rmtconf := { rmt_conf with clk_div := 4 }
      let (err, pwe_handle) ←
        pwe_new_rmt_backend APB_CLK_FREQ (some pwe_conf) (some rmtconf) 16 pwe_block
      if err ≠ ESP_OK then some (err, none, [])
      else dshot_new_tail hw (pwe_handle.map pwe_t.rmt) hdl dshot_block

/-- `dshot_new_pwe_spi` (lines 65-89). -/
def dshot_new_pwe_spi (hw : hw_env) (pwe_conf : Option pwe_config_t)
    (spi_conf : Option pwe_io_spi_config_t) (hdl : Bool) (calloc_ok : Bool)
    (dshot_block : Option Nat) : Option (esp_err_t × dshot_handle_t × List hw_call) :=
  match pwe_conf, spi_conf with
  | none, _ => some (ESP_ERR_INVALID_ARG, none, [])
  | some _, none => some (ESP_ERR_INVALID_ARG, none, [])
  | some pwe_conf, some spi_conf => do
      let (err, pwe_handle) ← pwe_new_spi_backend (some pwe_conf) (some spi_conf) 16 calloc_ok
      if err ≠ ESP_OK then some (err, none, [])
      else dshot_new_tail hw (pwe_handle.map pwe_t.spi) hdl dshot_block

/-! ## Further reference notions and inputs -/

/-- The time for which a list of calls asks `esp_rom_delay_us` to wait, in microseconds. -/
def requested_delay_us : List hw_call → Nat
  | [] => 0
  | hw_call.esp_rom_delay_us us :: cs => us + requested_delay_us cs
  | _ :: cs => requested_delay_us cs

/-- The preset `PWE_DSHOT600_CONFIG` with its reset time replaced. -/
def dshot600_config_with_trst (TRST : Nat) : pwe_config_t :=
  { PWE_DSHOT600_CONFIG with TRST := TRST }

/-- A timing whose four durations are 1 ns, each with a tolerance of 40 ns. -/
def one_ns_config : pwe_config_t :=
  { T1H := 1, T1L := 1, T0H := 1, T0L := 1,
    T1H_ACC := 40, T1L_ACC := 40, T0H_ACC := 40, T0L_ACC := 40, TRST := 1000 }

/-- The Clocked-Shift handle that `pwe_new_spi_backend` returns for `one_ns_config` and
capacity 16: a period of 40 ns (a clock of 25 MHz), every slot count 0, no buffer byte. -/
def one_ns_spi_handle : pwe_io_spi_handle_t :=
  { max_payload_length := 16, sclk := 25000000, t1h := 0, t1l := 0, t0h := 0, t0l := 0,
    trst := 1000, buffer_size := 0, buffer := [] }

/-! ## Start, stop and periodic resend of a DShot session (`dshot.c` lines 100-127) -/

/-- What a function of `dshot.c` does, in order, as far as the lock, the timer and the
staged frame are concerned: a call into the vendor SDK, the call of
`pwe_io_convert_buffer` on the encoder and the stored length of the session (which writes
the outgoing buffer and `io_buffer_len`), or the call of `pwe_io_write` with the stored
length (which reads both and transmits, `calls` being the calls it makes). -/
inductive dshot_event
  | call (c : hw_call)
  | convert_buffer
  | io_write (len : Nat) (calls : List hw_call)
  deriving DecidableEq, Repr

/-- The events of `dshot_update` (lines 129-165): none on the two early returns of lines
131-132, otherwise the three statements of lines 161-163. -/
def dshot_update_events (hdl : dshot_handle_t) (thrust : Nat) : List dshot_event :=
  match hdl with
  | none => []
  | some _ =>
      if thrust ≤ 2000 then
        [dshot_event.call hw_call.spinlock_acquire, dshot_event.convert_buffer,
         dshot_event.call hw_call.spinlock_release]
      else []

/-- `periodic_timer_callback` (lines 100-106): the events it produces.  `arg` is
dereferenced without a test; the result of `pwe_io_write` is dropped. -/
def periodic_timer_callback (hw : hw_env) (arg : dshot_handle_t) : Option (List dshot_event) :=
  match arg with
  | none => none
  | some hdl =>
      some [dshot_event.call hw_call.spinlock_acquire,
            dshot_event.io_write hdl.io_buffer_len (pwe_io_write hw hdl.pwe hdl.io_buffer_len).2,
            dshot_event.call hw_call.spinlock_release]

/-- `dshot_start` (lines 108-121).  `timer` is the handle that `esp_timer_create` stores
through `&hdl->periodic_timer` when it succeeds.  The result is the error code, the
session after the call and the events. -/
def dshot_start (hw : hw_env) (hdl : dshot_handle_t) (interval_us timer : Nat) :
    Option (esp_err_t × dshot_handle_t × List dshot_event) :=
  match hdl with
  | none => some (ESP_ERR_INVALID_ARG, hdl, [])
  | some _ => do
      let (err, updated) ← dshot_update hdl 0 false
      let events := dshot_update_events hdl 0
      if err ≠ ESP_OK then some (err, updated, events)
      else if hw hw_call.esp_timer_create ≠ ESP_OK then
        some (hw hw_call.esp_timer_create, updated,
              events ++ [dshot_event.call hw_call.esp_timer_create])
      else
        some (hw (hw_call.esp_timer_start_periodic timer interval_us),
              updated.map fun s => { s with periodic_timer := some timer },
              events ++ [dshot_event.call hw_call.esp_timer_create,
                         dshot_event.call (hw_call.esp_timer_start_periodic timer interval_us)])

/-- `dshot_stop` (lines 123-127).  Passing the indeterminate content of a
`periodic_timer` field that was never written to `esp_timer_stop` is undefined. -/
def dshot_stop (hw : hw_env) (hdl : dshot_handle_t) :
    Option (esp_err_t × dshot_handle_t × List dshot_event) :=
  match hdl with
  | none => some (ESP_ERR_INVALID_ARG, hdl, [])
  | some s =>
      match s.periodic_timer with
      | none => none
      | some timer =>
          some (hw (hw_call.esp_timer_stop timer), hdl,
                [dshot_event.call (hw_call.esp_timer_stop timer)])

/-! ## The session lock -/

/-- The two actors that run code on a session. -/
inductive dshot_actor
  | application
  | resend_task
  deriving DecidableEq, Repr

/-- The event reads or writes the outgoing buffer or its stored length. -/
def dshot_event.accesses_frame : dshot_event → Bool
  | dshot_event.convert_buffer => true
  | dshot_event.io_write _ _ => true
  | dshot_event.call _ => false

/-- The lock discipline of one actor, checked along its events: `held` tells whether the
actor holds the lock.  The actor acquires only while it does not hold the lock, releases
only while it holds it, and touches the outgoing buffer or its length only while it holds
it.  The result is `held` after the events, `none` when the discipline is broken. -/
def lock_discipline : Bool → List dshot_event → Option Bool
  | held, [] => some held
  | held, dshot_event.call hw_call.spinlock_acquire :: es =>
      if held then none else lock_discipline true es
  | held, dshot_event.call hw_call.spinlock_release :: es =>
      if held then lock_discipline false es else none
  | held, e :: es => if e.accesses_frame && !held then none else lock_discipline held es

/-- Whether some `pwe_io_write` is called while the lock is held. -/
def transmits_while_locked : Bool → List dshot_event → Bool
  | _, [] => false
  | _, dshot_event.call hw_call.spinlock_acquire :: es => transmits_while_locked true es
  | _, dshot_event.call hw_call.spinlock_release :: es => transmits_while_locked false es
  | held, dshot_event.io_write _ _ :: es => held || transmits_while_locked held es
  | held, _ :: es => transmits_while_locked held es

/-- Modelled from the spec: the session lock, a "mutual-exclusion primitive" whose code
(`spinlock_acquire` and `spinlock_release` of the vendor SDK) is not part of the
repository.  The state is the actor that holds the lock, if any.  An acquire returns only
while no actor holds the lock; a release leaves the lock free; no other event changes it.
The result is `none` when the step cannot happen. -/
def lock_step (holder : Option dshot_actor) (a : dshot_actor) (e : dshot_event) :
    Option (Option dshot_actor) :=
  match e with
  | dshot_event.call hw_call.spinlock_acquire => if holder = none then some (some a) else none
  | dshot_event.call hw_call.spinlock_release => some none
  | _ => some holder

/-- A schedule is the sequence of the events of both actors in the order in which they
happen.  `lock_run` follows the lock along a schedule. -/
def lock_run : Option dshot_actor → List (dshot_actor × dshot_event) → Option (Option dshot_actor)
  | holder, [] => some holder
  | holder, (a, e) :: rest => (lock_step holder a e).bind fun next => lock_run next rest

/-- The events of one actor in a schedule. -/
def actor_events (a : dshot_actor) (schedule : List (dshot_actor × dshot_event)) :
    List dshot_event :=
  (schedule.filter fun p => p.1 = a).map Prod.snd

/-! ## Pixel strip (`led_strip_pwe.c`) -/

/-- `ws2812_t` (lines 21-26).  The function pointers of `parent` are the ones that both
constructors store (lines 89-93, 128-132). -/
structure ws2812_t where
  pwe_handle : pwe_handle_t
  strip_len : Nat
  buffer : List Nat
  deriving DecidableEq, Repr

/-- `led_strip_handle_t`, a pointer that may be NULL. -/
abbrev led_strip_handle_t := Option ws2812_t

/-- `led_strip_pwe_set_pixel` (lines 43-54); `index` and the colours are `uint32_t`. -/
def led_strip_pwe_set_pixel (strip : led_strip_handle_t) (index red green blue : Nat) :
    Option (esp_err_t × led_strip_handle_t) :=
  match strip with
  | none => some (ESP_ERR_INVALID_ARG, strip)
  | some ws2812 =>
      if index < ws2812.strip_len then do
        let start := u32_mul index 3
        let buffer ← wr ws2812.buffer ((start + 0) % 2 ^ 32) ((green &&& 0xFF) % 2 ^ 8)
        let buffer ← wr buffer ((start + 1) % 2 ^ 32) ((red &&& 0xFF) % 2 ^ 8)
        let buffer ← wr buffer ((start + 2) % 2 ^ 32) ((blue &&& 0xFF) % 2 ^ 8)
        some (ESP_OK, some { ws2812 with buffer := buffer })
      else some (ESP_ERR_INVALID_ARG, strip)

set_option linter.unusedVariables false in
/-- `led_strip_pwe_refresh` (lines 56-61).  The result is the error code, the strip after
the call (its encoder may have changed) and the calls made. -/
def led_strip_pwe_refresh (hw : hw_env) (strip : led_strip_handle_t) (timeout_ms : Nat) :
    Option (esp_err_t × led_strip_handle_t × List hw_call) :=
  match strip with
  | none => some (ESP_ERR_INVALID_ARG, strip, [])
  | some ws2812 => do
      let (err, pwe_handle, calls) ←
        pwe_send hw ws2812.pwe_handle ws2812.buffer (u32_mul (u32_mul ws2812.strip_len 3) 8)
      some (err, some { ws2812 with pwe_handle := pwe_handle }, calls)

/-- `led_strip_pwe_clear` (lines 63-70). -/
def led_strip_pwe_clear (hw : hw_env) (strip : led_strip_handle_t) (timeout_ms : Nat) :
    Option (esp_err_t × led_strip_handle_t × List hw_call) :=
  match strip with
  | none => some (ESP_ERR_INVALID_ARG, strip, [])
  | some ws2812 => do
      let buffer ← memset_zero ws2812.buffer (u32_mul ws2812.strip_len 3)
      led_strip_pwe_refresh hw (some { ws2812 with buffer := buffer }) timeout_ms

/-! ## The period search, pass by pass -/

/-- The first `k` passes of the loop of `find_suitable_factor` that starts at the
candidate `n + k`: the candidates `n + k`, ..., `n + 1` in this order.  The result is the
state after them and whether the loop was left by `break`. -/
def find_suitable_factor_passes (a b c d range max_val n : Nat) :
    Nat → factor_state → Option (factor_state × Bool)
  | 0, st => some (st, false)
  | k + 1, st => do
      let (st, left) ← find_suitable_factor_body a b c d range max_val (n + k + 1) st
      if left then some (st, true)
      else find_suitable_factor_passes a b c d range max_val n k st

/-! ## Further inputs -/

/-- A strip of two pixels on the streaming Buffered-Waveform handle, cache cleared. -/
def two_pixel_strip : ws2812_t :=
  { pwe_handle := some (pwe_t.rmt ws2812_rmt_handle), strip_len := 2,
    buffer := List.replicate 6 0 }

/-- A DShot session on the Buffered-Waveform handle of DShot600 whose timer was created. -/
def dshot600_rmt_session : dshot_s :=
  { pwe := some (pwe_t.rmt dshot600_rmt_handle), io_buffer_len := 16, periodic_timer := some 1 }

/-! ## The other DShot presets (`dshot.h` lines 22-72) -/

/-- The preset `PWE_DSHOT150_CONFIG` (`dshot.h` lines 22-33). -/
def PWE_DSHOT150_CONFIG : pwe_config_t :=
  { T1H := 5000, T1L := 1666, T0H := 2500, T0L := 4167,
    T1H_ACC := 800, T1L_ACC := 800, T0H_ACC := 800, T0L_ACC := 800, TRST := 13333 }

/-- The preset `PWE_DSHOT300_CONFIG` (`dshot.h` lines 35-46). -/
def PWE_DSHOT300_CONFIG : pwe_config_t :=
  { T1H := 2500, T1L := 833, T0H := 1250, T0L := 2083,
    T1H_ACC := 400, T1L_ACC := 400, T0H_ACC := 400, T0L_ACC := 400, TRST := 6666 }

/-- The preset `PWE_DSHOT1200_CONFIG` (`dshot.h` lines 61-72). -/
def PWE_DSHOT1200_CONFIG : pwe_config_t :=
  { T1H := 625, T1L := 208, T0H := 313, T0L := 520,
    T1H_ACC := 100, T1L_ACC := 100, T0H_ACC := 100, T0L_ACC := 100, TRST := 1666 }

/-- The Buffered-Waveform handle of a DShot session: clock divisor 4, capacity 16, the
given reset delay and tick counts, on the channel and the fresh block given. -/
def dshot_rmt_handle (channel : Nat) (block : rmt_block) (trst t1h t1l t0h t0l : Nat) :
    pwe_io_rmt_handle_t :=
  { max_payload_length := 16, rmt_conf := { channel := channel, clk_div := 4 }, trst := trst,
    t1h := t1h, t1l := t1l, t0h := t0h, t0l := t0l,
    buffer := (List.range 16).map block.items, _total_bits_to_send := block.total_bits }

/-! ## The true tick period of the pulse-train peripheral -/

/-- Twice the difference, in nanoseconds, between the duration that the peripheral
produces for `ticks` ticks and the requested duration `d`.  At an 80 MHz base clock a tick
lasts `clk_div / 80 MHz = 12.5 * clk_div` ns, so twice the produced duration is
`ticks * 25 * clk_div`. -/
def rmt_produced_error2 (clk_div ticks d : Nat) : Nat :=
  abs_diff (ticks * (25 * clk_div)) (2 * d)

/-- A timing of four durations of 1200 ns, each with a tolerance of 1 ns. -/
def tight_1200_config : pwe_config_t :=
  { T1H := 1200, T1L := 1200, T0H := 1200, T0L := 1200,
    T1H_ACC := 1, T1L_ACC := 1, T0H_ACC := 1, T0L_ACC := 1, TRST := 1000 }

/-! ## The first candidate of the period search -/

set_option linter.unusedVariables false in
/-- The initial value of `num` in the loop of `find_suitable_factor` (lines 26-35): the
value that lines 26-31 leave in `min_val`, plus `range`, minus 1, in `uint32_t`. -/
def find_suitable_factor_first (a b c d range : Nat) : Nat :=
  let range := range % 2 ^ 16
  let min_val := if a < b then a else b
  let min_val := if min_val < c then min_val else c
  let min_val := if min_val < d then min_val else d
  let max_val := if a > b then a else b
  let min_val := if max_val > c then max_val else c
  let min_val := if max_val > d then max_val else d
  u32_sub ((min_val + range) % 2 ^ 32) 1

/-- A timing whose 0-bit durations are nine times its 1-bit durations, with a tolerance
of 10 ns each. -/
def long_zero_config : pwe_config_t :=
  { T1H := 100, T1L := 100, T0H := 900, T0L := 900,
    T1H_ACC := 10, T1L_ACC := 10, T0H_ACC := 10, T0L_ACC := 10, TRST := 50000 }

/-! ## The period search as a minimisation (reference notions for `find_suitable_factor`) -/

/-- The worst-case rounding error of the four durations for the period `p`: the largest
of their distances to the nearest multiple of `p`. -/
def worst_error (a b c d p : Nat) : Nat :=
  max (max (max (dist_to_multiple a p) (dist_to_multiple b p)) (dist_to_multiple c p))
    (dist_to_multiple d p)

/-- The multiple of the period `p`: the rounded quotient by `p` of the larger of `a` and
`b`, the value that the code keeps in `max_val`. -/
def period_multiple (a b p : Nat) : Nat := (max a b + p / 2) / p

/-- The candidates of the search: the periods from the first value of the scan down to 2
whose worst-case rounding error is below the tolerance and whose multiple is at most 4. -/
def factor_candidate (a b c d range p : Nat) : Prop :=
  2 ≤ p ∧ p ≤ find_suitable_factor_first a b c d range ∧
  worst_error a b c d p < range ∧ period_multiple a b p ≤ 4

instance (a b c d range p : Nat) : Decidable (factor_candidate a b c d range p) := by
  unfold factor_candidate
  infer_instance

/-! ## A streaming handle and a twelve-bit message -/

/-- A Buffered-Waveform handle of capacity 0, as used for streaming, after
`pwe_io_rmt_on_the_fly_send` has set its bit count to 12. -/
def streaming_handle_12 : pwe_io_rmt_handle_t :=
  { max_payload_length := 0, rmt_conf := { channel := 0, clk_div := 4 }, trst := 50,
    t1h := 8, t1l := 4, t0h := 4, t0l := 8, buffer := [], _total_bits_to_send := 12 }

/-! ## Streaming as a sequence of translator calls -/

/-- Modelled from the spec: the way the peripheral driver streams a message through the
translator.  It calls `pwe_rmt_adapter` on the source bytes not yet consumed, offering at
call `n` the block `blocks n` and its length as capacity, takes the descriptors that the
call reports, and goes on with the bytes that the call did not consume until none remain.
The first argument bounds the number of calls.  The result is the number of bytes
consumed and the descriptors produced, in order. -/
def adapter_stream (h : pwe_io_rmt_handle_t) (blocks : Nat → List rmt_item32_t) :
    Nat → Nat → List Nat → Option (Nat × List rmt_item32_t)
  | 0, _, src => if src.length = 0 then some (0, []) else none
  | fuel + 1, n, src =>
      if src.length = 0 then some (0, [])
      else do
        let (dest, bytes, items) ←
          pwe_rmt_adapter (some h) (some src) (some (blocks n)) src.length (blocks n).length
        let dest ← dest
        let (bytes2, items2) ← adapter_stream h blocks fuel (n + 1) (src.drop bytes)
        some (bytes + bytes2, dest.take items ++ items2)

/-- The descriptors of the first `n` bits of `data`, most significant bit of each byte
first: the logical-1 descriptor for a set bit, the logical-0 descriptor for a clear one. -/
def rmt_descriptors (h : pwe_io_rmt_handle_t) (data : List Nat) (n : Nat) :
    List rmt_item32_t :=
  (List.range n).map (fun i => if src_bit data i then rmt_bit1 h else rmt_bit0 h)

/-! ## The frame of the Clocked-Shift conversion, bit by bit (reference notions) -/

/-- Number of low slots of the symbol that the Clocked-Shift backend emits for a bit. -/
def spi_slots_low (h : pwe_io_spi_handle_t) (b : Bool) : Nat :=
  if b then h.t1l else h.t0l

/-- The value of the mask of lines 132-139 where it is defined: `t` ones from offset `o` of
a 16-bit window, counted from the most significant bit. -/
def spi_mask16 (t o : Nat) : Nat :=
  ((((0xff <<< (8 - t)) % 2 ^ 8) <<< 8) >>> o) % 2 ^ 16

/-- The 16-bit window `temp_buffer` after the two assignments that write one symbol with
`th` high and `tl` low slots at offset `o`. -/
def spi_symbol (temp th tl o : Nat) : Nat :=
  (temp ||| spi_mask16 th o) &&& (0xFFFF ^^^ spi_mask16 tl (o + th))

/-- What holds between two passes of the loop of `pwe_io_spi_convert_buffer`, after the
symbols of `k` input bits have been written: the offsets stand for the output position
`spi_slot_sum h data k`; the byte offset is that of the byte in which the last symbol
starts; the buffer up to and including that byte reads as the reference expansion of the
`k` bits; `overflow_byte` holds what the expansion has in the next byte; and the bytes
after the current one are still zero. -/
def spi_frame_inv (h : pwe_io_spi_handle_t) (data : List Nat) (k : Nat) (st : spi_state) :
    Prop :=
  st.bits_src_proceeded = k ∧
  st.byte_offset_dest * 8 + st.bit_offset_dest = spi_slot_sum h data k ∧
  st.bit_offset_dest < 16 ∧
  (∀ j, k = j + 1 → 8 * st.byte_offset_dest ≤ spi_slot_sum h data j ∧
    spi_slot_sum h data j < 8 * st.byte_offset_dest + 8) ∧
  (∀ p, p < 8 * (st.byte_offset_dest + 1) →
    src_bit st.buffer p = spi_expected_bit h data k p) ∧
  (∀ i, i < 8 → st.overflow_byte.testBit (7 - i) =
    spi_expected_bit h data k (8 * (st.byte_offset_dest + 1) + i)) ∧
  (∀ j, st.byte_offset_dest < j → st.buffer.getD j 0 = 0)

/-! # Properties -/

/-! ## DShot packet: exhaustive facts over the accepted throttle range -/

/-- For each accepted throttle and flag: the checksum nibble, the zero XOR, and the three
fields of the packet. -/
theorem dshot_packet_facts : ∀ thrust, thrust < 2001 → ∀ tel : Bool,
    (dshot_packet thrust tel &&& 0xF =
        nibble ((dshot_value thrust <<< 5) ||| (tel.toNat <<< 4)) 3 ^^^
        nibble ((dshot_value thrust <<< 5) ||| (tel.toNat <<< 4)) 2 ^^^
        nibble ((dshot_value thrust <<< 5) ||| (tel.toNat <<< 4)) 1) ∧
    (nibble (dshot_packet thrust tel) 3 ^^^ nibble (dshot_packet thrust tel) 2 ^^^
        nibble (dshot_packet thrust tel) 1 ^^^ nibble (dshot_packet thrust tel) 0 = 0) ∧
    dshot_packet thrust tel >>> 5 = dshot_value thrust ∧
    (dshot_packet thrust tel).testBit 4 = tel ∧
    dshot_packet thrust tel &&& 0xF = dshot_checksum (dshot_packet_nocsum thrust tel) ∧
    dshot_packet thrust tel < 2 ^ 16 := by
  decide!

theorem dshot_value_eq (thrust : Nat) (h : thrust ≤ 2000) :
    dshot_value thrust = if thrust = 0 then 0 else thrust + 47 := by
  unfold dshot_value
  split
  · rfl
  · omega

/-- C1. For every thrust in [0,2000] and every telemetry flag, the low 4 bits of the packet
built by `dshot_update` (before the byte swap) are the XOR of the nibbles at bits [15:12],
[11:8] and [7:4] of `value << 5 | telemetry << 4`, and the XOR of all four nibbles of the
finished packet is 0. -/
theorem dshot_checksum_xor_fold (thrust : Nat) (request_telemetry : Bool)
    (h : thrust ≤ 2000) :
    (dshot_packet thrust request_telemetry &&& 0xF =
        nibble ((dshot_value thrust <<< 5) ||| (request_telemetry.toNat <<< 4)) 3 ^^^
        nibble ((dshot_value thrust <<< 5) ||| (request_telemetry.toNat <<< 4)) 2 ^^^
        nibble ((dshot_value thrust <<< 5) ||| (request_telemetry.toNat <<< 4)) 1) ∧
    (nibble (dshot_packet thrust request_telemetry) 3 ^^^
        nibble (dshot_packet thrust request_telemetry) 2 ^^^
        nibble (dshot_packet thrust request_telemetry) 1 ^^^
        nibble (dshot_packet thrust request_telemetry) 0 = 0) :=
  have f := dshot_packet_facts thrust (by omega) request_telemetry
  ⟨f.1, f.2.1⟩

theorem dshot_checksum_xor_fold_witness :
    (1046 ≤ 2000) ∧
    (dshot_packet 1046 true &&& 0xF =
        nibble ((dshot_value 1046 <<< 5) ||| (true.toNat <<< 4)) 3 ^^^
        nibble ((dshot_value 1046 <<< 5) ||| (true.toNat <<< 4)) 2 ^^^
        nibble ((dshot_value 1046 <<< 5) ||| (true.toNat <<< 4)) 1) ∧
    (nibble (dshot_packet 1046 true) 3 ^^^ nibble (dshot_packet 1046 true) 2 ^^^
        nibble (dshot_packet 1046 true) 1 ^^^ nibble (dshot_packet 1046 true) 0 = 0) :=
  ⟨by decide, dshot_checksum_xor_fold 1046 true (by decide)⟩

/-- C2. In `dshot_update` the value field is 0 for thrust 0 and thrust + 47 for thrust in
1..2000 (48 for thrust 1, 2047 for thrust 2000); so for every accepted thrust it is 0 or
lies in [48, 2047], never in the command range 1..47, it fits in 11 bits, and it is what
bits [15:5] of the packet hold. -/
theorem dshot_value_range (thrust : Nat) (request_telemetry : Bool) (h : thrust ≤ 2000) :
    (thrust = 0 → dshot_value thrust = 0) ∧
    (1 ≤ thrust → dshot_value thrust = thrust + 47) ∧
    dshot_value 1 = 48 ∧ dshot_value 2000 = 2047 ∧
    (dshot_value thrust = 0 ∨ (48 ≤ dshot_value thrust ∧ dshot_value thrust ≤ 2047)) ∧
    ¬ (1 ≤ dshot_value thrust ∧ dshot_value thrust ≤ 47) ∧
    dshot_value thrust < 2 ^ 11 ∧
    dshot_packet thrust request_telemetry >>> 5 = dshot_value thrust := by
  have e := dshot_value_eq thrust h
  have f := dshot_packet_facts thrust (by omega) request_telemetry
  refine ⟨?_, ?_, by decide, by decide, ?_, ?_, ?_, f.2.2.1⟩
  · intro h0; rw [e, if_pos h0]
  · intro h1; rw [e, if_neg (by omega)]
  · rw [e]; split <;> omega
  · rw [e]; split <;> omega
  · rw [e]; split <;> norm_num; omega

theorem dshot_value_range_witness :
    (1000 ≤ 2000) ∧ dshot_value 1000 = 1047 ∧ dshot_packet 1000 false >>> 5 = 1047 :=
  have f := dshot_value_range 1000 false (by decide)
  ⟨by decide, f.2.1 (by decide), by rw [f.2.2.2.2.2.2.2]; exact f.2.1 (by decide)⟩

/-- C3. For every thrust in [0,2000] and telemetry flag the packet decodes back to its
inputs: `P >> 5` is the value field, bit 4 is the telemetry flag and `P & 0xF` is the
checksum that the loop computed; hence two different (thrust, telemetry) pairs never give
the same packet. -/
theorem dshot_packet_decodes (thrust : Nat) (request_telemetry : Bool) (h : thrust ≤ 2000) :
    dshot_packet thrust request_telemetry >>> 5 = dshot_value thrust ∧
    (dshot_packet thrust request_telemetry).testBit 4 = request_telemetry ∧
    dshot_packet thrust request_telemetry &&& 0xF =
      dshot_checksum (dshot_packet_nocsum thrust request_telemetry) ∧
    ∀ (thrust2 : Nat) (request_telemetry2 : Bool), thrust2 ≤ 2000 →
      dshot_packet thrust request_telemetry = dshot_packet thrust2 request_telemetry2 →
      thrust = thrust2 ∧ request_telemetry = request_telemetry2 := by
  have f := dshot_packet_facts thrust (by omega) request_telemetry
  refine ⟨f.2.2.1, f.2.2.2.1, f.2.2.2.2.1, ?_⟩
  intro thrust2 tel2 h2 hP
  have g := dshot_packet_facts thrust2 (by omega) tel2
  have hv : dshot_value thrust = dshot_value thrust2 := by
    rw [← f.2.2.1, ← g.2.2.1, hP]
  have ht : request_telemetry = tel2 := by
    rw [← f.2.2.2.1, ← g.2.2.2.1, hP]
  refine ⟨?_, ht⟩
  rw [dshot_value_eq thrust h, dshot_value_eq thrust2 h2] at hv
  split at hv <;> split at hv <;> omega

theorem dshot_packet_decodes_witness :
    (48 ≤ 2000) ∧ dshot_packet 48 true >>> 5 = dshot_value 48 ∧
    (dshot_packet 48 true).testBit 4 = true :=
  have f := dshot_packet_decodes 48 true (by decide)
  ⟨by decide, f.1, f.2.1⟩

/-- C4. For every thrust above 2000 `dshot_update` returns the invalid-argument error and
the session, with its staged buffer and stored length `io_buffer_len`, is unchanged. -/
theorem dshot_update_rejects_large_thrust (hdl : dshot_handle_t) (thrust : Nat)
    (request_telemetry : Bool) (h : 2000 < thrust) :
    dshot_update hdl thrust request_telemetry = some (ESP_ERR_INVALID_ARG, hdl) := by
  unfold dshot_update
  cases hdl with
  | none => rfl
  | some s => simp only [if_neg (Nat.not_le.mpr h)]



theorem dshot_update_rejects_large_thrust_witness :
    (2000 < 2001) ∧
    dshot_update (some { pwe := some (pwe_t.rmt dshot600_rmt_handle), io_buffer_len := 16 })
        2001 true =
      some (ESP_ERR_INVALID_ARG,
        some { pwe := some (pwe_t.rmt dshot600_rmt_handle), io_buffer_len := 16 }) :=
  ⟨by decide, dshot_update_rejects_large_thrust _ 2001 true (by decide)⟩

/-! ## Bit tests -/

theorem bit_set_eq_testBit (byte k : Nat) : bit_set byte k = byte.testBit k := by
  unfold bit_set
  rw [Nat.one_shiftLeft]
  cases hb : byte.testBit k
  · have hz : byte &&& 2 ^ k = 0 := by
      apply Nat.eq_of_testBit_eq
      intro i
      rw [Nat.testBit_and, Nat.testBit_two_pow, Nat.zero_testBit]
      by_cases hik : k = i
      · subst hik; simp [hb]
      · simp [hik]
    simp [hz]
  · have hne : byte &&& 2 ^ k ≠ 0 := by
      intro hz
      have := Nat.testBit_and byte (2 ^ k) k
      rw [hz, Nat.zero_testBit, hb, Nat.testBit_two_pow_self] at this
      simp at this
    simp [hne]

/-! ## Buffered-Waveform conversion -/

theorem rd_eq_getD {a : List Nat} {i : Nat} (h : i < a.length) : rd a i = some (a.getD i 0) := by
  unfold rd
  rw [List.getD_eq_getElem?_getD, List.getElem?_eq_getElem h]
  rfl

/-- The conversion loop started at position `k` with enough budget ends at `len` and
writes exactly the positions `k .. len - 1`. -/
theorem pwe_io_rmt_convert_loop_spec (bit0 bit1 : rmt_item32_t) (data : List Nat) (len : Nat)
    (hdata : len ≤ 8 * data.length) :
    ∀ (fuel k : Nat) (buffer : List rmt_item32_t), len ≤ buffer.length → len ≤ k + fuel →
      ∃ buffer2, pwe_io_rmt_convert_loop bit0 bit1 data len fuel k buffer = some (max k len, buffer2) ∧
        buffer2.length = buffer.length ∧
        (∀ i, i < k → buffer2[i]? = buffer[i]?) ∧
        (∀ i, k ≤ i → i < len →
          buffer2[i]? = some (if (data.getD (i / 8) 0).testBit (7 - i % 8) then bit1 else bit0)) ∧
        (∀ i, len ≤ i → buffer2[i]? = buffer[i]?) := by
  intro fuel
  induction fuel with
  | zero =>
    intro k buffer _ hk
    refine ⟨buffer, ?_, rfl, fun _ _ => rfl, ?_, fun _ _ => rfl⟩
    · unfold pwe_io_rmt_convert_loop
      rw [if_neg (by omega), Nat.max_eq_left (by omega)]
    · intro i h1 h2; omega
  | succ fuel ih =>
    intro k buffer hbuf hk
    unfold pwe_io_rmt_convert_loop
    by_cases hlt : k < len
    · rw [if_pos hlt]
      have hrd : rd data (k / 8) = some (data.getD (k / 8) 0) := rd_eq_getD (by omega)
      have hwr : ∀ v, wr buffer k v = some (buffer.set k v) := by
        intro v; unfold wr; rw [if_pos (by omega)]
      obtain ⟨b2, hrun, hlen, hlo, hmid, hhi⟩ :=
        ih (k + 1) (buffer.set k (if bit_set (data.getD (k / 8) 0) ((7 - k % 8) % 2 ^ 8)
              then bit1 else bit0)) (by simpa using hbuf) (by omega)
      refine ⟨b2, ?_, by simpa using hlen, ?_, ?_, ?_⟩
      · simp only [hrd, hwr, Option.bind_eq_bind, Option.some_bind]
        rw [hrun]
        congr 2
        omega
      · intro i hi
        rw [hlo i (by omega), List.getElem?_set_ne (by omega)]
      · intro i h1 h2
        by_cases hik : i = k
        · subst hik
          rw [hlo i (by omega), List.getElem?_set_self (by omega)]
          rw [bit_set_eq_testBit, Nat.mod_eq_of_lt (by omega)]
        · exact hmid i (by omega) h2
      · intro i hi
        rw [hhi i hi, List.getElem?_set_ne (by omega)]
    · rw [if_neg hlt, Nat.max_eq_left (by omega)]
      refine ⟨buffer, rfl, rfl, fun _ _ => rfl, ?_, fun _ _ => rfl⟩
      intro i h1 h2; omega



/-- The Buffered-Waveform conversion on a handle whose descriptor array has
`max_payload_length` entries, for data holding `len` bits. -/
theorem pwe_io_rmt_convert_buffer_run (h : pwe_io_rmt_handle_t) (data : List Nat)
    (len outgoing_buffer_len : Nat)
    (hcap : len ≤ h.max_payload_length) (halloc : h.buffer.length = h.max_payload_length)
    (hdata : len ≤ 8 * data.length) :
    ∃ buffer2, pwe_io_rmt_convert_buffer h data len outgoing_buffer_len =
        some (ESP_OK, { h with buffer := buffer2 }, len) ∧
      buffer2.length = h.buffer.length ∧
      (∀ i, i < len → buffer2[i]? = some
        (if (data.getD (i / 8) 0).testBit (7 - i % 8) then rmt_bit1 h else rmt_bit0 h)) ∧
      (∀ i, len ≤ i → buffer2[i]? = h.buffer[i]?) := by
  obtain ⟨b2, hrun, hlen, _, hmid, hhi⟩ :=
    pwe_io_rmt_convert_loop_spec (rmt_bit0 h) (rmt_bit1 h) data len hdata len 0 h.buffer
      (by omega) (by omega)
  refine ⟨b2, ?_, hlen, fun i hi => hmid i (Nat.zero_le _) hi, hhi⟩
  unfold pwe_io_rmt_convert_buffer
  simp only [ge_iff_le, if_pos hcap, hrun, Option.bind_eq_bind, Option.some_bind]
  rw [Nat.max_eq_right (Nat.zero_le _)]

/-- C6. For every byte sequence holding `len` bits and every `len` up to the capacity, the
Buffered-Waveform conversion succeeds and returns output length `len`.  Descriptor `i`, for
every `i < len`, is then the record with `t1h` ticks (as a 15-bit field) at level 1 followed
by `t1l` ticks at level 0 if bit `7 - i mod 8` of `data[i / 8]` is 1, and the record with
`t0h` ticks at level 1 followed by `t0l` ticks at level 0 otherwise.  Every descriptor at
an index `>= len` is unchanged, and so are the capacity, the peripheral configuration and
the five tick counts of the handle.  For the byte `0b10110000` over 8 bits the first eight
descriptors are those of the bits 1,0,1,1,0,0,0,0. -/
theorem pwe_io_rmt_convert_buffer_spec (h : pwe_io_rmt_handle_t) (data : List Nat)
    (len outgoing_buffer_len : Nat)
    (hcap : len ≤ h.max_payload_length) (halloc : h.buffer.length = h.max_payload_length)
    (hdata : len ≤ 8 * data.length) :
    ∃ h2, pwe_io_rmt_convert_buffer h data len outgoing_buffer_len = some (ESP_OK, h2, len) ∧
      (h2.max_payload_length = h.max_payload_length ∧ h2.rmt_conf = h.rmt_conf ∧
        h2.trst = h.trst ∧ h2.t1h = h.t1h ∧ h2.t1l = h.t1l ∧ h2.t0h = h.t0h ∧
        h2.t0l = h.t0l) ∧
      h2.buffer.length = h.buffer.length ∧
      (∀ i, i < len → h2.buffer[i]? = some
        (if (data.getD (i / 8) 0).testBit (7 - i % 8) then
          { duration0 := h.t1h % 2 ^ 15, level0 := 1, duration1 := h.t1l % 2 ^ 15, level1 := 0 }
         else
          { duration0 := h.t0h % 2 ^ 15, level0 := 1, duration1 := h.t0l % 2 ^ 15,
            level1 := 0 })) ∧
      (∀ i, len ≤ i → h2.buffer[i]? = h.buffer[i]?) ∧
      (data = [0b10110000] → len = 8 →
        h2.buffer.take 8 =
          [true, false, true, true, false, false, false, false].map fun b =>
            if b then
              ({ duration0 := h.t1h % 2 ^ 15, level0 := 1, duration1 := h.t1l % 2 ^ 15,
                 level1 := 0 } : rmt_item32_t)
            else
              { duration0 := h.t0h % 2 ^ 15, level0 := 1, duration1 := h.t0l % 2 ^ 15,
                level1 := 0 }) := by
  obtain ⟨b2, hrun, hlen, hmid, hhi⟩ :=
    pwe_io_rmt_convert_buffer_run h data len outgoing_buffer_len hcap halloc hdata
  refine ⟨{ h with buffer := b2 }, hrun, ⟨rfl, rfl, rfl, rfl, rfl, rfl, rfl⟩, hlen, hmid, hhi, ?_⟩
  intro hd hl
  subst hd hl
  apply List.ext_getElem?
  intro n
  by_cases hn : n < 8
  · rw [List.getElem?_take_of_lt hn, hmid n hn]
    have : n = 0 ∨ n = 1 ∨ n = 2 ∨ n = 3 ∨ n = 4 ∨ n = 5 ∨ n = 6 ∨ n = 7 := by omega
    rcases this with h0 | h0 | h0 | h0 | h0 | h0 | h0 | h0 <;> subst h0 <;> rfl
  · have h8 : (b2.take 8).length = 8 := by
      rw [List.length_take]; omega
    show (List.take 8 b2)[n]? = _
    rw [List.getElem?_eq_none (by omega), List.getElem?_eq_none (by simp; omega)]

theorem pwe_io_rmt_convert_buffer_spec_witness :
    ∃ h2, pwe_io_rmt_convert_buffer dshot600_rmt_handle [0b10110000] 8 0 =
        some (ESP_OK, h2, 8) ∧
      h2.buffer.take 8 =
        [{ duration0 := 25, level0 := 1, duration1 := 8, level1 := 0 },
         { duration0 := 13, level0 := 1, duration1 := 21, level1 := 0 },
         { duration0 := 25, level0 := 1, duration1 := 8, level1 := 0 },
         { duration0 := 25, level0 := 1, duration1 := 8, level1 := 0 },
         { duration0 := 13, level0 := 1, duration1 := 21, level1 := 0 },
         { duration0 := 13, level0 := 1, duration1 := 21, level1 := 0 },
         { duration0 := 13, level0 := 1, duration1 := 21, level1 := 0 },
         { duration0 := 13, level0 := 1, duration1 := 21, level1 := 0 }] ∧
      h2.buffer[8]? = some { duration0 := 0, level0 := 0, duration1 := 0, level1 := 0 } := by
  obtain ⟨h2, hrun, _, _, _, hhi, hex⟩ :=
    pwe_io_rmt_convert_buffer_spec dshot600_rmt_handle [0b10110000] 8 0
      (by decide) (by decide) (by decide)
  exact ⟨h2, hrun, (hex rfl rfl).trans (by decide), by rw [hhi 8 (by decide)]; rfl⟩

/-! ## DShot frame on the Buffered-Waveform backend -/

/-- The two bytes handed to the encoder are the high byte and then the low byte of the
packet. -/
theorem dshot_out_buffer_bytes : ∀ thrust, thrust < 2001 → ∀ tel : Bool,
    dshot_out_buffer (dshot_packet thrust tel) =
      (dshot_packet thrust tel % 256) * 256 + dshot_packet thrust tel / 256 ∧
    u16_bytes (dshot_out_buffer (dshot_packet thrust tel)) =
      [dshot_packet thrust tel >>> 8, dshot_packet thrust tel &&& 0xFF] := by
  decide!

/-- Bit `7 - i mod 8` of byte `i / 8` of the pair (high byte, low byte) is bit `15 - i` of
the word. -/
theorem be_bytes_testBit (P i : Nat) (hi : i < 16) :
    (([P >>> 8, P &&& 0xFF] : List Nat).getD (i / 8) 0).testBit (7 - i % 8) =
      P.testBit (15 - i) := by
  by_cases h8 : i < 8
  · have h0 : i / 8 = 0 := by omega
    rw [h0]
    show (P >>> 8).testBit (7 - i % 8) = _
    rw [Nat.testBit_shiftRight]
    congr 1
    omega
  · have h1 : i / 8 = 1 := by omega
    rw [h1]
    show (P &&& 0xFF).testBit (7 - i % 8) = _
    have h255 : (0xFF : Nat) = 2 ^ 8 - 1 := by norm_num
    rw [Nat.testBit_and, h255, Nat.testBit_two_pow_sub_one]
    have e : 7 - i % 8 = 15 - i := by omega
    rw [e]
    simp
    intro _
    omega

/-- C5. The 16-bit word that `dshot_update` hands to the encoder is the byte swap of the
packet `P`, so its two bytes in memory on the little-endian target are `[P >> 8, P & 0xFF]`.
On a Buffered-Waveform backend of capacity 16 the update succeeds and stages exactly 16
descriptors: the `i`-th is the record with `t1h` ticks (as a 15-bit field) at level 1 and
`t1l` ticks at level 0 if bit `15 - i` of `P` is set, and the record with `t0h` ticks at
level 1 and `t0l` ticks at level 0 otherwise.  When the two records differ, that is when
the high or the low tick counts of the two bit values differ as 15-bit fields, the `i`-th
descriptor is the logical-1 record if and only if bit `15 - i` of `P` is set: the packet
goes out MSB first.  The session keeps its timer and reports the staged length 16, and the
handle keeps its capacity, peripheral configuration and tick counts. -/
theorem dshot_update_rmt_frame (s : dshot_s) (h : pwe_io_rmt_handle_t) (thrust : Nat)
    (request_telemetry : Bool)
    (hs : s.pwe = some (pwe_t.rmt h)) (hcap : h.max_payload_length = 16)
    (halloc : h.buffer.length = 16) (ht : thrust ≤ 2000) :
    dshot_out_buffer (dshot_packet thrust request_telemetry) =
      (dshot_packet thrust request_telemetry % 256) * 256 +
        dshot_packet thrust request_telemetry / 256 ∧
    u16_bytes (dshot_out_buffer (dshot_packet thrust request_telemetry)) =
      [dshot_packet thrust request_telemetry >>> 8,
       dshot_packet thrust request_telemetry &&& 0xFF] ∧
    ∃ s2 h2, dshot_update (some s) thrust request_telemetry = some (ESP_OK, some s2) ∧
      s2.pwe = some (pwe_t.rmt h2) ∧ s2.io_buffer_len = 16 ∧
      s2.periodic_timer = s.periodic_timer ∧
      (h2.max_payload_length = 16 ∧ h2.rmt_conf = h.rmt_conf ∧ h2.trst = h.trst ∧
        h2.t1h = h.t1h ∧ h2.t1l = h.t1l ∧ h2.t0h = h.t0h ∧ h2.t0l = h.t0l) ∧
      h2.buffer.length = 16 ∧
      (∀ i, i < 16 → h2.buffer[i]? = some
        (if (dshot_packet thrust request_telemetry).testBit (15 - i) then
          { duration0 := h.t1h % 2 ^ 15, level0 := 1, duration1 := h.t1l % 2 ^ 15, level1 := 0 }
         else
          { duration0 := h.t0h % 2 ^ 15, level0 := 1, duration1 := h.t0l % 2 ^ 15,
            level1 := 0 })) ∧
      ((h.t1h % 2 ^ 15 ≠ h.t0h % 2 ^ 15 ∨ h.t1l % 2 ^ 15 ≠ h.t0l % 2 ^ 15) →
        ∀ i, i < 16 →
          (h2.buffer[i]? = some
              { duration0 := h.t1h % 2 ^ 15, level0 := 1, duration1 := h.t1l % 2 ^ 15,
                level1 := 0 } ↔
            (dshot_packet thrust request_telemetry).testBit (15 - i) = true)) := by
  have hb := dshot_out_buffer_bytes thrust (by omega) request_telemetry
  refine ⟨hb.1, hb.2, ?_⟩
  obtain ⟨b2, hrun, hlen, hmid, _⟩ :=
    pwe_io_rmt_convert_buffer_run h
      [dshot_packet thrust request_telemetry >>> 8, dshot_packet thrust request_telemetry &&& 0xFF]
      16 s.io_buffer_len (by omega) (by omega) (by simp)
  have hdesc : ∀ i, i < 16 → b2[i]? = some
      (if (dshot_packet thrust request_telemetry).testBit (15 - i) then
        { duration0 := h.t1h % 2 ^ 15, level0 := 1, duration1 := h.t1l % 2 ^ 15, level1 := 0 }
       else
        { duration0 := h.t0h % 2 ^ 15, level0 := 1, duration1 := h.t0l % 2 ^ 15,
          level1 := 0 }) := by
    intro i hi
    rw [hmid i hi, be_bytes_testBit _ i hi]
    rfl
  refine ⟨{ s with pwe := some (pwe_t.rmt { h with buffer := b2 }), io_buffer_len := 16 },
    { h with buffer := b2 }, ?_, rfl, rfl, rfl, ⟨hcap, rfl, rfl, rfl, rfl, rfl, rfl⟩,
    by show b2.length = 16; omega, hdesc, ?_⟩
  · unfold dshot_update
    simp only [if_pos ht, hb.2, hs, pwe_io_convert_buffer, pwe_t.convert_buffer,
      pwe_t.max_payload_length, hcap, Nat.le_refl, if_true, hrun, Option.map_some',
      Option.bind_eq_bind, Option.some_bind]
  · intro hne i hi
    show b2[i]? = _ ↔ _
    rw [hdesc i hi]
    cases hbit : (dshot_packet thrust request_telemetry).testBit (15 - i)
    · simp only [Bool.false_eq_true, if_false, Option.some.injEq, rmt_item32_t.mk.injEq,
        and_true, true_and, iff_false, not_and]
      intro e1 e2
      rcases hne with hne | hne
      · exact hne e1.symm
      · exact hne e2.symm
    · simp

theorem dshot_update_rmt_frame_witness :
    ∃ s2 h2,
      dshot_update (some { pwe := some (pwe_t.rmt dshot600_rmt_handle), io_buffer_len := 0 })
          1046 false = some (ESP_OK, some s2) ∧
      s2.pwe = some (pwe_t.rmt h2) ∧ s2.io_buffer_len = 16 ∧
      h2.buffer[0]? = some { duration0 := 25, level0 := 1, duration1 := 8, level1 := 0 } ∧
      h2.buffer[15]? = some { duration0 := 13, level0 := 1, duration1 := 21, level1 := 0 } ∧
      (dshot_packet 1046 false).testBit 15 = true ∧
      ¬ (h2.buffer[15]? = some { duration0 := 25, level0 := 1, duration1 := 8, level1 := 0 }) := by
  obtain ⟨s2, h2, hrun, hpwe, hlen, _, _, _, hdesc, hiff⟩ :=
    (dshot_update_rmt_frame { pwe := some (pwe_t.rmt dshot600_rmt_handle), io_buffer_len := 0 }
      dshot600_rmt_handle 1046 false rfl rfl rfl (by decide)).2.2
  exact ⟨s2, h2, hrun, hpwe, hlen, hdesc 0 (by decide), hdesc 15 (by decide),
    (hiff (by decide) 0 (by decide)).mp (hdesc 0 (by decide)),
    fun e => absurd ((hiff (by decide) 15 (by decide)).mp e) (by decide)⟩


/-! ## Clocked-Shift conversion: the running bit offset -/

theorem spi_slots_le_max (h : pwe_io_spi_handle_t) (b : Bool) :
    spi_slots h b ≤ max (h.t0h + h.t0l) (h.t1h + h.t1l) := by
  unfold spi_slots
  cases b <;> simp

theorem spi_slot_sum_le (h : pwe_io_spi_handle_t) (data : List Nat) (n : Nat) :
    spi_slot_sum h data n ≤ max (h.t0h + h.t0l) (h.t1h + h.t1l) * n := by
  induction n with
  | zero => simp [spi_slot_sum]
  | succ n ih =>
    have := spi_slots_le_max h (src_bit data n)
    simp only [spi_slot_sum, Nat.mul_succ]
    omega

/-- One pass of the loop body, started with the destination offsets standing for
`spi_slot_sum h data k`: the pass succeeds, keeps the buffer length and leaves the offsets
standing for `spi_slot_sum h data (k + 1)`. -/
theorem pwe_io_spi_convert_step_offsets (h : pwe_io_spi_handle_t) (data : List Nat)
    (st : spi_state) (k : Nat)
    (h1 : h.t1h + h.t1l ≤ 8) (h0 : h.t0h + h.t0l ≤ 8)
    (hk : st.bits_src_proceeded = k) (hdata : k < 8 * data.length)
    (hoff : st.byte_offset_dest * 8 + st.bit_offset_dest = spi_slot_sum h data k)
    (hbo : st.bit_offset_dest < 16)
    (hroom : spi_slot_sum h data k < 8 * st.buffer.length)
    (hsmall : st.buffer.length < 2 ^ 29) :
    ∃ st2, pwe_io_spi_convert_step h data st = some st2 ∧
      st2.bits_src_proceeded = k + 1 ∧
      st2.byte_offset_dest * 8 + st2.bit_offset_dest = spi_slot_sum h data (k + 1) ∧
      st2.bit_offset_dest < 16 ∧
      st2.buffer.length = st.buffer.length := by
  have hrd : rd data (st.bits_src_proceeded / 8) =
      some (data.getD (st.bits_src_proceeded / 8) 0) := rd_eq_getD (by omega)
  have hcur : rd st.buffer st.byte_offset_dest =
      some (st.buffer.getD st.byte_offset_dest 0) := rd_eq_getD (by omega)
  have hbit : bit_set (data.getD (st.bits_src_proceeded / 8) 0) (7 - st.bits_src_proceeded % 8)
      = src_bit data k := by
    rw [bit_set_eq_testBit, hk]; rfl
  have hsum : spi_slot_sum h data (k + 1) = spi_slot_sum h data k + spi_slots h (src_bit data k) :=
    rfl
  have hbyte : st.byte_offset_dest < st.buffer.length := by omega
  have wr_ok : ∀ (i v : Nat), i < st.buffer.length →
      wr st.buffer i v = some (st.buffer.set i v) := by
    intro i v hi; unfold wr; rw [if_pos hi]
  have m1 : ∀ x y : Nat, x < 16 → y ≤ 8 → (x + y) % 2 ^ 32 = x + y :=
    fun x y hx hy => Nat.mod_eq_of_lt (by omega)
  have m3 : (st.byte_offset_dest + 1) % 2 ^ 32 = st.byte_offset_dest + 1 :=
    Nat.mod_eq_of_lt (by omega)
  unfold pwe_io_spi_convert_step
  simp only [hrd, hcur, hbit, Option.bind_eq_bind, Option.some_bind]
  cases hb : src_bit data k <;> by_cases hge : st.bit_offset_dest ≥ 8 <;>
    simp only [hge, if_true, if_false, Bool.false_eq_true, spi_mask] <;>
    simp only [spi_slots, hb, Bool.false_eq_true, if_false, if_true] at hsum
  · have c1 : h.t0h ≤ 8 ∧ st.bit_offset_dest % 8 < 32 := ⟨by omega, by omega⟩
    have e1 := m1 (st.bit_offset_dest % 8) h.t0h (by omega) (by omega)
    have c2 : h.t0l ≤ 8 ∧ st.bit_offset_dest % 8 + h.t0h < 32 := ⟨by omega, by omega⟩
    have e2 := m1 (st.bit_offset_dest % 8 + h.t0h) h.t0l (by omega) (by omega)
    simp only [c1, e1, c2, e2, m3, and_self, if_true, Option.some_bind,
      wr_ok _ _ (show st.byte_offset_dest + 1 < st.buffer.length by omega)]
    refine ⟨_, rfl, by simp [hk], ?_, ?_, by simp⟩
    · simp only; omega
    · simp only; omega
  · have c1 : h.t0h ≤ 8 ∧ st.bit_offset_dest < 32 := ⟨by omega, by omega⟩
    have e1 := m1 st.bit_offset_dest h.t0h (by omega) (by omega)
    have c2 : h.t0l ≤ 8 ∧ st.bit_offset_dest + h.t0h < 32 := ⟨by omega, by omega⟩
    have e2 := m1 (st.bit_offset_dest + h.t0h) h.t0l (by omega) (by omega)
    simp only [c1, e1, c2, e2, and_self, if_true, Option.some_bind, wr_ok _ _ hbyte]
    refine ⟨_, rfl, by simp [hk], ?_, ?_, by simp⟩
    · simp only; omega
    · simp only; omega
  · have c1 : h.t1h ≤ 8 ∧ st.bit_offset_dest % 8 < 32 := ⟨by omega, by omega⟩
    have e1 := m1 (st.bit_offset_dest % 8) h.t1h (by omega) (by omega)
    have c2 : h.t1l ≤ 8 ∧ st.bit_offset_dest % 8 + h.t1h < 32 := ⟨by omega, by omega⟩
    have e2 := m1 (st.bit_offset_dest % 8 + h.t1h) h.t1l (by omega) (by omega)
    simp only [c1, e1, c2, e2, m3, and_self, if_true, Option.some_bind,
      wr_ok _ _ (show st.byte_offset_dest + 1 < st.buffer.length by omega)]
    refine ⟨_, rfl, by simp [hk], ?_, ?_, by simp⟩
    · simp only; omega
    · simp only; omega
  · have c1 : h.t1h ≤ 8 ∧ st.bit_offset_dest < 32 := ⟨by omega, by omega⟩
    have e1 := m1 st.bit_offset_dest h.t1h (by omega) (by omega)
    have c2 : h.t1l ≤ 8 ∧ st.bit_offset_dest + h.t1h < 32 := ⟨by omega, by omega⟩
    have e2 := m1 (st.bit_offset_dest + h.t1h) h.t1l (by omega) (by omega)
    simp only [c1, e1, c2, e2, and_self, if_true, Option.some_bind, wr_ok _ _ hbyte]
    refine ⟨_, rfl, by simp [hk], ?_, ?_, by simp⟩
    · simp only; omega
    · simp only; omega

/-- The conversion loop, started with `k` bits done and the offsets standing for
`spi_slot_sum h data k`, ends with `len` bits done and the offsets standing for
`spi_slot_sum h data len`. -/
theorem pwe_io_spi_convert_loop_offsets (h : pwe_io_spi_handle_t) (data : List Nat)
    (len L : Nat) (h1 : h.t1h + h.t1l ≤ 8) (h0 : h.t0h + h.t0l ≤ 8)
    (hdata : len ≤ 8 * data.length) (hL : L < 2 ^ 29)
    (hroom : ∀ k, k < len → spi_slot_sum h data k < 8 * L) :
    ∀ (fuel k : Nat) (st : spi_state), k ≤ len → len ≤ k + fuel →
      st.bits_src_proceeded = k →
      st.byte_offset_dest * 8 + st.bit_offset_dest = spi_slot_sum h data k →
      st.bit_offset_dest < 16 → st.buffer.length = L →
      ∃ st2, pwe_io_spi_convert_loop h data len fuel st = some st2 ∧
        st2.bits_src_proceeded = len ∧
        st2.byte_offset_dest * 8 + st2.bit_offset_dest = spi_slot_sum h data len ∧
        st2.bit_offset_dest < 16 ∧ st2.buffer.length = L := by
  intro fuel
  induction fuel with
  | zero =>
    intro k st hk hf hbits hoff hbo hlen
    have : k = len := by omega
    subst this
    refine ⟨st, ?_, hbits, hoff, hbo, hlen⟩
    unfold pwe_io_spi_convert_loop
    rw [if_neg (by omega)]
  | succ fuel ih =>
    intro k st hk hf hbits hoff hbo hlen
    unfold pwe_io_spi_convert_loop
    by_cases hlt : k < len
    · rw [if_pos (by omega)]
      obtain ⟨st1, hstep, hb1, ho1, hbo1, hl1⟩ :=
        pwe_io_spi_convert_step_offsets h data st k h1 h0 hbits (by omega) hoff hbo
          (by rw [hlen]; exact hroom k hlt) (by rw [hlen]; exact hL)
      obtain ⟨st2, hrun, hr⟩ :=
        ih (k + 1) st1 (by omega) (by omega) hb1 ho1 hbo1 (by rw [hl1, hlen])
      exact ⟨st2, by simp only [hstep, Option.bind_eq_bind, Option.some_bind, hrun], hr⟩
    · have : k = len := by omega
      subst this
      rw [if_neg (by omega)]
      exact ⟨st, rfl, hbits, hoff, hbo, hlen⟩

/-- C8. For every byte sequence holding `len` bits and every `len` up to the
capacity, when each symbol occupies at most 8 slots, on a handle laid out by its
constructor, and when at least one slot is configured or `len = 0`, the Clocked-Shift
conversion succeeds and the output length it returns is the sum over the `len` input bits,
MSB first, of `t1h + t1l` for a 1 bit and `t0h + t0l` for a 0 bit.  That sum is 0 for
`len = 0`, and it need not be a multiple of 8: two 1 bits at 4 + 1 slots give 10. -/
theorem pwe_io_spi_convert_buffer_length (h : pwe_io_spi_handle_t) (data : List Nat)
    (len outgoing_buffer_len : Nat)
    (hcap : len ≤ h.max_payload_length)
    (h1 : h.t1h + h.t1l ≤ 8) (h0 : h.t0h + h.t0l ≤ 8)
    (hdata : len ≤ 8 * data.length) (halloc : spi_handle_allocated h)
    (hslot : 0 < h.t1h + h.t1l + h.t0h + h.t0l ∨ len = 0) :
    (∃ h2, pwe_io_spi_convert_buffer h data len outgoing_buffer_len =
        some (ESP_OK, h2, spi_slot_sum h data len)) ∧
    spi_slot_sum h data 0 = 0 ∧
    (∃ h2 n, pwe_io_spi_convert_buffer dshot600_spi_handle [0xC0] 2 outgoing_buffer_len =
        some (ESP_OK, h2, n) ∧ n = 10 ∧ n % 8 ≠ 0) := by
  refine ⟨?_, rfl, ⟨_, _, rfl, rfl, by decide⟩⟩
  obtain ⟨hsize, hwrap, hbuf⟩ := halloc
  have hceil : UINTCEILDIV h.buffer_size 8 = (h.buffer_size + 7) / 8 := by
    unfold UINTCEILDIV
    rw [show h.buffer_size + 8 - 1 = h.buffer_size + 7 by omega, Nat.mod_eq_of_lt hwrap]
  have hL : h.buffer.length < 2 ^ 29 := by rw [hbuf, hceil]; omega
  have hmem : memset_zero h.buffer (UINTCEILDIV h.buffer_size 8) =
      some (List.replicate h.buffer.length 0) := by
    unfold memset_zero
    rw [← hbuf, if_pos (Nat.le_refl _)]
    simp
  have hroom : ∀ k, k < len → spi_slot_sum h data k < 8 * h.buffer.length := by
    intro k hk
    have hpos : 0 < h.t1h + h.t1l + h.t0h + h.t0l := by
      rcases hslot with hs | hs
      · exact hs
      · omega
    have hS : 0 < max (h.t0h + h.t0l) (h.t1h + h.t1l) := by
      rcases Nat.le_total (h.t0h + h.t0l) (h.t1h + h.t1l) with hm | hm
      · rw [Nat.max_eq_right hm]; omega
      · rw [Nat.max_eq_left hm]; omega
    have a := spi_slot_sum_le h data k
    have b : max (h.t0h + h.t0l) (h.t1h + h.t1l) * (k + 1) ≤ h.buffer_size := by
      rw [hsize]; exact Nat.mul_le_mul_left _ (by omega)
    rw [Nat.mul_succ] at b
    rw [hbuf, hceil]
    omega
  have hfin : spi_slot_sum h data len < 2 ^ 32 := by
    have a := spi_slot_sum_le h data len
    have b : max (h.t0h + h.t0l) (h.t1h + h.t1l) * len ≤ h.buffer_size := by
      rw [hsize]; exact Nat.mul_le_mul_left _ hcap
    omega
  obtain ⟨st2, hrun, _, hoff, _, _⟩ :=
    pwe_io_spi_convert_loop_offsets h data len h.buffer.length h1 h0 hdata hL hroom len 0
      { buffer := List.replicate h.buffer.length 0, bits_src_proceeded := 0,
        overflow_byte := 0x00, bit_offset_dest := 0, byte_offset_dest := 0 }
      (Nat.zero_le _) (by omega) rfl rfl (by show 0 < 16; omega) (by simp)
  refine ⟨{ h with buffer := st2.buffer }, ?_⟩
  unfold pwe_io_spi_convert_buffer
  simp only [ge_iff_le, if_pos hcap, hmem, hrun, Option.bind_eq_bind, Option.some_bind, hoff,
    Nat.mod_eq_of_lt hfin]

theorem pwe_io_spi_convert_buffer_length_witness :
    (∃ h2, pwe_io_spi_convert_buffer dshot600_spi_handle [0xAA, 0x80] 9 0 =
      some (ESP_OK, h2, 45)) ∧
    (∃ h2, pwe_io_spi_convert_buffer one_ns_spi_handle [] 0 7 = some (ESP_OK, h2, 0)) :=
  ⟨(pwe_io_spi_convert_buffer_length dshot600_spi_handle [0xAA, 0x80] 9 0
    (by decide) (by decide) (by decide) (by decide) (by decide) (Or.inl (by decide))).1,
   (pwe_io_spi_convert_buffer_length one_ns_spi_handle [] 0 7
    (by decide) (by decide) (by decide) (by decide) (by decide) (Or.inr rfl)).1⟩

/-! ## Clocked-Shift conversion: the carry of the last symbol -/

/-- C7, evaluated at a failing input.  With the DShot600 slots (4/1 for a 1 bit, 2/3 for a
0 bit) and the two input bits 1,1 the conversion returns output length 10 and the buffer
`F7 00 ..`: output position 8 is the fourth high slot of the second symbol (positions
5..8) and lies below the output length, but the bit written there is 0, because the carry
byte `0x80` of the last symbol is never stored. -/
theorem pwe_io_spi_convert_buffer_last_carry_lost :
    pwe_io_spi_convert_buffer dshot600_spi_handle [0xC0] 2 0 =
      some (ESP_OK, { dshot600_spi_handle with buffer := [0xF7, 0, 0, 0, 0, 0, 0, 0, 0, 0] }, 10) ∧
    spi_handle_allocated dshot600_spi_handle ∧
    8 < 10 ∧
    spi_expected_bit dshot600_spi_handle [0xC0] 2 8 = true ∧
    src_bit [0xF7, 0, 0, 0, 0, 0, 0, 0, 0, 0] 8 = false := by
  refine ⟨by rfl, by decide, by decide, by decide, by decide⟩

/-- C9, evaluated at a failing input.  With the slots 4/1 and 2/3 (S = 5, 4 > 5/2 > 2) and
the four input bits 0,0,0,1 the conversion returns output length 20 and the buffer
`C6 31 00 ..`; the window of input bit 3 (output positions 15..19) holds 1,0,0,0,0, a run
of a single 1, so it decodes to 0 although the input bit is 1. -/
theorem pwe_io_spi_round_trip_fails_at_len_4 :
    pwe_io_spi_convert_buffer dshot600_spi_handle [0x10] 4 0 =
      some (ESP_OK, { dshot600_spi_handle with buffer := [0xC6, 0x31, 0, 0, 0, 0, 0, 0, 0, 0] }, 20) ∧
    src_bit [0x10] 3 = true ∧
    window_run [0xC6, 0x31, 0, 0, 0, 0, 0, 0, 0, 0] 5 3 = 1 ∧
    window_decode [0xC6, 0x31, 0, 0, 0, 0, 0, 0, 0, 0] 5 3 = false := by
  refine ⟨by rfl, by decide, by decide, by decide⟩

/-! ## Streaming translator -/

/-- C10, evaluated at a failing input.  A streaming send of 0 bits sets the total bit count
to 0 and passes 0 source bytes; the translator, offered 64 descriptors, then reports 8
bytes consumed and 64 descriptors produced although no bit of the message remains. -/
theorem pwe_rmt_adapter_empty_message :
    pwe_io_rmt_on_the_fly_send_prepare ws2812_rmt_handle 0 = (ws2812_rmt_handle, 0) ∧
    ∃ dest2, pwe_rmt_adapter (some ws2812_rmt_handle) (some [0, 0, 0, 0, 0, 0, 0, 0])
        (some (List.replicate 64 (rmt_item 0 0))) 0 64 = some (some dest2, 8, 64) := by
  refine ⟨by rfl, _, by rfl⟩

/-! ## Rounding to the nearest multiple -/

theorem round_div_cases (d s : Nat) (hs : 0 < s) :
    (d % s + s / 2 < s ∧ (d + s / 2) / s * s + d % s = d) ∨
    (s ≤ d % s + s / 2 ∧ (d + s / 2) / s * s + d % s = d + s) := by
  have hd := Nat.div_add_mod d s
  have hr := Nat.mod_lt d hs
  have key : (d + s / 2) / s = d / s + (d % s + s / 2) / s := by
    conv_lhs => rw [← Nat.div_add_mod d s]
    rw [Nat.add_assoc, Nat.mul_add_div hs]
  by_cases hlt : d % s + s / 2 < s
  · left
    refine ⟨hlt, ?_⟩
    rw [key, Nat.div_eq_of_lt hlt, Nat.add_zero, Nat.mul_comm]
    exact hd
  · right
    have h1 : (d % s + s / 2) / s = 1 := by
      apply Nat.div_eq_of_lt_le <;> omega
    refine ⟨by omega, ?_⟩
    rw [key, h1, Nat.add_mul, Nat.one_mul, Nat.mul_comm]
    omega

theorem abs_diff_round (d s : Nat) (hs : 0 < s) :
    abs_diff d ((d + s / 2) / s * s) = dist_to_multiple d s ∧
    dist_to_multiple d s ≤ s / 2 := by
  have hr := Nat.mod_lt d hs
  unfold abs_diff dist_to_multiple
  rcases round_div_cases d s hs with ⟨h1, h2⟩ | ⟨h1, h2⟩ <;> omega

/-- `dist_to_multiple d s` is the least distance from `d` to a multiple of `s`. -/
theorem dist_to_multiple_le (d s k : Nat) (hs : 0 < s) :
    dist_to_multiple d s ≤ abs_diff d (k * s) := by
  have hd := Nat.div_add_mod d s
  have hr := Nat.mod_lt d hs
  unfold abs_diff dist_to_multiple
  rcases Nat.lt_or_ge (d / s) k with hk | hk
  · have : s * (d / s) + s ≤ k * s := by
      have := Nat.mul_le_mul_right s hk
      rw [Nat.succ_mul] at this
      rw [Nat.mul_comm s]; exact this
    omega
  · have : k * s ≤ s * (d / s) := by
      rw [Nat.mul_comm s]; exact Nat.mul_le_mul_right s hk
    omega

theorem calc_aligned_error_eq (d s : Nat) (hs : 0 < s) (hs32 : s < 2 ^ 32)
    (hd : d + s / 2 < 2 ^ 32) :
    calc_aligned_error d s = some (dist_to_multiple d s) := by
  have hr := Nat.mod_lt d hs
  have hround : UINTROUNDDIV d s = (d + s / 2) / s := by
    unfold UINTROUNDDIV; rw [Nat.mod_eq_of_lt hd]
  unfold calc_aligned_error
  rw [if_neg (by omega), hround]
  unfold u32_sub u32_mul dist_to_multiple
  rcases round_div_cases d s hs with ⟨h1, h2⟩ | ⟨h1, h2⟩
  · have e1 : (d + s / 2) / s * s % 2 ^ 32 = (d + s / 2) / s * s := Nat.mod_eq_of_lt (by omega)
    simp only [e1]
    have e2 : (d + (2 ^ 32 - (d + s / 2) / s * s)) % 2 ^ 32 = d % s := by omega
    rw [e2]
    rw [if_pos (by omega)]
    congr 1; omega
  · have e1 : (d + s / 2) / s * s % 2 ^ 32 = (d + s / 2) / s * s := Nat.mod_eq_of_lt (by omega)
    simp only [e1]
    have e2 : (d + (2 ^ 32 - (d + s / 2) / s * s)) % 2 ^ 32 = 2 ^ 32 - (s - d % s) := by omega
    rw [e2]
    rw [if_neg (by omega), if_neg (by omega)]
    congr 1; omega

/-! ## Construction of the Buffered-Waveform backend -/

theorem c_and_some (a b : Bool) : c_and (some a) (some b) = some (a && b) := by
  cases a <;> rfl

theorem rmt_min_step_eq (APB clk_div : Nat) (hclk : rmt_clock_ok APB clk_div) :
    rmt_min_step APB clk_div = some (1000000000 / (APB / clk_div)) ∧
    0 < 1000000000 / (APB / clk_div) ∧
    1000000000 / (APB / clk_div) ≤ 1000000000 := by
  obtain ⟨h0, h1, h2, h3, _⟩ := hclk
  have hb : 0 < APB / clk_div := Nat.div_pos h1 h0
  refine ⟨?_, Nat.div_pos h2 hb, Nat.div_le_self _ _⟩
  unfold rmt_min_step
  rw [if_neg (by omega), Nat.mod_eq_of_lt h3]
  simp only [if_neg (Nat.pos_iff_ne_zero.mp hb)]

/-- What `pwe_new_rmt_backend` returns for non-NULL arguments when the clock arithmetic is
defined: the two checks, then the allocation. -/
theorem pwe_new_rmt_backend_eq (APB : Nat) (config : pwe_config_t) (rmt_conf : rmt_config_t)
    (buffer_size : Nat) (block : Option rmt_block) (hclk : rmt_clock_ok APB rmt_conf.clk_div) :
    pwe_new_rmt_backend APB (some config) (some rmt_conf) buffer_size block =
      if rmt_timing_infeasible config (1000000000 / (APB / rmt_conf.clk_div)) then
        some (ESP_ERR_INVALID_ARG, none)
      else
        match block with
        | none => some (ESP_ERR_NO_MEM, none)
        | some block => some (ESP_OK, some
            { max_payload_length := buffer_size
              rmt_conf := rmt_conf
              trst := if config.TRST / 1000 = 0 then 1 else config.TRST / 1000
              t1h := (config.T1H + 1000000000 / (APB / rmt_conf.clk_div) / 2) /
                (1000000000 / (APB / rmt_conf.clk_div))
              t1l := (config.T1L + 1000000000 / (APB / rmt_conf.clk_div) / 2) /
                (1000000000 / (APB / rmt_conf.clk_div))
              t0h := (config.T0H + 1000000000 / (APB / rmt_conf.clk_div) / 2) /
                (1000000000 / (APB / rmt_conf.clk_div))
              t0l := (config.T0L + 1000000000 / (APB / rmt_conf.clk_div) / 2) /
                (1000000000 / (APB / rmt_conf.clk_div))
              buffer := (List.range buffer_size).map block.items
              _total_bits_to_send := block.total_bits }) := by
  obtain ⟨hstep, hpos, hle⟩ := rmt_min_step_eq APB rmt_conf.clk_div hclk
  have hmax : 1000000000 / (APB / rmt_conf.clk_div) * 0x8000 ≤ 2 ^ 32 := hclk.2.2.2.2
  generalize 1000000000 / (APB / rmt_conf.clk_div) = s at *
  have hmul : u32_mul s 0x7fff = s * 0x7fff := by
    unfold u32_mul; exact Nat.mod_eq_of_lt (by omega)
  unfold pwe_new_rmt_backend
  simp only [hstep, hmul, Option.bind_eq_bind, Option.some_bind]
  by_cases hfit : config.T1H ≤ s * 0x7fff ∧ config.T1L ≤ s * 0x7fff ∧
      config.T0H ≤ s * 0x7fff ∧ config.T0L ≤ s * 0x7fff
  · obtain ⟨f1, f2, f3, f4⟩ := hfit
    have r : ∀ d, d ≤ s * 0x7fff → UINTROUNDDIV d s % 2 ^ 16 = (d + s / 2) / s := by
      intro d hd
      have hround : UINTROUNDDIV d s = (d + s / 2) / s := by
        unfold UINTROUNDDIV; rw [Nat.mod_eq_of_lt (by omega)]
      rw [hround]
      apply Nat.mod_eq_of_lt
      rw [Nat.div_lt_iff_lt_mul hpos]
      omega
    rw [if_neg (by simp only [not_not]; exact ⟨f1, f2, f3, f4⟩)]
    rw [calc_aligned_error_eq config.T1H s hpos (by omega) (by omega),
        calc_aligned_error_eq config.T1L s hpos (by omega) (by omega),
        calc_aligned_error_eq config.T0H s hpos (by omega) (by omega),
        calc_aligned_error_eq config.T0L s hpos (by omega) (by omega)]
    simp only [Option.map_some', c_and_some, Option.some_bind, r _ f1, r _ f2, r _ f3, r _ f4]
    by_cases hres : dist_to_multiple config.T1H s < config.T1H_ACC ∧
        dist_to_multiple config.T1L s < config.T1L_ACC ∧
        dist_to_multiple config.T0H s < config.T0H_ACC ∧
        dist_to_multiple config.T0L s < config.T0L_ACC
    · have hno : ¬ rmt_timing_infeasible config s := by
        unfold rmt_timing_infeasible; omega
      rw [if_neg hno]
      obtain ⟨g1, g2, g3, g4⟩ := hres
      simp only [g1, g2, g3, g4, decide_True, Bool.and_self, not_true_eq_false, if_false]
    · have hyes : rmt_timing_infeasible config s := by
        unfold rmt_timing_infeasible; omega
      rw [if_pos hyes]
      have : (decide (dist_to_multiple config.T1H s < config.T1H_ACC) &&
              (decide (dist_to_multiple config.T1L s < config.T1L_ACC) &&
              (decide (dist_to_multiple config.T0H s < config.T0H_ACC) &&
               decide (dist_to_multiple config.T0L s < config.T0L_ACC)))) = false := by
        simp only [Bool.and_eq_false_imp, decide_eq_true_eq, decide_eq_false_iff_not]
        intro a b c
        omega
      simp [this]
  · have hyes : rmt_timing_infeasible config s := by
      unfold rmt_timing_infeasible; omega
    rw [if_pos hfit, if_pos hyes]

/-- With the 80 MHz base clock of the target the clock arithmetic is defined for every
divisor that the 8-bit `clk_div` field can hold, zero apart. -/
theorem rmt_clock_ok_80MHz : ∀ clk_div, clk_div < 256 → 0 < clk_div →
    rmt_clock_ok 80000000 clk_div := by
  decide!

/-- C11. With minStep = 1e9 / (base clock / clk_div) in integer arithmetic, non-NULL
arguments and a successful allocation, `pwe_new_rmt_backend` fails (it reports the
infeasible timing with `ESP_ERR_INVALID_ARG` and stores no handle) exactly when some
duration among T1H, T1L, T0H, T0L exceeds `minStep * 0x7FFF` or the distance from some
duration to its nearest multiple of minStep is at least that duration's tolerance, and in
every other case it succeeds; in particular a zero tolerance always rejects. -/
theorem pwe_new_rmt_backend_rejects_iff (APB_CLK_FREQ : Nat) (config : pwe_config_t)
    (rmt_conf : rmt_config_t) (buffer_size : Nat) (block : rmt_block)
    (hclk : rmt_clock_ok APB_CLK_FREQ rmt_conf.clk_div) :
    rmt_min_step APB_CLK_FREQ rmt_conf.clk_div =
      some (1000000000 / (APB_CLK_FREQ / rmt_conf.clk_div)) ∧
    (pwe_new_rmt_backend APB_CLK_FREQ (some config) (some rmt_conf) buffer_size (some block) =
        some (ESP_ERR_INVALID_ARG, none) ↔
      rmt_timing_infeasible config (1000000000 / (APB_CLK_FREQ / rmt_conf.clk_div))) ∧
    ((∃ h, pwe_new_rmt_backend APB_CLK_FREQ (some config) (some rmt_conf) buffer_size
          (some block) = some (ESP_OK, some h)) ↔
      ¬ rmt_timing_infeasible config (1000000000 / (APB_CLK_FREQ / rmt_conf.clk_div))) ∧
    ((config.T1H_ACC = 0 ∨ config.T1L_ACC = 0 ∨ config.T0H_ACC = 0 ∨ config.T0L_ACC = 0) →
      pwe_new_rmt_backend APB_CLK_FREQ (some config) (some rmt_conf) buffer_size (some block) =
        some (ESP_ERR_INVALID_ARG, none)) := by
  have heq := pwe_new_rmt_backend_eq APB_CLK_FREQ config rmt_conf buffer_size (some block) hclk
  refine ⟨(rmt_min_step_eq _ _ hclk).1, ?_, ?_, ?_⟩
  · rw [heq]
    by_cases hbad : rmt_timing_infeasible config (1000000000 / (APB_CLK_FREQ / rmt_conf.clk_div))
    · simp [hbad]
    · simp [hbad]
  · rw [heq]
    by_cases hbad : rmt_timing_infeasible config (1000000000 / (APB_CLK_FREQ / rmt_conf.clk_div))
    · simp [hbad]
    · simp [hbad]
  · intro hz
    rw [heq, if_pos]
    unfold rmt_timing_infeasible
    omega

theorem pwe_new_rmt_backend_rejects_iff_witness :
    rmt_clock_ok 80000000 4 ∧
    ¬ rmt_timing_infeasible PWE_DSHOT600_CONFIG 50 ∧
    (∃ h, pwe_new_rmt_backend 80000000 (some PWE_DSHOT600_CONFIG)
        (some { channel := 0, clk_div := 4 }) 16
        (some { total_bits := 0, items := fun _ => rmt_item 0 0 }) = some (ESP_OK, some h)) ∧
    pwe_new_rmt_backend 80000000 (some { PWE_DSHOT600_CONFIG with T1H_ACC := 0 })
        (some { channel := 0, clk_div := 4 }) 16
        (some { total_bits := 0, items := fun _ => rmt_item 0 0 }) =
      some (ESP_ERR_INVALID_ARG, none) :=
  have w := pwe_new_rmt_backend_rejects_iff 80000000 PWE_DSHOT600_CONFIG
    { channel := 0, clk_div := 4 } 16 { total_bits := 0, items := fun _ => rmt_item 0 0 }
    (by decide)
  have z := pwe_new_rmt_backend_rejects_iff 80000000 { PWE_DSHOT600_CONFIG with T1H_ACC := 0 }
    { channel := 0, clk_div := 4 } 16 { total_bits := 0, items := fun _ => rmt_item 0 0 }
    (by decide)
  ⟨by decide, by decide, w.2.2.1.mpr (by decide), z.2.2.2 (Or.inl rfl)⟩

/-- C12. For every configuration that `pwe_new_rmt_backend` accepts, each stored tick count
is the duration rounded to the nearest multiple of minStep, `(d + minStep / 2) / minStep`:
`|ticks * minStep - d|` is at most `minStep / 2` and less than that duration's tolerance,
and `ticks <= 0x7FFF`, so it fits the 15-bit duration field. -/
theorem pwe_new_rmt_backend_ticks (APB_CLK_FREQ : Nat) (config : pwe_config_t)
    (rmt_conf : rmt_config_t) (buffer_size : Nat) (block : Option rmt_block)
    (h : pwe_io_rmt_handle_t)
    (hclk : rmt_clock_ok APB_CLK_FREQ rmt_conf.clk_div)
    (hacc : pwe_new_rmt_backend APB_CLK_FREQ (some config) (some rmt_conf) buffer_size block =
      some (ESP_OK, some h)) :
    rmt_tick_ok h.t1h config.T1H (1000000000 / (APB_CLK_FREQ / rmt_conf.clk_div)) config.T1H_ACC ∧
    rmt_tick_ok h.t1l config.T1L (1000000000 / (APB_CLK_FREQ / rmt_conf.clk_div)) config.T1L_ACC ∧
    rmt_tick_ok h.t0h config.T0H (1000000000 / (APB_CLK_FREQ / rmt_conf.clk_div)) config.T0H_ACC ∧
    rmt_tick_ok h.t0l config.T0L (1000000000 / (APB_CLK_FREQ / rmt_conf.clk_div)) config.T0L_ACC := by
  have heq := pwe_new_rmt_backend_eq APB_CLK_FREQ config rmt_conf buffer_size block hclk
  obtain ⟨_, hpos, _⟩ := rmt_min_step_eq APB_CLK_FREQ rmt_conf.clk_div hclk
  rw [hacc] at heq
  generalize 1000000000 / (APB_CLK_FREQ / rmt_conf.clk_div) = s at *
  by_cases hbad : rmt_timing_infeasible config s
  · rw [if_pos hbad] at heq; simp at heq
  · rw [if_neg hbad] at heq
    cases block with
    | none => simp at heq
    | some block =>
      simp only [Option.some.injEq, Prod.mk.injEq, true_and] at heq
      subst heq
      unfold rmt_timing_infeasible at hbad
      have tick : ∀ d tol, d ≤ s * 0x7FFF → dist_to_multiple d s < tol →
          rmt_tick_ok ((d + s / 2) / s) d s tol := by
        intro d tol hd hdist
        obtain ⟨ha, hb⟩ := abs_diff_round d s hpos
        have hsym : abs_diff ((d + s / 2) / s * s) d = abs_diff d ((d + s / 2) / s * s) := by
          unfold abs_diff; omega
        refine ⟨rfl, by rw [hsym, ha]; exact hb, by rw [hsym, ha]; exact hdist, ?_⟩
        apply Nat.le_of_lt_succ
        rw [Nat.div_lt_iff_lt_mul hpos]
        omega
      exact ⟨tick _ _ (by omega) (by omega), tick _ _ (by omega) (by omega),
        tick _ _ (by omega) (by omega), tick _ _ (by omega) (by omega)⟩

theorem pwe_new_rmt_backend_ticks_witness :
    rmt_tick_ok 25 1250 50 200 ∧ rmt_tick_ok 8 416 50 200 ∧
    rmt_tick_ok 13 625 50 200 ∧ rmt_tick_ok 21 1041 50 200 :=
  pwe_new_rmt_backend_ticks 80000000 PWE_DSHOT600_CONFIG { channel := 0, clk_div := 4 } 16
    (some { total_bits := 0, items := fun _ => rmt_item 0 0 })
    { dshot600_rmt_handle with buffer := List.replicate 16 (rmt_item 0 0) }
    (by decide) (by rfl)

/-! ## The period search of the Clocked-Shift backend -/

/-- A pass of the loop body either keeps the state or makes an acceptable candidate the
current factor. -/
theorem find_suitable_factor_body_spec (a b c d range max_val num : Nat)
    (st st2 : factor_state) (left : Bool)
    (h : find_suitable_factor_body a b c d range max_val num st = some (st2, left)) :
    st2 = st ∨ (st2.current_factor = num ∧ factor_ok a b c d range max_val num) := by
  unfold find_suitable_factor_body at h
  cases ha : calc_aligned_error a num with
  | none => simp [ha] at h
  | some ea =>
  cases hb : calc_aligned_error b num with
  | none => simp [ha, hb] at h
  | some eb =>
  cases hc : calc_aligned_error c num with
  | none => simp [ha, hb, hc] at h
  | some ec =>
  cases hd : calc_aligned_error d num with
  | none => simp [ha, hb, hc, hd] at h
  | some ed =>
  simp only [ha, hb, hc, hd, Option.bind_eq_bind, Option.some_bind] at h
  have hm : ∀ x y z w : Nat,
      x ≤ (if (if (if x > y then x else y) > z then (if x > y then x else y) else z) > w
            then (if (if x > y then x else y) > z then (if x > y then x else y) else z) else w) ∧
      y ≤ (if (if (if x > y then x else y) > z then (if x > y then x else y) else z) > w
            then (if (if x > y then x else y) > z then (if x > y then x else y) else z) else w) ∧
      z ≤ (if (if (if x > y then x else y) > z then (if x > y then x else y) else z) > w
            then (if (if x > y then x else y) > z then (if x > y then x else y) else z) else w) ∧
      w ≤ (if (if (if x > y then x else y) > z then (if x > y then x else y) else z) > w
            then (if (if x > y then x else y) > z then (if x > y then x else y) else z) else w) := by
    intro x y z w
    split_ifs <;> omega
  have hm1 := hm (ea % 2 ^ 16) (eb % 2 ^ 16) (ec % 2 ^ 16) (ed % 2 ^ 16)
  generalize (if (if (if ea % 2 ^ 16 > eb % 2 ^ 16 then ea % 2 ^ 16 else eb % 2 ^ 16) > ec % 2 ^ 16
      then (if ea % 2 ^ 16 > eb % 2 ^ 16 then ea % 2 ^ 16 else eb % 2 ^ 16) else ec % 2 ^ 16)
        > ed % 2 ^ 16
      then (if (if ea % 2 ^ 16 > eb % 2 ^ 16 then ea % 2 ^ 16 else eb % 2 ^ 16) > ec % 2 ^ 16
        then (if ea % 2 ^ 16 > eb % 2 ^ 16 then ea % 2 ^ 16 else eb % 2 ^ 16) else ec % 2 ^ 16)
      else ed % 2 ^ 16) = m at h hm1
  by_cases hlt : m < range
  · rw [if_pos hlt] at h
    by_cases hmul : UINTROUNDDIV max_val num % 2 ^ 16 > 4
    · rw [if_pos hmul] at h
      simp only [Option.some.injEq, Prod.mk.injEq] at h
      exact Or.inl h.1.symm
    · rw [if_neg hmul] at h
      split at h
      · simp only [Option.some.injEq, Prod.mk.injEq] at h
        right
        exact ⟨by rw [← h.1], ea, eb, ec, ed, ha, hb, hc, hd, by omega, by omega, by omega,
          by omega, by omega⟩
      · simp only [Option.some.injEq, Prod.mk.injEq] at h
        exact Or.inl h.1.symm
  · rw [if_neg hlt] at h
    simp only [Option.some.injEq, Prod.mk.injEq] at h
    exact Or.inl h.1.symm

/-- The scan from `num` downwards either keeps the current factor or ends with an
acceptable candidate between 2 and `num`. -/
theorem find_suitable_factor_loop_spec (a b c d range max_val : Nat) :
    ∀ (num : Nat) (st st2 : factor_state),
      find_suitable_factor_loop a b c d range max_val num st = some st2 →
      st2.current_factor = st.current_factor ∨
        (2 ≤ st2.current_factor ∧ st2.current_factor ≤ num ∧
          factor_ok a b c d range max_val st2.current_factor) := by
  intro num
  induction num using Nat.strong_induction_on with
  | _ num ih =>
    intro st st2 h
    match num, ih, h with
    | 0, _, h =>
      simp only [find_suitable_factor_loop, Option.some.injEq] at h
      exact Or.inl (by rw [h])
    | 1, _, h =>
      simp only [find_suitable_factor_loop, Option.some.injEq] at h
      exact Or.inl (by rw [h])
    | n + 2, ih, h =>
      simp only [find_suitable_factor_loop, Option.bind_eq_bind] at h
      cases hbody : find_suitable_factor_body a b c d range max_val (n + 2) st with
      | none => simp [hbody] at h
      | some r =>
        obtain ⟨st1, left⟩ := r
        simp only [hbody, Option.some_bind] at h
        have hb := find_suitable_factor_body_spec a b c d range max_val (n + 2) st st1 left hbody
        cases left with
        | true =>
          simp only [if_true, Option.some.injEq] at h
          subst h
          rcases hb with hb | ⟨hb1, hb2⟩
          · exact Or.inl (by rw [hb])
          · exact Or.inr ⟨by omega, by omega, by rw [hb1]; exact hb2⟩
        | false =>
          simp only [Bool.false_eq_true, if_false] at h
          rcases ih (n + 1) (by omega) st1 st2 h with h2 | ⟨h2, h3, h4⟩
          · rcases hb with hb | ⟨hb1, hb2⟩
            · exact Or.inl (by rw [h2, hb])
            · exact Or.inr ⟨by omega, by omega, by rw [h2, hb1]; exact hb2⟩
          · exact Or.inr ⟨h2, by omega, h4⟩

/-- A non-zero result of `find_suitable_factor` is an acceptable candidate that is not
above the first candidate of the scan. -/
theorem find_suitable_factor_spec (a b c d range p : Nat)
    (h : find_suitable_factor a b c d range = some p) (hp : p ≠ 0) :
    2 ≤ p ∧
    p ≤ u32_sub (((if (if a > b then a else b) > d then (if a > b then a else b) else d) +
          range % 2 ^ 16) % 2 ^ 32) 1 ∧
    factor_ok a b c d (range % 2 ^ 16) (if a > b then a else b) p := by
  unfold find_suitable_factor at h
  simp only [Option.bind_eq_bind, Option.bind_eq_some, Option.some.injEq] at h
  obtain ⟨st, hl, hst⟩ := h
  rcases find_suitable_factor_loop_spec _ _ _ _ _ _ _ _ _ hl with h0 | h1
  · simp only at h0
    omega
  · rw [hst] at h1
    exact h1

/-- For durations below `2 ^ 16` nothing is truncated: a non-zero result `p` is below
`2 ^ 17`, every duration is closer than `range` to a multiple of `p`, and the rounded
quotients of `a` and `b` by `p` are at most 4. -/
theorem find_suitable_factor_small (a b c d range p : Nat)
    (ha : a < 2 ^ 16) (hb : b < 2 ^ 16) (hc : c < 2 ^ 16) (hd : d < 2 ^ 16)
    (h : find_suitable_factor a b c d range = some p) (hp : p ≠ 0) :
    2 ≤ p ∧ p < 2 ^ 17 ∧
    dist_to_multiple a p < range % 2 ^ 16 ∧ dist_to_multiple b p < range % 2 ^ 16 ∧
    dist_to_multiple c p < range % 2 ^ 16 ∧ dist_to_multiple d p < range % 2 ^ 16 ∧
    (a + p / 2) / p ≤ 4 ∧ (b + p / 2) / p ≤ 4 := by
  obtain ⟨h2, hstart, ea, eb, ec, ed, ca, cb, cc, cd, la, lb, lc, ld, hmul⟩ :=
    find_suitable_factor_spec a b c d range p h hp
  have hr : range % 2 ^ 16 < 2 ^ 16 := Nat.mod_lt _ (by norm_num)
  have hmv : (if a > b then a else b) < 2 ^ 16 := by split <;> omega
  have hmin : (if (if a > b then a else b) > d then (if a > b then a else b) else d) < 2 ^ 16 := by
    split_ifs <;> omega
  have hamax : a ≤ (if a > b then a else b) := by split <;> omega
  have hbmax : b ≤ (if a > b then a else b) := by split <;> omega
  generalize (if a > b then a else b) = mv at *
  generalize (if mv > d then mv else d) = mn at *
  have hp17 : p < 2 ^ 17 := by
    unfold u32_sub at hstart
    omega
  have hpos : 0 < p := by omega
  have e : ∀ x, x < 2 ^ 16 → ∀ ex, calc_aligned_error x p = some ex →
      ex % 2 ^ 16 = dist_to_multiple x p := by
    intro x hx ex hex
    rw [calc_aligned_error_eq x p hpos (by omega) (by omega)] at hex
    have := (abs_diff_round x p hpos).2
    simp only [Option.some.injEq] at hex
    rw [← hex]
    exact Nat.mod_eq_of_lt (by omega)
  rw [e a ha ea ca] at la
  rw [e b hb eb cb] at lb
  rw [e c hc ec cc] at lc
  rw [e d hd ed cd] at ld
  have hround : UINTROUNDDIV mv p % 2 ^ 16 = (mv + p / 2) / p := by
    have h1 : UINTROUNDDIV mv p = (mv + p / 2) / p := by
      unfold UINTROUNDDIV; rw [Nat.mod_eq_of_lt (by omega)]
    rw [h1]
    apply Nat.mod_eq_of_lt
    have := Nat.div_le_div_left (a := mv + p / 2) h2 (by norm_num : 0 < 2)
    omega
  rw [hround] at hmul
  refine ⟨h2, hp17, la, lb, lc, ld, ?_, ?_⟩
  · exact Nat.le_trans (Nat.div_le_div_right (by omega)) hmul
  · exact Nat.le_trans (Nat.div_le_div_right (by omega)) hmul

/-- What `pwe_new_spi_backend` returns when it succeeds: the period found and the fields
computed from it. -/
theorem pwe_new_spi_backend_ok (config : pwe_config_t) (spi_conf : Option pwe_io_spi_config_t)
    (buffer_size : Nat) (calloc_ok : Bool) (h : pwe_io_spi_handle_t)
    (hok : pwe_new_spi_backend (some config) spi_conf buffer_size calloc_ok =
      some (ESP_OK, some h)) :
    ∃ p, find_suitable_factor config.T1H config.T1L config.T0H config.T0L
        (spi_accepted_range config) = some p ∧ p ≠ 0 ∧
      h.sclk = 1000000000 / p ∧
      h.t1h = UINTROUNDDIV config.T1H p % 2 ^ 8 ∧ h.t1l = UINTROUNDDIV config.T1L p % 2 ^ 8 ∧
      h.t0h = UINTROUNDDIV config.T0H p % 2 ^ 8 ∧ h.t0l = UINTROUNDDIV config.T0L p % 2 ^ 8 ∧
      h.max_payload_length = buffer_size ∧ h.trst = config.TRST ∧
      h.buffer_size = u32_mul (max (h.t0h + h.t0l) (h.t1h + h.t1l)) buffer_size ∧
      h.buffer = List.replicate (UINTCEILDIV h.buffer_size 8) 0 := by
  unfold pwe_new_spi_backend at hok
  simp only [Option.bind_eq_bind] at hok
  cases hf : find_suitable_factor config.T1H config.T1L config.T0H config.T0L
      (spi_accepted_range config) with
  | none => simp [hf] at hok
  | some p =>
    simp only [hf, Option.some_bind] at hok
    by_cases hp : p = 0
    · simp [hp] at hok
    · rw [if_neg hp] at hok
      cases calloc_ok with
      | false => simp at hok
      | true =>
        cases spi_conf with
        | none => simp at hok
        | some sc =>
          simp only [not_true_eq_false, if_false, Option.some.injEq,
            Prod.mk.injEq, true_and] at hok
          subst hok
          refine ⟨p, rfl, hp, rfl, rfl, rfl, rfl, rfl, rfl, rfl, ?_, rfl⟩
          have hmax : ∀ x y z w : Nat, x < 2 ^ 8 → y < 2 ^ 8 → z < 2 ^ 8 → w < 2 ^ 8 →
              (if x + y > z + w then x + y else z + w) % 2 ^ 16 = max (x + y) (z + w) := by
            intro x y z w hx hy hz hw
            split
            · rw [Nat.mod_eq_of_lt (by omega), Nat.max_eq_left (by omega)]
            · rw [Nat.mod_eq_of_lt (by omega), Nat.max_eq_right (by omega)]
          have hlt : ∀ x : Nat, x % 2 ^ 8 < 2 ^ 8 := fun x => Nat.mod_lt _ (by norm_num)
          show u32_mul _ buffer_size = u32_mul _ buffer_size
          rw [hmax _ _ _ _ (hlt _) (hlt _) (hlt _) (hlt _)]

/-- C13, amended. For every TimingSpec with all four durations below `2 ^ 16` for which
`pwe_new_spi_backend` succeeds, with chosen clock period `p`, each requested duration
whose slot count is its rounded quotient by `p` (always so for T1H and T1L, whose slot
counts are at most 4; for T0H and T0L whenever the quotient fits the 8-bit field) is
represented within the mean of the four tolerances,
`(T1H_ACC + T1L_ACC + T0H_ACC + T0L_ACC) / 4`, not within its own tolerance. -/
theorem pwe_new_spi_backend_within_mean_tolerance (config : pwe_config_t)
    (spi_conf : Option pwe_io_spi_config_t) (buffer_size : Nat) (calloc_ok : Bool)
    (h : pwe_io_spi_handle_t)
    (hT1H : config.T1H < 2 ^ 16) (hT1L : config.T1L < 2 ^ 16)
    (hT0H : config.T0H < 2 ^ 16) (hT0L : config.T0L < 2 ^ 16)
    (hok : pwe_new_spi_backend (some config) spi_conf buffer_size calloc_ok =
      some (ESP_OK, some h)) :
    ∃ p, find_suitable_factor config.T1H config.T1L config.T0H config.T0L
        (spi_accepted_range config) = some p ∧ 2 ≤ p ∧ h.sclk = 1000000000 / p ∧
      h.t1h ≤ 4 ∧ h.t1l ≤ 4 ∧
      abs_diff config.T1H (h.t1h * p) <
        (config.T1H_ACC + config.T1L_ACC + config.T0H_ACC + config.T0L_ACC) / 4 ∧
      abs_diff config.T1L (h.t1l * p) <
        (config.T1H_ACC + config.T1L_ACC + config.T0H_ACC + config.T0L_ACC) / 4 ∧
      (UINTROUNDDIV config.T0H p < 2 ^ 8 → abs_diff config.T0H (h.t0h * p) <
        (config.T1H_ACC + config.T1L_ACC + config.T0H_ACC + config.T0L_ACC) / 4) ∧
      (UINTROUNDDIV config.T0L p < 2 ^ 8 → abs_diff config.T0L (h.t0l * p) <
        (config.T1H_ACC + config.T1L_ACC + config.T0H_ACC + config.T0L_ACC) / 4) := by
  obtain ⟨p, hf, hp, hsclk, h1h, h1l, h0h, h0l, _⟩ :=
    pwe_new_spi_backend_ok config spi_conf buffer_size calloc_ok h hok
  obtain ⟨h2, hp17, da, db, dc, dd, ma, mb⟩ :=
    find_suitable_factor_small _ _ _ _ _ p hT1H hT1L hT0H hT0L hf hp
  have hpos : 0 < p := by omega
  have hrange : spi_accepted_range config % 2 ^ 16 ≤
      (config.T1H_ACC + config.T1L_ACC + config.T0H_ACC + config.T0L_ACC) / 4 := by
    unfold spi_accepted_range
    omega
  have hround : ∀ x, x < 2 ^ 16 → UINTROUNDDIV x p = (x + p / 2) / p := by
    intro x hx
    unfold UINTROUNDDIV; rw [Nat.mod_eq_of_lt (by omega)]
  have habs : ∀ x, abs_diff x ((x + p / 2) / p * p) = dist_to_multiple x p :=
    fun x => (abs_diff_round x p hpos).1
  refine ⟨p, hf, h2, hsclk, ?_, ?_, ?_, ?_, ?_, ?_⟩
  · rw [h1h, hround _ hT1H]; exact Nat.le_trans (Nat.mod_le _ _) ma
  · rw [h1l, hround _ hT1L]; exact Nat.le_trans (Nat.mod_le _ _) mb
  · rw [h1h, hround _ hT1H, Nat.mod_eq_of_lt (by omega), habs]; omega
  · rw [h1l, hround _ hT1L, Nat.mod_eq_of_lt (by omega), habs]; omega
  · intro hfit
    rw [h0h, Nat.mod_eq_of_lt hfit, hround _ hT0H, habs]; omega
  · intro hfit
    rw [h0l, Nat.mod_eq_of_lt hfit, hround _ hT0L, habs]; omega

/-- `pwe_new_spi_backend` on non-NULL arguments, in terms of the result of the period
search. -/
theorem pwe_new_spi_backend_eq (config : pwe_config_t) (spi_conf : pwe_io_spi_config_t)
    (buffer_size p : Nat)
    (hf : find_suitable_factor config.T1H config.T1L config.T0H config.T0L
      (spi_accepted_range config) = some p) :
    (p = 0 → ∀ (sc : Option pwe_io_spi_config_t) (calloc_ok : Bool),
      pwe_new_spi_backend (some config) sc buffer_size calloc_ok =
        some (ESP_ERR_INVALID_ARG, none)) ∧
    (p ≠ 0 → pwe_new_spi_backend (some config) (some spi_conf) buffer_size true =
      some (ESP_OK, some
        { max_payload_length := buffer_size
          sclk := 1000000000 / p
          t1h := UINTROUNDDIV config.T1H p % 2 ^ 8
          t1l := UINTROUNDDIV config.T1L p % 2 ^ 8
          t0h := UINTROUNDDIV config.T0H p % 2 ^ 8
          t0l := UINTROUNDDIV config.T0L p % 2 ^ 8
          trst := config.TRST
          buffer_size := u32_mul
            ((if UINTROUNDDIV config.T0H p % 2 ^ 8 + UINTROUNDDIV config.T0L p % 2 ^ 8 >
                  UINTROUNDDIV config.T1H p % 2 ^ 8 + UINTROUNDDIV config.T1L p % 2 ^ 8
              then UINTROUNDDIV config.T0H p % 2 ^ 8 + UINTROUNDDIV config.T0L p % 2 ^ 8
              else UINTROUNDDIV config.T1H p % 2 ^ 8 + UINTROUNDDIV config.T1L p % 2 ^ 8) % 2 ^ 16)
            buffer_size
          buffer := List.replicate (UINTCEILDIV (u32_mul
            ((if UINTROUNDDIV config.T0H p % 2 ^ 8 + UINTROUNDDIV config.T0L p % 2 ^ 8 >
                  UINTROUNDDIV config.T1H p % 2 ^ 8 + UINTROUNDDIV config.T1L p % 2 ^ 8
              then UINTROUNDDIV config.T0H p % 2 ^ 8 + UINTROUNDDIV config.T0L p % 2 ^ 8
              else UINTROUNDDIV config.T1H p % 2 ^ 8 + UINTROUNDDIV config.T1L p % 2 ^ 8) % 2 ^ 16)
            buffer_size) 8) 0 })) := by
  constructor
  · intro hp sc calloc_ok
    unfold pwe_new_spi_backend
    simp only [hf, hp, Option.bind_eq_bind, Option.some_bind, if_true]
  · intro hp
    unfold pwe_new_spi_backend
    simp only [hf, Option.bind_eq_bind, Option.some_bind, if_neg hp, not_true_eq_false,
      if_false]

theorem pwe_new_spi_backend_within_mean_tolerance_witness :
    ∃ p, find_suitable_factor 1250 416 625 1041 200 = some p ∧ 2 ≤ p ∧
      abs_diff 1250 (4 * p) < 200 ∧ abs_diff 416 (1 * p) < 200 :=
  have w := pwe_new_spi_backend_within_mean_tolerance PWE_DSHOT600_CONFIG
    (some { gpio := 0, spi_bus := 0 }) 16 true dshot600_spi_handle
    (by decide) (by decide) (by decide) (by decide) (by decide!)
  w.imp fun _ hp => ⟨hp.1, hp.2.1, hp.2.2.2.2.2.1, hp.2.2.2.2.2.2.1⟩

/-- C13, counterexample. The DShot600 durations with the tolerance of T1H tightened to
50 ns and that of T1L widened to 350 ns (mean 200 ns) are accepted with period 333 ns and
4 slots for T1H: `|1250 - 4 * 333| = 82`, which is not below T1H's own tolerance 50. -/
theorem pwe_new_spi_backend_own_tolerance_fails :
    pwe_new_spi_backend (some { PWE_DSHOT600_CONFIG with T1H_ACC := 50, T1L_ACC := 350 })
        (some { gpio := 0, spi_bus := 0 }) 16 true = some (ESP_OK, some dshot600_spi_handle) ∧
    find_suitable_factor 1250 416 625 1041
        (spi_accepted_range { PWE_DSHOT600_CONFIG with T1H_ACC := 50, T1L_ACC := 350 }) =
      some 333 ∧
    dshot600_spi_handle.t1h = 4 ∧
    abs_diff 1250 (dshot600_spi_handle.t1h * 333) = 82 ∧
    ¬ (abs_diff 1250 (dshot600_spi_handle.t1h * 333) < 50) := by
  decide!

/-- C14. On the durations (1250, 416, 625, 1041) ns with tolerance 200 ns the period
search returns 333, a non-zero period for which each duration is less than 200 ns from
its nearest multiple, so `pwe_new_spi_backend` succeeds on the DShot600 preset for every
capacity; with tolerance 1 ns the search returns 0 and the constructor fails (it reports
the infeasible timing with `ESP_ERR_INVALID_ARG` and stores no handle). -/
theorem find_suitable_factor_dshot600 :
    find_suitable_factor 1250 416 625 1041 200 = some 333 ∧
    dist_to_multiple 1250 333 < 200 ∧ dist_to_multiple 416 333 < 200 ∧
    dist_to_multiple 625 333 < 200 ∧ dist_to_multiple 1041 333 < 200 ∧
    (∀ (spi_conf : pwe_io_spi_config_t) (buffer_size : Nat),
      pwe_new_spi_backend (some PWE_DSHOT600_CONFIG) (some spi_conf) buffer_size true =
        some (ESP_OK, some
          { max_payload_length := buffer_size, sclk := 3003003, t1h := 4, t1l := 1, t0h := 2,
            t0l := 3, trst := 3333, buffer_size := u32_mul 5 buffer_size,
            buffer := List.replicate (UINTCEILDIV (u32_mul 5 buffer_size) 8) 0 })) ∧
    find_suitable_factor 1250 416 625 1041 1 = some 0 ∧
    (∀ (spi_conf : Option pwe_io_spi_config_t) (buffer_size : Nat) (calloc_ok : Bool),
      pwe_new_spi_backend
          (some { PWE_DSHOT600_CONFIG with
                    T1H_ACC := 1, T1L_ACC := 1, T0H_ACC := 1, T0L_ACC := 1 })
          spi_conf buffer_size calloc_ok = some (ESP_ERR_INVALID_ARG, none)) := by
  have h200 : find_suitable_factor 1250 416 625 1041 200 = some 333 := by decide!
  have h1 : find_suitable_factor 1250 416 625 1041 1 = some 0 := by decide!
  refine ⟨h200, by decide, by decide, by decide, by decide, ?_, h1, ?_⟩
  · intro spi_conf buffer_size
    exact (pwe_new_spi_backend_eq PWE_DSHOT600_CONFIG spi_conf buffer_size 333 h200).2
      (by decide)
  · intro spi_conf buffer_size calloc_ok
    exact (pwe_new_spi_backend_eq { PWE_DSHOT600_CONFIG with
        T1H_ACC := 1, T1L_ACC := 1, T0H_ACC := 1, T0L_ACC := 1 }
      { gpio := 0, spi_bus := 0 } buffer_size 0 h1).1 rfl spi_conf calloc_ok

/-! ## Sending, resetting -/

theorem pwe_new_rmt_backend_fields {APB_CLK_FREQ : Nat} {config : pwe_config_t}
    {rmt_conf : rmt_config_t} {buffer_size : Nat} {block : Option rmt_block}
    {h : pwe_io_rmt_handle_t}
    (hnew : pwe_new_rmt_backend APB_CLK_FREQ (some config) (some rmt_conf) buffer_size block =
      some (ESP_OK, some h)) :
    h.max_payload_length = buffer_size ∧ h.rmt_conf = rmt_conf ∧
      h.trst = max 1 (config.TRST / 1000) ∧ h.buffer.length = buffer_size := by
  unfold pwe_new_rmt_backend at hnew
  simp only [Option.bind_eq_bind, Option.bind_eq_some] at hnew
  obtain ⟨step, -, hnew⟩ := hnew
  split at hnew
  · simp at hnew
  · simp only [Option.bind_eq_bind, Option.bind_eq_some] at hnew
    obtain ⟨ok, -, hnew⟩ := hnew
    split at hnew
    · simp at hnew
    · split at hnew
      · simp at hnew
      · simp only [Option.some.injEq, Prod.mk.injEq, true_and] at hnew
        subst hnew
        refine ⟨rfl, rfl, ?_, by simp⟩
        show (if config.TRST / 1000 = 0 then 1 else config.TRST / 1000) = _
        split_ifs <;> omega

theorem pwe_new_spi_backend_fields {config : pwe_config_t} {spi_conf : Option pwe_io_spi_config_t}
    {buffer_size : Nat} {calloc_ok : Bool} {h : pwe_io_spi_handle_t}
    (hnew : pwe_new_spi_backend (some config) spi_conf buffer_size calloc_ok =
      some (ESP_OK, some h)) :
    h.max_payload_length = buffer_size ∧ h.trst = config.TRST := by
  unfold pwe_new_spi_backend at hnew
  simp only [Option.bind_eq_bind, Option.bind_eq_some] at hnew
  obtain ⟨p, -, hnew⟩ := hnew
  split at hnew
  · simp at hnew
  · split at hnew
    · simp at hnew
    · split at hnew
      · simp at hnew
      · simp only [Option.some.injEq, Prod.mk.injEq, true_and] at hnew
        subst hnew
        exact ⟨rfl, rfl⟩

/-- C15. `pwe_send` dispatches on the capacity of the encoder `p`.  With capacity 0 the
result is the result of the backend's streaming send when it has one (the
Buffered-Waveform backend), and the unsupported-operation error, which the code reports
as `ESP_ERR_INVALID_STATE`, when it has none (the Clocked-Shift backend), with no call to
the hardware.  With a capacity above 0, a `len` above the capacity gives
`ESP_ERR_INVALID_ARG`, the encoder is unchanged and no call is made; otherwise the message
is converted and the only call is the write of the backend, with exactly the count that
the conversion returned, whose result is the result of `pwe_send`. -/
theorem pwe_send_dispatch (hw : hw_env) (data : List Nat) (len : Nat) :
    (∀ p : pwe_t, p.max_payload_length = 0 →
      (∀ f, p.on_the_fly_send = some f →
        pwe_send hw (some p) data len =
          some ((f data len).1, some (f data len).2.1, (f data len).2.2)) ∧
      (p.on_the_fly_send = none →
        pwe_send hw (some p) data len = some (ESP_ERR_INVALID_STATE, some p, []))) ∧
    (∀ h : pwe_io_rmt_handle_t, (pwe_t.rmt h).on_the_fly_send = some fun data len =>
        (ESP_OK, pwe_t.rmt { h with _total_bits_to_send := len },
         [hw_call.rmt_write_sample h.rmt_conf.channel data (UINTCEILDIV len 8)])) ∧
    (∀ h : pwe_io_spi_handle_t, (pwe_t.spi h).on_the_fly_send = none) ∧
    (∀ p : pwe_t, 0 < p.max_payload_length → p.max_payload_length < len →
      pwe_send hw (some p) data len = some (ESP_ERR_INVALID_ARG, some p, [])) ∧
    (∀ (h : pwe_io_rmt_handle_t) (r : esp_err_t × pwe_io_rmt_handle_t × Nat),
      0 < h.max_payload_length → len ≤ h.max_payload_length →
      pwe_io_rmt_convert_buffer h data len 0 = some r →
      r.1 = ESP_OK ∧
      pwe_send hw (some (pwe_t.rmt h)) data len =
        some (hw (hw_call.rmt_write_items h.rmt_conf.channel r.2.1.buffer r.2.2),
              some (pwe_t.rmt r.2.1),
              [hw_call.rmt_write_items h.rmt_conf.channel r.2.1.buffer r.2.2])) ∧
    (∀ (h : pwe_io_spi_handle_t) (r : esp_err_t × pwe_io_spi_handle_t × Nat),
      0 < h.max_payload_length → len ≤ h.max_payload_length →
      pwe_io_spi_convert_buffer h data len 0 = some r →
      r.1 = ESP_OK ∧
      pwe_send hw (some (pwe_t.spi h)) data len =
        some (hw (hw_call.spi_device_transmit r.2.2 r.2.1.buffer),
              some (pwe_t.spi r.2.1),
              [hw_call.spi_device_transmit r.2.2 r.2.1.buffer])) := by
  refine ⟨?_, fun h => rfl, fun h => rfl, ?_, ?_, ?_⟩
  · intro p h0
    refine ⟨fun f hf => ?_, fun hf => ?_⟩
    · simp only [pwe_send, h0, if_true, hf]
    · simp only [pwe_send, h0, if_true, hf]
  · intro p hpos hlt
    have h1 : ¬ p.max_payload_length = 0 := by omega
    have h2 : ¬ len ≤ p.max_payload_length := by omega
    simp only [pwe_send, h1, h2, if_false, not_false_eq_true, if_true]
  · intro h r hpos hle hconv
    have h1 : ¬ h.max_payload_length = 0 := by omega
    have hge : h.max_payload_length ≥ len := hle
    have hr : r.1 = ESP_OK ∧ r.2.1.rmt_conf = h.rmt_conf := by
      unfold pwe_io_rmt_convert_buffer at hconv
      simp only [hge, if_true, Option.bind_eq_bind, Option.bind_eq_some] at hconv
      obtain ⟨x, -, hx⟩ := hconv
      simp only [Option.some.injEq] at hx
      subst hx
      exact ⟨rfl, rfl⟩
    refine ⟨hr.1, ?_⟩
    obtain ⟨e, h2, n⟩ := r
    simp only at hr
    obtain ⟨he, hc⟩ := hr
    subst he
    simp only [pwe_send, pwe_t.max_payload_length, h1, hle, if_false, not_true_eq_false,
      pwe_io_convert_buffer, pwe_t.convert_buffer, if_true, hconv, Option.map_some',
      Option.bind_eq_bind, Option.some_bind, ne_eq, pwe_io_write, pwe_t.write,
      pwe_io_rmt_write, hw_chain, hc]
    split_ifs <;> simp_all
  · intro h r hpos hle hconv
    have h1 : ¬ h.max_payload_length = 0 := by omega
    have hge : h.max_payload_length ≥ len := hle
    have hr : r.1 = ESP_OK := by
      unfold pwe_io_spi_convert_buffer at hconv
      simp only [hge, if_true, Option.bind_eq_bind, Option.bind_eq_some] at hconv
      obtain ⟨x, -, y, -, hx⟩ := hconv
      simp only [Option.some.injEq] at hx
      subst hx
      rfl
    refine ⟨hr, ?_⟩
    obtain ⟨e, h2, n⟩ := r
    simp only at hr
    subst hr
    simp only [pwe_send, pwe_t.max_payload_length, h1, hle, if_false, not_true_eq_false,
      pwe_io_convert_buffer, pwe_t.convert_buffer, if_true, hconv, Option.map_some',
      Option.bind_eq_bind, Option.some_bind, ne_eq, pwe_io_write, pwe_t.write,
      pwe_io_spi_write, hw_chain]
    split_ifs <;> simp_all

theorem pwe_send_dispatch_witness :
    pwe_send (fun _ => ESP_FAIL) (some (pwe_t.rmt ws2812_rmt_handle)) [0xC0] 2 =
      some (ESP_OK, some (pwe_t.rmt { ws2812_rmt_handle with _total_bits_to_send := 2 }),
            [hw_call.rmt_write_sample 0 [0xC0] 1]) ∧
    pwe_send (fun _ => ESP_OK)
        (some (pwe_t.spi { dshot600_spi_handle with max_payload_length := 0 })) [0xC0] 2 =
      some (ESP_ERR_INVALID_STATE,
            some (pwe_t.spi { dshot600_spi_handle with max_payload_length := 0 }), []) ∧
    pwe_send (fun _ => ESP_OK) (some (pwe_t.spi dshot600_spi_handle)) [0, 0, 0] 17 =
      some (ESP_ERR_INVALID_ARG, some (pwe_t.spi dshot600_spi_handle), []) ∧
    pwe_send (fun _ => ESP_OK) (some (pwe_t.spi dshot600_spi_handle)) [0xC0] 2 =
      some (ESP_OK,
            some (pwe_t.spi { dshot600_spi_handle with buffer := [247, 0, 0, 0, 0, 0, 0, 0, 0, 0] }),
            [hw_call.spi_device_transmit 10 [247, 0, 0, 0, 0, 0, 0, 0, 0, 0]]) :=
  ⟨((pwe_send_dispatch (fun _ => ESP_FAIL) [0xC0] 2).1 (pwe_t.rmt ws2812_rmt_handle) rfl).1 _ rfl,
   ((pwe_send_dispatch (fun _ => ESP_OK) [0xC0] 2).1
      (pwe_t.spi { dshot600_spi_handle with max_payload_length := 0 }) rfl).2 rfl,
   (pwe_send_dispatch (fun _ => ESP_OK) [0, 0, 0] 17).2.2.2.1 (pwe_t.spi dshot600_spi_handle)
      (by decide) (by decide),
   ((pwe_send_dispatch (fun _ => ESP_OK) [0xC0] 2).2.2.2.2.2 dshot600_spi_handle
      (ESP_OK, { dshot600_spi_handle with buffer := [247, 0, 0, 0, 0, 0, 0, 0, 0, 0] }, 10)
      (by decide) (by decide) rfl).2⟩

/-- C16. On both backends `pwe_io_convert_buffer` with `len` above the capacity of the
encoder returns `ESP_ERR_INVALID_ARG`, and the encoder, with its outgoing buffer, and the
caller's output length come back as they were.  The conversion function of each backend
makes the same test itself. -/
theorem pwe_io_convert_buffer_rejects_long (data : List Nat) (len outgoing_buffer_len : Nat) :
    (∀ p : pwe_t, p.max_payload_length < len →
      pwe_io_convert_buffer (some p) data len outgoing_buffer_len =
        some (ESP_ERR_INVALID_ARG, some p, outgoing_buffer_len)) ∧
    (∀ h : pwe_io_rmt_handle_t, h.max_payload_length < len →
      pwe_io_rmt_convert_buffer h data len outgoing_buffer_len =
        some (ESP_ERR_INVALID_ARG, h, outgoing_buffer_len)) ∧
    (∀ h : pwe_io_spi_handle_t, h.max_payload_length < len →
      pwe_io_spi_convert_buffer h data len outgoing_buffer_len =
        some (ESP_ERR_INVALID_ARG, h, outgoing_buffer_len)) := by
  refine ⟨fun p hp => ?_, fun h hh => ?_, fun h hh => ?_⟩
  · have h2 : ¬ len ≤ p.max_payload_length := by omega
    cases p <;> simp only [pwe_io_convert_buffer, pwe_t.convert_buffer, h2, if_false]
  · have h2 : ¬ h.max_payload_length ≥ len := by omega
    simp only [pwe_io_rmt_convert_buffer, h2, if_false]
  · have h2 : ¬ h.max_payload_length ≥ len := by omega
    simp only [pwe_io_spi_convert_buffer, h2, if_false]

theorem pwe_io_convert_buffer_rejects_long_witness :
    pwe_io_convert_buffer (some (pwe_t.rmt dshot600_rmt_handle)) [0, 0, 0] 17 5 =
      some (ESP_ERR_INVALID_ARG, some (pwe_t.rmt dshot600_rmt_handle), 5) ∧
    pwe_io_convert_buffer (some (pwe_t.spi dshot600_spi_handle)) [0, 0, 0] 17 5 =
      some (ESP_ERR_INVALID_ARG, some (pwe_t.spi dshot600_spi_handle), 5) ∧
    pwe_io_rmt_convert_buffer dshot600_rmt_handle [0, 0, 0] 17 5 =
      some (ESP_ERR_INVALID_ARG, dshot600_rmt_handle, 5) ∧
    pwe_io_spi_convert_buffer dshot600_spi_handle [0, 0, 0] 17 5 =
      some (ESP_ERR_INVALID_ARG, dshot600_spi_handle, 5) :=
  ⟨(pwe_io_convert_buffer_rejects_long [0, 0, 0] 17 5).1 (pwe_t.rmt dshot600_rmt_handle)
      (by decide),
   (pwe_io_convert_buffer_rejects_long [0, 0, 0] 17 5).1 (pwe_t.spi dshot600_spi_handle)
      (by decide),
   (pwe_io_convert_buffer_rejects_long [0, 0, 0] 17 5).2.1 dshot600_rmt_handle (by decide),
   (pwe_io_convert_buffer_rejects_long [0, 0, 0] 17 5).2.2 dshot600_spi_handle (by decide)⟩

/-- C17 (failing input).  For a timing of four durations of 1 ns with a tolerance of 40 ns
each, `find_suitable_factor` returns the period 40 and `pwe_new_spi_backend` succeeds with
capacity 16; every slot count of the handle is 0, so `max_slots_per_bit * 16` is 0 and the
buffer has no byte.  Converting one bit with this handle passes the length test, clears
nothing, and its first loop pass reads and then writes `buffer[0]`, which is not below
`ceil(0 * 16 / 8) = 0`: the access is out of bounds and the conversion is undefined. -/
theorem pwe_io_spi_convert_buffer_zero_slots :
    find_suitable_factor 1 1 1 1 40 = some 40 ∧
    (∀ spi_conf : pwe_io_spi_config_t,
      pwe_new_spi_backend (some one_ns_config) (some spi_conf) 16 true =
        some (ESP_OK, some one_ns_spi_handle)) ∧
    max (one_ns_spi_handle.t1h + one_ns_spi_handle.t1l)
        (one_ns_spi_handle.t0h + one_ns_spi_handle.t0l) = 0 ∧
    UINTCEILDIV one_ns_spi_handle.buffer_size 8 = 0 ∧
    one_ns_spi_handle.buffer.length = 0 ∧
    1 ≤ one_ns_spi_handle.max_payload_length ∧
    memset_zero one_ns_spi_handle.buffer 0 = some [] ∧
    rd ([] : List Nat) 0 = none ∧
    (∀ v : Nat, wr ([] : List Nat) 0 v = none) ∧
    pwe_io_spi_convert_step one_ns_spi_handle [0x80]
      { buffer := [], bits_src_proceeded := 0, overflow_byte := 0, bit_offset_dest := 0,
        byte_offset_dest := 0 } = none ∧
    pwe_io_spi_convert_buffer one_ns_spi_handle [0x80] 1 0 = none := by
  refine ⟨by decide!, fun spi_conf => ?_, by decide, by decide, by decide, by decide, by decide,
    by decide, fun v => rfl, by decide, by decide⟩
  exact ((pwe_new_spi_backend_eq one_ns_config spi_conf 16 40 (by decide!)).2 (by decide)).trans
    (by decide)

/-- What both resets hand to `esp_rom_delay_us` for a reset time of `TRST` ns. -/
theorem reset_delay_cases (TRST : Nat) :
    (if TRST / 1000 = 0 then 1 else TRST / 1000) = max 1 (TRST / 1000) := by
  split_ifs <;> omega

theorem pwe_ensure_rst_rmt {APB_CLK_FREQ : Nat} {config : pwe_config_t}
    {rmt_conf : rmt_config_t} {buffer_size : Nat} {block : Option rmt_block}
    {h : pwe_io_rmt_handle_t}
    (hnew : pwe_new_rmt_backend APB_CLK_FREQ (some config) (some rmt_conf) buffer_size block =
      some (ESP_OK, some h)) :
    pwe_ensure_rst (some (pwe_t.rmt h)) =
      some (ESP_OK,
        [hw_call.rmt_write_items rmt_conf.channel
           [{ duration0 := 1, level0 := 0, duration1 := 1, level1 := 0 }] 1,
         hw_call.esp_rom_delay_us (max 1 (config.TRST / 1000))]) := by
  obtain ⟨-, hc, ht, -⟩ := pwe_new_rmt_backend_fields hnew
  simp only [pwe_ensure_rst, pwe_t.ensure_rst, pwe_io_rmt.pwe_io_spi_ensure_rst, hc, ht]

theorem pwe_ensure_rst_spi {config : pwe_config_t} {spi_conf : Option pwe_io_spi_config_t}
    {buffer_size : Nat} {calloc_ok : Bool} {h : pwe_io_spi_handle_t}
    (hnew : pwe_new_spi_backend (some config) spi_conf buffer_size calloc_ok =
      some (ESP_OK, some h)) :
    pwe_ensure_rst (some (pwe_t.spi h)) =
      some (ESP_OK, [hw_call.esp_rom_delay_us (max 1 (config.TRST / 1000))]) := by
  obtain ⟨-, ht⟩ := pwe_new_spi_backend_fields hnew
  simp only [pwe_ensure_rst, pwe_t.ensure_rst, pwe_io_spi_ensure_rst, ht, reset_delay_cases]

/-- C19 (as stated, refuted).  With the DShot600 preset, whose reset time is 3333 ns, both
constructors succeed and the reset of either backend asks for a delay of 3 us, that is
3000 ns, which is below 3333 ns. -/
theorem ensure_rst_shorter_than_trst :
    PWE_DSHOT600_CONFIG.TRST = 3333 ∧
    pwe_new_rmt_backend 80000000 (some PWE_DSHOT600_CONFIG) (some { channel := 0, clk_div := 4 })
        16 (some { total_bits := 0, items := fun _ => ⟨0, 0, 0, 0⟩ }) =
      some (ESP_OK, some dshot600_rmt_handle) ∧
    pwe_new_spi_backend (some PWE_DSHOT600_CONFIG) (some { gpio := 0, spi_bus := 1 }) 16 true =
      some (ESP_OK, some dshot600_spi_handle) ∧
    (∃ calls, pwe_ensure_rst (some (pwe_t.rmt dshot600_rmt_handle)) = some (ESP_OK, calls) ∧
      requested_delay_us calls = 3 ∧
      ¬ (PWE_DSHOT600_CONFIG.TRST ≤ 1000 * requested_delay_us calls)) ∧
    (∃ calls, pwe_ensure_rst (some (pwe_t.spi dshot600_spi_handle)) = some (ESP_OK, calls) ∧
      requested_delay_us calls = 3 ∧
      ¬ (PWE_DSHOT600_CONFIG.TRST ≤ 1000 * requested_delay_us calls)) := by
  refine ⟨rfl, by decide!, by decide!, ⟨_, rfl, by decide, by decide⟩, ⟨_, rfl, by decide, by decide⟩⟩

/-- C19 (amended).  For every timing configuration that a constructor accepts, the reset
of the handle succeeds and the idle time it requests, in nanoseconds (the delay in
microseconds times 1000), is `1000 * max(1, TRST / 1000)` with the division rounded down.
This is more than `TRST - 1000`, and it is at least `TRST` exactly when `TRST` is a
multiple of 1000 or below 1000. -/
theorem ensure_rst_idle_time (APB_CLK_FREQ : Nat) (config : pwe_config_t)
    (rmt_conf : rmt_config_t) (spi_conf : Option pwe_io_spi_config_t) (buffer_size : Nat)
    (block : Option rmt_block) (calloc_ok : Bool) (p : pwe_t)
    (hnew :
      (∃ h, p = pwe_t.rmt h ∧
        pwe_new_rmt_backend APB_CLK_FREQ (some config) (some rmt_conf) buffer_size block =
          some (ESP_OK, some h)) ∨
      (∃ h, p = pwe_t.spi h ∧
        pwe_new_spi_backend (some config) spi_conf buffer_size calloc_ok =
          some (ESP_OK, some h))) :
    ∃ calls, pwe_ensure_rst (some p) = some (ESP_OK, calls) ∧
      1000 * requested_delay_us calls = 1000 * max 1 (config.TRST / 1000) ∧
      config.TRST < 1000 * requested_delay_us calls + 1000 ∧
      (config.TRST ≤ 1000 * requested_delay_us calls ↔
        (config.TRST % 1000 = 0 ∨ config.TRST < 1000)) := by
  have key : ∀ d : Nat, d = max 1 (config.TRST / 1000) →
      1000 * d = 1000 * max 1 (config.TRST / 1000) ∧ config.TRST < 1000 * d + 1000 ∧
      (config.TRST ≤ 1000 * d ↔ (config.TRST % 1000 = 0 ∨ config.TRST < 1000)) := by
    intro d hd
    subst hd
    refine ⟨rfl, by omega, by omega⟩
  rcases hnew with ⟨h, rfl, hnew⟩ | ⟨h, rfl, hnew⟩
  · refine ⟨_, pwe_ensure_rst_rmt hnew, key _ ?_⟩
    simp [requested_delay_us]
  · refine ⟨_, pwe_ensure_rst_spi hnew, key _ ?_⟩
    simp [requested_delay_us]

theorem ensure_rst_idle_time_witness :
    ∃ calls, pwe_ensure_rst (some (pwe_t.spi dshot600_spi_handle)) = some (ESP_OK, calls) ∧
      1000 * requested_delay_us calls = 1000 * max 1 (PWE_DSHOT600_CONFIG.TRST / 1000) ∧
      PWE_DSHOT600_CONFIG.TRST < 1000 * requested_delay_us calls + 1000 ∧
      (PWE_DSHOT600_CONFIG.TRST ≤ 1000 * requested_delay_us calls ↔
        (PWE_DSHOT600_CONFIG.TRST % 1000 = 0 ∨ PWE_DSHOT600_CONFIG.TRST < 1000)) :=
  ensure_rst_idle_time 80000000 PWE_DSHOT600_CONFIG { channel := 0, clk_div := 4 }
    (some { gpio := 0, spi_bus := 1 }) 16 none true (pwe_t.spi dshot600_spi_handle)
    (Or.inr ⟨dshot600_spi_handle, rfl, by decide!⟩)

/-- C20.  On a handle that `pwe_new_rmt_backend` returned for a configuration with reset
time `TRST`, the reset makes exactly two calls: it writes one descriptor with durations 1
and 1 and both levels 0, then asks `esp_rom_delay_us` for `max(1, TRST / 1000)`
microseconds, the division rounded down.  On a handle that `pwe_new_spi_backend` returned
it makes exactly one call, the same delay.  Both return `ESP_OK`. -/
theorem ensure_rst_calls (APB_CLK_FREQ : Nat) (config : pwe_config_t) (rmt_conf : rmt_config_t)
    (spi_conf : Option pwe_io_spi_config_t) (buffer_size : Nat) (block : Option rmt_block)
    (calloc_ok : Bool) :
    (∀ h, pwe_new_rmt_backend APB_CLK_FREQ (some config) (some rmt_conf) buffer_size block =
        some (ESP_OK, some h) →
      pwe_ensure_rst (some (pwe_t.rmt h)) =
        some (ESP_OK,
          [hw_call.rmt_write_items rmt_conf.channel
             [{ duration0 := 1, level0 := 0, duration1 := 1, level1 := 0 }] 1,
           hw_call.esp_rom_delay_us (max 1 (config.TRST / 1000))])) ∧
    (∀ h, pwe_new_spi_backend (some config) spi_conf buffer_size calloc_ok =
        some (ESP_OK, some h) →
      pwe_ensure_rst (some (pwe_t.spi h)) =
        some (ESP_OK, [hw_call.esp_rom_delay_us (max 1 (config.TRST / 1000))])) ∧
    (config.TRST / 1000 = 0 → max 1 (config.TRST / 1000) = 1) ∧
    (config.TRST / 1000 ≠ 0 → max 1 (config.TRST / 1000) = config.TRST / 1000) :=
  ⟨fun _ hnew => pwe_ensure_rst_rmt hnew, fun _ hnew => pwe_ensure_rst_spi hnew,
   fun h0 => by omega, fun h0 => by omega⟩

theorem ensure_rst_calls_witness :
    pwe_ensure_rst (some (pwe_t.rmt dshot600_rmt_handle)) =
      some (ESP_OK,
        [hw_call.rmt_write_items 0 [{ duration0 := 1, level0 := 0, duration1 := 1, level1 := 0 }] 1,
         hw_call.esp_rom_delay_us 3]) ∧
    pwe_ensure_rst (some (pwe_t.spi { dshot600_spi_handle with trst := 999 })) =
      some (ESP_OK, [hw_call.esp_rom_delay_us 1]) :=
  ⟨(ensure_rst_calls 80000000 PWE_DSHOT600_CONFIG { channel := 0, clk_div := 4 } none 16
      (some { total_bits := 0, items := fun _ => ⟨0, 0, 0, 0⟩ }) true).1
      dshot600_rmt_handle (by decide!),
   (ensure_rst_calls 80000000 (dshot600_config_with_trst 999) { channel := 0, clk_div := 4 }
      (some { gpio := 0, spi_bus := 1 }) 16 none true).2.1
      { dshot600_spi_handle with trst := 999 } (by decide!)⟩

/-- C8 (failing input). `pwe_new_spi_backend` accepts the timing whose four durations are
1 ns with tolerance 40 ns and returns, for capacity 16, a handle with the slot counts
0, 0, 0, 0 and a buffer of 0 bytes.  This handle meets every condition of the statement:
each symbol occupies at most 8 slots and the handle is laid out by the constructor.  The
announced output length, the sum of the slot counts, is 0 for every input.  The conversion
returns no length at all for any `len` from 1 to the capacity: the first symbol stores a
byte at index 0 of the empty buffer, which is a store outside the allocation. -/
theorem pwe_io_spi_convert_buffer_length_zero_slots :
    (∀ spi_conf : pwe_io_spi_config_t,
      pwe_new_spi_backend (some one_ns_config) (some spi_conf) 16 true =
        some (ESP_OK, some one_ns_spi_handle)) ∧
    one_ns_spi_handle.t1h + one_ns_spi_handle.t1l ≤ 8 ∧
    one_ns_spi_handle.t0h + one_ns_spi_handle.t0l ≤ 8 ∧
    spi_handle_allocated one_ns_spi_handle ∧
    (∀ (data : List Nat) (len : Nat), spi_slot_sum one_ns_spi_handle data len = 0) ∧
    (∀ (data : List Nat) (len outgoing_buffer_len : Nat), 1 ≤ len →
      len ≤ one_ns_spi_handle.max_payload_length → len ≤ 8 * data.length →
      pwe_io_spi_convert_buffer one_ns_spi_handle data len outgoing_buffer_len = none) := by
  refine ⟨fun spi_conf => ?_, by decide, by decide, by decide, ?_, ?_⟩
  · exact ((pwe_new_spi_backend_eq one_ns_config spi_conf 16 40 (by decide!)).2
      (by decide)).trans (by decide)
  · intro data len
    induction len with
    | zero => rfl
    | succ n ih =>
      show spi_slot_sum one_ns_spi_handle data n +
        spi_slots one_ns_spi_handle (src_bit data n) = 0
      rw [ih]
      cases src_bit data n <;> rfl
  · intro data len out hlen hcap hdata
    obtain ⟨n, rfl⟩ : ∃ n, len = n + 1 := ⟨len - 1, by omega⟩
    have hrd : rd data 0 = some (data.getD 0 0) := rd_eq_getD (by omega)
    have hstep : pwe_io_spi_convert_step one_ns_spi_handle data
        { buffer := [], bits_src_proceeded := 0, overflow_byte := 0x00,
          bit_offset_dest := 0, byte_offset_dest := 0 } = none := by
      unfold pwe_io_spi_convert_step
      show (rd data 0).bind _ = none
      rw [hrd]
      rfl
    unfold pwe_io_spi_convert_buffer
    rw [if_pos (by exact hcap)]
    show (pwe_io_spi_convert_loop one_ns_spi_handle data (n + 1) (n + 1)
        { buffer := [], bits_src_proceeded := 0, overflow_byte := 0x00,
          bit_offset_dest := 0, byte_offset_dest := 0 }).bind _ = none
    rw [pwe_io_spi_convert_loop, if_pos (by show 0 < n + 1; omega), hstep]
    rfl

/-- C18 (failing input).  `dshot_new_pwe_spi` with the timing of four durations of 1 ns and
tolerances of 40 ns succeeds when the bus calls do: the session holds a Clocked-Shift
handle of capacity 16 whose slot counts are all 0 and whose buffer has no byte.  On this
session `dshot_update` is undefined for every thrust up to 2000 and either telemetry flag:
the conversion of the packet reads and writes `buffer[0]` of the empty buffer. -/
theorem dshot_update_zero_slot_session :
    (∀ (spi_conf : pwe_io_spi_config_t) (io_buffer_len : Nat),
      dshot_new_pwe_spi (fun _ => ESP_OK) (some one_ns_config) (some spi_conf) true true
          (some io_buffer_len) =
        some (ESP_OK,
              some { pwe := some (pwe_t.spi one_ns_spi_handle), io_buffer_len := io_buffer_len },
              [hw_call.spi_bus_initialize 2, hw_call.spi_bus_add_device 25000000])) ∧
    one_ns_spi_handle.max_payload_length = 16 ∧
    one_ns_spi_handle.buffer = [] ∧
    (∀ (io_buffer_len thrust : Nat) (request_telemetry : Bool), thrust ≤ 2000 →
      dshot_update
          (some { pwe := some (pwe_t.spi one_ns_spi_handle), io_buffer_len := io_buffer_len })
          thrust request_telemetry = none) := by
  refine ⟨fun spi_conf n => ?_, rfl, rfl, fun n thrust tel ht => ?_⟩
  · have hnew : pwe_new_spi_backend (some one_ns_config) (some spi_conf) 16 true =
        some (ESP_OK, some one_ns_spi_handle) :=
      ((pwe_new_spi_backend_eq one_ns_config spi_conf 16 40 (by decide!)).2 (by decide)).trans
        (by decide)
    simp only [dshot_new_pwe_spi, hnew, Option.bind_eq_bind, Option.some_bind]
    rfl
  · have hconv : ∀ data : List Nat, data.length = 2 →
        pwe_io_spi_convert_buffer one_ns_spi_handle data 16 n = none := by
      intro data hd
      match data, hd with
      | [x, y], _ => rfl
    simp only [dshot_update, ht, if_true, pwe_io_convert_buffer, pwe_t.convert_buffer,
      pwe_t.max_payload_length, one_ns_spi_handle, Nat.le_refl]
    have := hconv (u16_bytes (dshot_out_buffer (dshot_packet thrust tel))) rfl
    simp only [one_ns_spi_handle] at this
    simp [this]

/-! ## DShot presets -/

/-- C29. The preset `PWE_DSHOT600_CONFIG` is T1H = 1250, T1L = 416, T0H = 625,
T0L = 1041, all four tolerances 200 and TRST = 3333, in nanoseconds. -/
theorem PWE_DSHOT600_CONFIG_values :
    PWE_DSHOT600_CONFIG =
      { T1H := 1250, T1L := 416, T0H := 625, T0L := 1041,
        T1H_ACC := 200, T1L_ACC := 200, T0H_ACC := 200, T0L_ACC := 200, TRST := 3333 } ∧
    PWE_DSHOT600_CONFIG.T1H = 1250 ∧ PWE_DSHOT600_CONFIG.T1L = 416 ∧
    PWE_DSHOT600_CONFIG.T0H = 625 ∧ PWE_DSHOT600_CONFIG.T0L = 1041 ∧
    PWE_DSHOT600_CONFIG.T1H_ACC = 200 ∧ PWE_DSHOT600_CONFIG.T1L_ACC = 200 ∧
    PWE_DSHOT600_CONFIG.T0H_ACC = 200 ∧ PWE_DSHOT600_CONFIG.T0L_ACC = 200 ∧
    PWE_DSHOT600_CONFIG.TRST = 3333 :=
  ⟨rfl, rfl, rfl, rfl, rfl, rfl, rfl, rfl, rfl, rfl⟩

/-! ## Stopping a session -/

/-- C22. On a session whose timer was created, `dshot_stop` makes one call,
`esp_timer_stop` on the timer of the session, and returns its result; the session comes
back as it was: same encoder with the same staged frame, same stored length, same timer
handle.  It neither takes the lock nor converts nor transmits. -/
theorem dshot_stop_keeps_session (hw : hw_env) (s : dshot_s) (timer : Nat)
    (ht : s.periodic_timer = some timer) :
    dshot_stop hw (some s) =
      some (hw (hw_call.esp_timer_stop timer), some s,
            [dshot_event.call (hw_call.esp_timer_stop timer)]) ∧
    (∀ err s2 events, dshot_stop hw (some s) = some (err, some s2, events) →
      s2.pwe = s.pwe ∧ s2.io_buffer_len = s.io_buffer_len ∧
      s2.periodic_timer = s.periodic_timer ∧
      (∀ e ∈ events, e.accesses_frame = false ∧
        e ≠ dshot_event.call hw_call.spinlock_acquire)) := by
  have h : dshot_stop hw (some s) =
      some (hw (hw_call.esp_timer_stop timer), some s,
            [dshot_event.call (hw_call.esp_timer_stop timer)]) := by
    simp only [dshot_stop, ht]
  refine ⟨h, ?_⟩
  intro err s2 events h2
  rw [h] at h2
  simp only [Option.some.injEq, Prod.mk.injEq] at h2
  obtain ⟨-, hs, hev⟩ := h2
  subst hs hev
  refine ⟨rfl, rfl, rfl, ?_⟩
  intro e he
  simp only [List.mem_singleton] at he
  subst he
  exact ⟨rfl, by simp⟩

theorem dshot_stop_keeps_session_witness :
    dshot_stop (fun _ => ESP_OK) (some dshot600_rmt_session) =
      some (ESP_OK, some dshot600_rmt_session, [dshot_event.call (hw_call.esp_timer_stop 1)]) :=
  (dshot_stop_keeps_session (fun _ => ESP_OK) dshot600_rmt_session 1 rfl).1

/-! ## Errors of the transmit primitives -/

/-- C25 (failing input).  In an environment in which every call into the SDK fails,
the streaming send of the Buffered-Waveform backend calls `rmt_write_sample`, which
reports `ESP_FAIL`, and returns `ESP_OK`, and so does `pwe_send` on a handle of capacity
0.  The buffered write of the same backend hands the error of `rmt_write_items` on, and so
does `pwe_send` on a handle with a capacity. -/
theorem pwe_io_rmt_on_the_fly_send_drops_error :
    pwe_io_rmt_on_the_fly_send ws2812_rmt_handle [0xC0] 2 =
      (ESP_OK, { ws2812_rmt_handle with _total_bits_to_send := 2 },
       [hw_call.rmt_write_sample 0 [0xC0] 1]) ∧
    (fun _ => ESP_FAIL : hw_env) (hw_call.rmt_write_sample 0 [0xC0] 1) = ESP_FAIL ∧
    pwe_send (fun _ => ESP_FAIL) (some (pwe_t.rmt ws2812_rmt_handle)) [0xC0] 2 =
      some (ESP_OK, some (pwe_t.rmt { ws2812_rmt_handle with _total_bits_to_send := 2 }),
            [hw_call.rmt_write_sample 0 [0xC0] 1]) ∧
    (∀ (hw : hw_env) (h : pwe_io_rmt_handle_t) (data : List Nat) (len : Nat),
      (pwe_io_rmt_on_the_fly_send h data len).1 = ESP_OK ∧
      (h.max_payload_length = 0 →
        pwe_send hw (some (pwe_t.rmt h)) data len =
          some (ESP_OK, some (pwe_t.rmt { h with _total_bits_to_send := len }),
                [hw_call.rmt_write_sample h.rmt_conf.channel data (UINTCEILDIV len 8)]))) ∧
    (∀ (hw : hw_env) (h : pwe_io_rmt_handle_t) (len : Nat),
      pwe_io_write hw (some (pwe_t.rmt h)) len =
        (hw (hw_call.rmt_write_items h.rmt_conf.channel h.buffer len),
         [hw_call.rmt_write_items h.rmt_conf.channel h.buffer len])) ∧
    (∀ (hw : hw_env) (h : pwe_io_spi_handle_t) (len : Nat),
      pwe_io_write hw (some (pwe_t.spi h)) len =
        (hw (hw_call.spi_device_transmit len h.buffer),
         [hw_call.spi_device_transmit len h.buffer])) ∧
    (∃ p calls, pwe_send (fun _ => ESP_FAIL) (some (pwe_t.rmt dshot600_rmt_handle)) [0, 0] 16 =
      some (ESP_FAIL, p, calls)) := by
  refine ⟨rfl, rfl, rfl, ?_, ?_, ?_, ⟨_, _, rfl⟩⟩
  · intro hw h data len
    refine ⟨rfl, fun h0 => ?_⟩
    unfold pwe_send
    simp only [pwe_t.max_payload_length, pwe_t.on_the_fly_send]
    rw [if_pos h0]
    rfl
  · intro hw h len
    simp only [pwe_io_write, pwe_t.write, pwe_io_rmt_write, hw_chain]
    split_ifs <;> simp_all
  · intro hw h len
    simp only [pwe_io_write, pwe_t.write, pwe_io_spi_write, hw_chain]
    split_ifs <;> simp_all

/-! ## Creation of a session when the allocation fails -/

/-- C26 (failing input).  With the DShot600 preset, a non-NULL output pointer and a
`malloc` of the session record that fails, the test of line 39 (line 74 for the
Clocked-Shift variant), which looks at `hdl` and not at the fresh `dshot_handle`, passes,
and the next line stores through the NULL `dshot_handle`: both creation functions are
undefined.  With a NULL output pointer the same line does return `ESP_ERR_NO_MEM`, stores
nothing and deletes the backend. -/
theorem dshot_new_malloc_failure_undetected :
    dshot_new_pwe_rmt 80000000 (fun _ => ESP_OK) (some PWE_DSHOT600_CONFIG)
        (some { channel := 0, clk_div := 80 }) true
        (some { total_bits := 0, items := fun _ => ⟨0, 0, 0, 0⟩ }) none = none ∧
    dshot_new_pwe_spi (fun _ => ESP_OK) (some PWE_DSHOT600_CONFIG)
        (some { gpio := 0, spi_bus := 1 }) true true none = none ∧
    dshot_new_pwe_rmt 80000000 (fun _ => ESP_OK) (some PWE_DSHOT600_CONFIG)
        (some { channel := 0, clk_div := 80 }) false
        (some { total_bits := 0, items := fun _ => ⟨0, 0, 0, 0⟩ }) (some 0) =
      some (ESP_ERR_NO_MEM, none, [hw_call.free_pwe]) ∧
    dshot_new_pwe_spi (fun _ => ESP_OK) (some PWE_DSHOT600_CONFIG)
        (some { gpio := 0, spi_bus := 1 }) false true (some 0) =
      some (ESP_ERR_NO_MEM, none, [hw_call.free_pwe]) := by
  refine ⟨by decide!, by decide!, by decide!, by decide!⟩

/-! ## The lock and the transmit -/

/-- C28 (as stated, refuted).  On a DShot600 session with the Buffered-Waveform backend
the periodic resend step takes the lock, calls `pwe_io_write`, which hands the 16
descriptors to `rmt_write_items` and waits, and only then releases the lock. -/
theorem periodic_timer_callback_transmits_locked :
    periodic_timer_callback (fun _ => ESP_OK) (some dshot600_rmt_session) =
      some [dshot_event.call hw_call.spinlock_acquire,
            dshot_event.io_write 16 [hw_call.rmt_write_items 0 dshot600_rmt_handle.buffer 16],
            dshot_event.call hw_call.spinlock_release] ∧
    transmits_while_locked false
      [dshot_event.call hw_call.spinlock_acquire,
       dshot_event.io_write 16 [hw_call.rmt_write_items 0 dshot600_rmt_handle.buffer 16],
       dshot_event.call hw_call.spinlock_release] = true := by
  refine ⟨by decide, by decide⟩

/-- C28 (amended).  `dshot_update` makes no `pwe_io_write` call at all: between acquiring
and releasing the session lock it only converts.  The periodic resend step makes exactly
one `pwe_io_write` call, with the stored length, and makes it between acquiring and
releasing the session lock: there the lock is held across the transmit. -/
theorem dshot_lock_and_transmit (hw : hw_env) (hdl : dshot_handle_t) (s : dshot_s)
    (thrust : Nat) :
    transmits_while_locked false (dshot_update_events hdl thrust) = false ∧
    (∀ len calls, dshot_event.io_write len calls ∉ dshot_update_events hdl thrust) ∧
    periodic_timer_callback hw (some s) =
      some [dshot_event.call hw_call.spinlock_acquire,
            dshot_event.io_write s.io_buffer_len (pwe_io_write hw s.pwe s.io_buffer_len).2,
            dshot_event.call hw_call.spinlock_release] ∧
    (∀ events, periodic_timer_callback hw (some s) = some events →
      transmits_while_locked false events = true) := by
  refine ⟨?_, ?_, rfl, ?_⟩
  · cases hdl with
    | none => rfl
    | some s0 =>
      simp only [dshot_update_events]
      split_ifs <;> rfl
  · intro len calls
    cases hdl with
    | none => simp [dshot_update_events]
    | some s0 =>
      simp only [dshot_update_events]
      split_ifs <;> simp
  · intro events hev
    simp only [periodic_timer_callback, Option.some.injEq] at hev
    subst hev
    rfl

/-! ## The rule of the period search for replacing the current factor -/

/-- One pass of the loop of `find_suitable_factor` that does not leave it. -/
theorem find_suitable_factor_loop_step (a b c d range max_val x : Nat) (st st2 : factor_state)
    (hb : find_suitable_factor_body a b c d range max_val (x + 2) st = some (st2, false)) :
    find_suitable_factor_loop a b c d range max_val (x + 2) st =
      find_suitable_factor_loop a b c d range max_val (x + 1) st2 := by
  rw [find_suitable_factor_loop, hb]
  rfl

/-- The loop of `find_suitable_factor` started at `n + k` makes the `k` passes for the
candidates above `n` and, when none of them leaves the loop, goes on from `n`. -/
theorem find_suitable_factor_loop_passes (a b c d range max_val n : Nat) (hn : 1 ≤ n) :
    ∀ (k : Nat) (st st2 : factor_state),
      find_suitable_factor_passes a b c d range max_val n k st = some (st2, false) →
      find_suitable_factor_loop a b c d range max_val (n + k) st =
        find_suitable_factor_loop a b c d range max_val n st2 := by
  intro k
  induction k with
  | zero =>
    intro st st2 h
    simp only [find_suitable_factor_passes, Option.some.injEq, Prod.mk.injEq, and_true] at h
    subst h
    rfl
  | succ k ih =>
    intro st st2 h
    obtain ⟨m, rfl⟩ : ∃ m, n = m + 1 := ⟨n - 1, by omega⟩
    rw [find_suitable_factor_passes] at h
    simp only [Option.bind_eq_bind, Option.bind_eq_some] at h
    obtain ⟨⟨st1, left⟩, hb, h⟩ := h
    cases left with
    | true => simp at h
    | false =>
      simp only [Bool.false_eq_true, if_false] at h
      have e : m + 1 + k + 1 = (m + k) + 2 := by omega
      rw [e] at hb
      have s := find_suitable_factor_loop_step a b c d range max_val (m + k) st st1 hb
      have e2 : m + 1 + (k + 1) = (m + k) + 2 := by omega
      have e3 : m + k + 1 = m + 1 + k := by omega
      rw [e2, s, e3]
      exact ih st1 st2 h

/-- C30 (failing input).  The search on the DShot600 durations with tolerance 200 starts
at the candidate 1449 with error bound 201 and multiple 0.  After the passes for the
candidates 1449 down to 383 the current factor is 556 with error 140 and multiple 2.  The
candidate 382 is acceptable with error 139 and the greater multiple 3; its error is not
below half of 140, and yet the pass for 382 makes it the current factor.  The search ends
with 333. -/
theorem find_suitable_factor_replaces_without_halving :
    find_suitable_factor_passes 1250 416 625 1041 200 1250 382 1067
        { current_factor := 0, current_error := 201, current_multiple := 0 } =
      some ({ current_factor := 556, current_error := 140, current_multiple := 2 }, false) ∧
    find_suitable_factor_body 1250 416 625 1041 200 1250 382
        { current_factor := 556, current_error := 140, current_multiple := 2 } =
      some ({ current_factor := 382, current_error := 139, current_multiple := 3 }, false) ∧
    2 < 3 ∧ ¬ (139 < 140 / 2) ∧
    find_suitable_factor_loop 1250 416 625 1041 200 1250 1449
        { current_factor := 0, current_error := 201, current_multiple := 0 } =
      find_suitable_factor_loop 1250 416 625 1041 200 1250 381
        { current_factor := 382, current_error := 139, current_multiple := 3 } ∧
    find_suitable_factor 1250 416 625 1041 200 = some 333 := by
  have h1 : find_suitable_factor_passes 1250 416 625 1041 200 1250 382 1067
        { current_factor := 0, current_error := 201, current_multiple := 0 } =
      some ({ current_factor := 556, current_error := 140, current_multiple := 2 }, false) := by
    decide!
  have h2 : find_suitable_factor_body 1250 416 625 1041 200 1250 382
        { current_factor := 556, current_error := 140, current_multiple := 2 } =
      some ({ current_factor := 382, current_error := 139, current_multiple := 3 }, false) := by
    decide!
  refine ⟨h1, h2, by decide, by decide, ?_, by decide!⟩
  have e1 : find_suitable_factor_loop 1250 416 625 1041 200 1250 1449
        { current_factor := 0, current_error := 201, current_multiple := 0 } =
      find_suitable_factor_loop 1250 416 625 1041 200 1250 382
        { current_factor := 556, current_error := 140, current_multiple := 2 } :=
    find_suitable_factor_loop_passes 1250 416 625 1041 200 1250 382 (by decide) 1067 _ _ h1
  have e2 : find_suitable_factor_loop 1250 416 625 1041 200 1250 382
        { current_factor := 556, current_error := 140, current_multiple := 2 } =
      find_suitable_factor_loop 1250 416 625 1041 200 1250 381
        { current_factor := 382, current_error := 139, current_multiple := 3 } :=
    find_suitable_factor_loop_step 1250 416 625 1041 200 1250 380 _ _ h2
  exact e1.trans e2

/-! ## Pixel strip -/

theorem wr_eq_set {a : List Nat} {i v : Nat} (h : i < a.length) : wr a i v = some (a.set i v) := by
  unfold wr
  rw [if_pos h]

/-- The three stores of `led_strip_pwe_set_pixel` on a strip whose cache holds three bytes
for each of its fewer than `2 ^ 16` pixels. -/
theorem led_strip_pwe_set_pixel_run (ws2812 : ws2812_t) (index red green blue : Nat)
    (hcount : ws2812.strip_len < 2 ^ 16) (hcache : 3 * ws2812.strip_len ≤ ws2812.buffer.length)
    (hindex : index < ws2812.strip_len) :
    led_strip_pwe_set_pixel (some ws2812) index red green blue =
      some (ESP_OK, some { ws2812 with
        buffer := List.set (List.set (List.set ws2812.buffer (3 * index) (green &&& 0xFF))
          (3 * index + 1) (red &&& 0xFF)) (3 * index + 2) (blue &&& 0xFF) }) := by
  have hb : ∀ x : Nat, (x &&& 0xFF) % 2 ^ 8 = x &&& 0xFF := fun x =>
    Nat.mod_eq_of_lt (Nat.lt_of_le_of_lt Nat.and_le_right (by norm_num))
  have hs : u32_mul index 3 = 3 * index := by
    unfold u32_mul
    rw [Nat.mod_eq_of_lt (by omega)]
    omega
  have h0 : (3 * index + 0) % 2 ^ 32 = 3 * index := Nat.mod_eq_of_lt (by omega)
  have h1 : (3 * index + 1) % 2 ^ 32 = 3 * index + 1 := Nat.mod_eq_of_lt (by omega)
  have h2 : (3 * index + 2) % 2 ^ 32 = 3 * index + 2 := Nat.mod_eq_of_lt (by omega)
  unfold led_strip_pwe_set_pixel
  simp only [hindex, if_true, hs, h0, h1, h2, hb, Option.bind_eq_bind]
  rw [wr_eq_set (by omega)]
  simp only [Option.some_bind]
  rw [wr_eq_set (by simp; omega)]
  simp only [Option.some_bind]
  rw [wr_eq_set (by simp; omega)]
  simp only [Option.some_bind]

/-- C23. On a strip of `count` pixels (`count` a `uint16_t`, the cache holding three bytes
per pixel), `led_strip_pwe_set_pixel` with `index < count` returns `ESP_OK`, sets the cache
bytes `3 * index`, `3 * index + 1`, `3 * index + 2` to `green & 0xFF`, `red & 0xFF`,
`blue & 0xFF` and leaves every other cache byte and the rest of the strip unchanged; with
`index >= count` it returns `ESP_ERR_INVALID_ARG` and the strip is unchanged. -/
theorem led_strip_pwe_set_pixel_spec (ws2812 : ws2812_t) (index red green blue : Nat)
    (hcount : ws2812.strip_len < 2 ^ 16)
    (hcache : 3 * ws2812.strip_len ≤ ws2812.buffer.length) :
    (index < ws2812.strip_len →
      ∃ buffer2, led_strip_pwe_set_pixel (some ws2812) index red green blue =
          some (ESP_OK, some { ws2812 with buffer := buffer2 }) ∧
        buffer2.length = ws2812.buffer.length ∧
        buffer2[3 * index]? = some (green &&& 0xFF) ∧
        buffer2[3 * index + 1]? = some (red &&& 0xFF) ∧
        buffer2[3 * index + 2]? = some (blue &&& 0xFF) ∧
        (∀ j, j ≠ 3 * index → j ≠ 3 * index + 1 → j ≠ 3 * index + 2 →
          buffer2[j]? = ws2812.buffer[j]?)) ∧
    (ws2812.strip_len ≤ index →
      led_strip_pwe_set_pixel (some ws2812) index red green blue =
        some (ESP_ERR_INVALID_ARG, some ws2812)) := by
  refine ⟨fun hindex => ?_, fun hindex => ?_⟩
  · refine ⟨_, led_strip_pwe_set_pixel_run ws2812 index red green blue hcount hcache hindex,
      by simp, ?_, ?_, ?_, ?_⟩
    · rw [List.getElem?_set_ne (by omega), List.getElem?_set_ne (by omega),
        List.getElem?_set_self (by omega)]
    · rw [List.getElem?_set_ne (by omega), List.getElem?_set_self (by simp; omega)]
    · rw [List.getElem?_set_self (by simp; omega)]
    · intro j j0 j1 j2
      rw [List.getElem?_set_ne (Ne.symm j2), List.getElem?_set_ne (Ne.symm j1),
        List.getElem?_set_ne (Ne.symm j0)]
  · have hn : ¬ index < ws2812.strip_len := by omega
    simp only [led_strip_pwe_set_pixel, hn, if_false]

theorem led_strip_pwe_set_pixel_spec_witness :
    (∃ buffer2, led_strip_pwe_set_pixel (some two_pixel_strip) 1 0x101 0x202 0x303 =
        some (ESP_OK, some { two_pixel_strip with buffer := buffer2 }) ∧
      buffer2[3]? = some 2 ∧ buffer2[4]? = some 1 ∧ buffer2[5]? = some 3 ∧
      buffer2[0]? = some 0) ∧
    led_strip_pwe_set_pixel (some two_pixel_strip) 2 1 2 3 =
      some (ESP_ERR_INVALID_ARG, some two_pixel_strip) := by
  have w := led_strip_pwe_set_pixel_spec two_pixel_strip 1 0x101 0x202 0x303
    (by decide) (by decide)
  have z := led_strip_pwe_set_pixel_spec two_pixel_strip 2 1 2 3 (by decide) (by decide)
  obtain ⟨b2, hrun, _, hg, hr, hb, hrest⟩ := w.1 (by decide)
  exact ⟨⟨b2, hrun, hg, hr, hb, (hrest 0 (by decide) (by decide) (by decide)).trans rfl⟩,
    z.2 (by decide)⟩

theorem led_strip_bit_count (n : Nat) (hn : n < 2 ^ 16) :
    u32_mul (u32_mul n 3) 8 = n * 24 ∧ u32_mul n 3 = 3 * n := by
  unfold u32_mul
  rw [Nat.mod_eq_of_lt (show n * 3 < 2 ^ 32 by omega), Nat.mod_eq_of_lt (by omega)]
  omega

/-- `led_strip_pwe_refresh` in terms of `pwe_send`. -/
theorem led_strip_pwe_refresh_eq (hw : hw_env) (ws2812 : ws2812_t) (timeout_ms : Nat)
    (hcount : ws2812.strip_len < 2 ^ 16) :
    led_strip_pwe_refresh hw (some ws2812) timeout_ms =
      (pwe_send hw ws2812.pwe_handle ws2812.buffer (ws2812.strip_len * 24)).map fun r =>
        (r.1, some { ws2812 with pwe_handle := r.2.1 }, r.2.2) := by
  simp only [led_strip_pwe_refresh, (led_strip_bit_count _ hcount).1]
  cases pwe_send hw ws2812.pwe_handle ws2812.buffer (ws2812.strip_len * 24) <;> rfl

/-- `led_strip_pwe_clear` in terms of `pwe_send`. -/
theorem led_strip_pwe_clear_eq (hw : hw_env) (ws2812 : ws2812_t) (timeout_ms : Nat)
    (hcount : ws2812.strip_len < 2 ^ 16)
    (hcache : 3 * ws2812.strip_len ≤ ws2812.buffer.length) :
    led_strip_pwe_clear hw (some ws2812) timeout_ms =
      (pwe_send hw ws2812.pwe_handle
        (List.replicate (3 * ws2812.strip_len) 0 ++ ws2812.buffer.drop (3 * ws2812.strip_len))
        (ws2812.strip_len * 24)).map fun r =>
        (r.1, some { ws2812 with
          buffer := List.replicate (3 * ws2812.strip_len) 0 ++
            ws2812.buffer.drop (3 * ws2812.strip_len),
          pwe_handle := r.2.1 }, r.2.2) := by
  simp only [led_strip_pwe_clear, memset_zero, (led_strip_bit_count _ hcount).2, if_pos hcache,
    Option.bind_eq_bind, Option.some_bind]
  exact led_strip_pwe_refresh_eq hw _ timeout_ms hcount

theorem src_bit_of_byte (data : List Nat) (i v : Nat) (h : data[i / 8]? = some v) :
    src_bit data i = v.testBit (7 - i % 8) := by
  unfold src_bit
  rw [List.getD_eq_getElem?_getD, h]
  rfl

/-- C24. On a strip of `count` pixels (`count` a `uint16_t`, the cache holding three bytes
per pixel), `led_strip_pwe_refresh` passes the cache and the length `count * 24` to
`pwe_send` and returns what it returns; on the streaming Buffered-Waveform backend this is
one `rmt_write_sample` call on the cache with `3 * count` bytes and `count * 24` bits to
send.  For every pixel `index < count` and every colour, `led_strip_pwe_set_pixel`
succeeds and returns a strip of the same length and backend whose cache holds, from bit
`24 * index` on, the bits of `green & 0xFF`, then of `red & 0xFF`, then of `blue & 0xFF`,
each most significant bit first, and whose bits of every other pixel are unchanged; the
refresh of that strip passes this cache, again with the length `count * 24`.
`led_strip_pwe_clear` passes a cache whose `3 * count` bytes are zero with the same
length, so all `count * 24` bits are zero, and leaves this cache in the strip, so a later
refresh passes the zero bytes again. -/
theorem led_strip_pwe_refresh_spec (hw : hw_env) (ws2812 : ws2812_t) (timeout_ms : Nat)
    (hcount : ws2812.strip_len < 2 ^ 16)
    (hcache : 3 * ws2812.strip_len ≤ ws2812.buffer.length) :
    led_strip_pwe_refresh hw (some ws2812) timeout_ms =
      (pwe_send hw ws2812.pwe_handle ws2812.buffer (ws2812.strip_len * 24)).map (fun r =>
        (r.1, some { ws2812 with pwe_handle := r.2.1 }, r.2.2)) ∧
    (∀ h : pwe_io_rmt_handle_t, ws2812.pwe_handle = some (pwe_t.rmt h) →
      h.max_payload_length = 0 →
      led_strip_pwe_refresh hw (some ws2812) timeout_ms =
        some (ESP_OK,
          some { ws2812 with
            pwe_handle := some (pwe_t.rmt
              { h with _total_bits_to_send := ws2812.strip_len * 24 }) },
          [hw_call.rmt_write_sample h.rmt_conf.channel ws2812.buffer
            (3 * ws2812.strip_len)])) ∧
    (∀ (index red green blue : Nat), index < ws2812.strip_len →
      ∃ updated : ws2812_t,
        led_strip_pwe_set_pixel (some ws2812) index red green blue =
          some (ESP_OK, some updated) ∧
        updated.strip_len = ws2812.strip_len ∧ updated.pwe_handle = ws2812.pwe_handle ∧
        updated.buffer.length = ws2812.buffer.length ∧
        led_strip_pwe_refresh hw (some updated) timeout_ms =
          (pwe_send hw updated.pwe_handle updated.buffer (ws2812.strip_len * 24)).map (fun r =>
            (r.1, some { updated with pwe_handle := r.2.1 }, r.2.2)) ∧
        (∀ h : pwe_io_rmt_handle_t, ws2812.pwe_handle = some (pwe_t.rmt h) →
          h.max_payload_length = 0 →
          led_strip_pwe_refresh hw (some updated) timeout_ms =
            some (ESP_OK,
              some { updated with
                pwe_handle := some (pwe_t.rmt
                  { h with _total_bits_to_send := ws2812.strip_len * 24 }) },
              [hw_call.rmt_write_sample h.rmt_conf.channel updated.buffer
                (3 * ws2812.strip_len)])) ∧
        (∀ k, k < 8 →
          src_bit updated.buffer (24 * index + k) = (green &&& 0xFF).testBit (7 - k) ∧
          src_bit updated.buffer (24 * index + 8 + k) = (red &&& 0xFF).testBit (7 - k) ∧
          src_bit updated.buffer (24 * index + 16 + k) = (blue &&& 0xFF).testBit (7 - k)) ∧
        (∀ p, p / 24 ≠ index → src_bit updated.buffer p = src_bit ws2812.buffer p)) ∧
    led_strip_pwe_clear hw (some ws2812) timeout_ms =
      (pwe_send hw ws2812.pwe_handle
        (List.replicate (3 * ws2812.strip_len) 0 ++ ws2812.buffer.drop (3 * ws2812.strip_len))
        (ws2812.strip_len * 24)).map (fun r =>
        (r.1, some { ws2812 with
          buffer := List.replicate (3 * ws2812.strip_len) 0 ++
            ws2812.buffer.drop (3 * ws2812.strip_len),
          pwe_handle := r.2.1 }, r.2.2)) ∧
    (∀ i, i < ws2812.strip_len * 24 →
      src_bit (List.replicate (3 * ws2812.strip_len) 0 ++
        ws2812.buffer.drop (3 * ws2812.strip_len)) i = false) ∧
    (∀ (err : esp_err_t) (cleared : ws2812_t) (calls : List hw_call) (hw2 : hw_env)
        (timeout2 : Nat),
      led_strip_pwe_clear hw (some ws2812) timeout_ms = some (err, some cleared, calls) →
      cleared.buffer = List.replicate (3 * ws2812.strip_len) 0 ++
        ws2812.buffer.drop (3 * ws2812.strip_len) ∧
      led_strip_pwe_refresh hw2 (some cleared) timeout2 =
        (pwe_send hw2 cleared.pwe_handle
          (List.replicate (3 * ws2812.strip_len) 0 ++
            ws2812.buffer.drop (3 * ws2812.strip_len))
          (ws2812.strip_len * 24)).map (fun r =>
          (r.1, some { cleared with pwe_handle := r.2.1 }, r.2.2))) ∧
    (∀ h : pwe_io_rmt_handle_t, ws2812.pwe_handle = some (pwe_t.rmt h) →
      h.max_payload_length = 0 →
      led_strip_pwe_clear hw (some ws2812) timeout_ms =
        some (ESP_OK,
          some { ws2812 with
            buffer := List.replicate (3 * ws2812.strip_len) 0 ++
              ws2812.buffer.drop (3 * ws2812.strip_len),
            pwe_handle := some (pwe_t.rmt
              { h with _total_bits_to_send := ws2812.strip_len * 24 }) },
          [hw_call.rmt_write_sample h.rmt_conf.channel
            (List.replicate (3 * ws2812.strip_len) 0 ++
              ws2812.buffer.drop (3 * ws2812.strip_len))
            (3 * ws2812.strip_len)])) := by
  have hclear := led_strip_pwe_clear_eq hw ws2812 timeout_ms hcount hcache
  have hbytes : UINTCEILDIV (ws2812.strip_len * 24) 8 = 3 * ws2812.strip_len := by
    unfold UINTCEILDIV
    rw [Nat.mod_eq_of_lt (by omega)]
    omega
  have hstream : ∀ (strip : ws2812_t) (h : pwe_io_rmt_handle_t),
      strip.strip_len = ws2812.strip_len → strip.pwe_handle = some (pwe_t.rmt h) →
      h.max_payload_length = 0 →
      (pwe_send hw strip.pwe_handle strip.buffer (ws2812.strip_len * 24)).map (fun r =>
          (r.1, some { strip with pwe_handle := r.2.1 }, r.2.2)) =
        some (ESP_OK,
          some { strip with
            pwe_handle := some (pwe_t.rmt
              { h with _total_bits_to_send := ws2812.strip_len * 24 }) },
          [hw_call.rmt_write_sample h.rmt_conf.channel strip.buffer
            (3 * ws2812.strip_len)]) := by
    intro strip h _ hh h0
    rw [hh]
    unfold pwe_send
    simp only [pwe_t.max_payload_length, pwe_t.on_the_fly_send]
    rw [if_pos h0]
    simp only [pwe_io_rmt_on_the_fly_send, pwe_io_rmt_on_the_fly_send_prepare, hbytes,
      Option.map_some']
  refine ⟨led_strip_pwe_refresh_eq hw ws2812 timeout_ms hcount, ?_, ?_, hclear, ?_, ?_, ?_⟩
  · intro h hh h0
    rw [led_strip_pwe_refresh_eq hw ws2812 timeout_ms hcount]
    exact hstream ws2812 h rfl hh h0
  · intro index red green blue hindex
    have hrun := led_strip_pwe_set_pixel_run ws2812 index red green blue hcount hcache hindex
    refine ⟨_, hrun, rfl, rfl, by simp, led_strip_pwe_refresh_eq hw _ timeout_ms hcount, ?_,
      ?_, ?_⟩
    · intro h hh h0
      exact (led_strip_pwe_refresh_eq hw
        { ws2812 with
          buffer := List.set (List.set (List.set ws2812.buffer (3 * index) (green &&& 0xFF))
            (3 * index + 1) (red &&& 0xFF)) (3 * index + 2) (blue &&& 0xFF) }
        timeout_ms hcount).trans (hstream _ h rfl hh h0)
    · intro k hk
      refine ⟨?_, ?_, ?_⟩
      · rw [src_bit_of_byte _ _ (green &&& 0xFF), show (24 * index + k) % 8 = k by omega]
        rw [show (24 * index + k) / 8 = 3 * index by omega]
        show (List.set (List.set (List.set ws2812.buffer (3 * index) (green &&& 0xFF))
          (3 * index + 1) (red &&& 0xFF)) (3 * index + 2) (blue &&& 0xFF))[3 * index]? = _
        rw [List.getElem?_set_ne (by omega), List.getElem?_set_ne (by omega),
          List.getElem?_set_self (by omega)]
      · rw [src_bit_of_byte _ _ (red &&& 0xFF), show (24 * index + 8 + k) % 8 = k by omega]
        rw [show (24 * index + 8 + k) / 8 = 3 * index + 1 by omega]
        show (List.set (List.set (List.set ws2812.buffer (3 * index) (green &&& 0xFF))
          (3 * index + 1) (red &&& 0xFF)) (3 * index + 2) (blue &&& 0xFF))[3 * index + 1]? = _
        rw [List.getElem?_set_ne (by omega), List.getElem?_set_self (by simp; omega)]
      · rw [src_bit_of_byte _ _ (blue &&& 0xFF), show (24 * index + 16 + k) % 8 = k by omega]
        rw [show (24 * index + 16 + k) / 8 = 3 * index + 2 by omega]
        show (List.set (List.set (List.set ws2812.buffer (3 * index) (green &&& 0xFF))
          (3 * index + 1) (red &&& 0xFF)) (3 * index + 2) (blue &&& 0xFF))[3 * index + 2]? = _
        rw [List.getElem?_set_self (by simp; omega)]
    · intro p hp
      show src_bit (List.set (List.set (List.set ws2812.buffer (3 * index) (green &&& 0xFF))
          (3 * index + 1) (red &&& 0xFF)) (3 * index + 2) (blue &&& 0xFF)) p = _
      unfold src_bit
      rw [List.getD_eq_getElem?_getD, List.getD_eq_getElem?_getD,
        List.getElem?_set_ne (by omega), List.getElem?_set_ne (by omega),
        List.getElem?_set_ne (by omega)]
  · intro i hi
    rw [src_bit_of_byte _ _ 0]
    · exact Nat.zero_testBit _
    · have hi8 : i / 8 < 3 * ws2812.strip_len := by omega
      rw [List.getElem?_append_left (by rw [List.length_replicate]; exact hi8),
        List.getElem?_replicate, if_pos hi8]
  · intro err cleared calls hw2 timeout2 hc
    rw [hclear] at hc
    simp only [Option.map_eq_some'] at hc
    obtain ⟨r, -, hr⟩ := hc
    simp only [Prod.mk.injEq, Option.some.injEq] at hr
    obtain ⟨-, hcl, -⟩ := hr
    subst hcl
    refine ⟨rfl, ?_⟩
    exact led_strip_pwe_refresh_eq hw2 _ timeout2 hcount
  · intro h hh h0
    rw [hclear]
    exact hstream { ws2812 with
      buffer := List.replicate (3 * ws2812.strip_len) 0 ++
        ws2812.buffer.drop (3 * ws2812.strip_len) } h rfl hh h0

theorem led_strip_pwe_refresh_spec_witness :
    (∃ updated : ws2812_t,
      led_strip_pwe_set_pixel (some two_pixel_strip) 1 0x101 0x202 0x303 =
        some (ESP_OK, some updated) ∧
      updated.buffer = [0, 0, 0, 2, 1, 3] ∧
      led_strip_pwe_refresh (fun _ => ESP_OK) (some updated) 100 =
        some (ESP_OK,
          some { updated with
            pwe_handle := some (pwe_t.rmt { ws2812_rmt_handle with _total_bits_to_send := 48 }) },
          [hw_call.rmt_write_sample 0 updated.buffer 6]) ∧
      src_bit updated.buffer (24 + 6) = true ∧ src_bit updated.buffer (24 + 8 + 7) = true ∧
      src_bit updated.buffer (24 + 16 + 6) = true ∧ src_bit updated.buffer (24 + 16 + 5) = false ∧
      src_bit updated.buffer 6 = false) ∧
    led_strip_pwe_clear (fun _ => ESP_OK)
        (some { two_pixel_strip with buffer := [2, 1, 3, 7, 7, 7] }) 100 =
      some (ESP_OK,
        some { two_pixel_strip with
          buffer := [0, 0, 0, 0, 0, 0],
          pwe_handle := some (pwe_t.rmt { ws2812_rmt_handle with _total_bits_to_send := 48 }) },
        [hw_call.rmt_write_sample 0 [0, 0, 0, 0, 0, 0] 6]) := by
  obtain ⟨updated, hset, _, _, _, _, hsend, hbits, hrest⟩ :=
    (led_strip_pwe_refresh_spec (fun _ => ESP_OK) two_pixel_strip 100 (by decide)
      (by decide)).2.2.1 1 0x101 0x202 0x303 (by decide)
  have hbuf : updated.buffer = [0, 0, 0, 2, 1, 3] := by
    have e : led_strip_pwe_set_pixel (some two_pixel_strip) 1 0x101 0x202 0x303 =
        some (ESP_OK, some { two_pixel_strip with buffer := [0, 0, 0, 2, 1, 3] }) := by decide
    rw [e] at hset
    simp only [Option.some.injEq, Prod.mk.injEq, true_and] at hset
    rw [← hset]
  refine ⟨⟨updated, hset, hbuf, hsend ws2812_rmt_handle rfl rfl, ?_, ?_, ?_, ?_, ?_⟩, ?_⟩
  · exact ((hbits 6 (by decide)).1).trans (by decide)
  · exact ((hbits 7 (by decide)).2.1).trans (by decide)
  · exact ((hbits 6 (by decide)).2.2).trans (by decide)
  · exact ((hbits 5 (by decide)).2.2).trans (by decide)
  · exact (hrest 6 (by decide)).trans (by decide)
  · exact (led_strip_pwe_refresh_spec (fun _ => ESP_OK)
      { two_pixel_strip with buffer := [2, 1, 3, 7, 7, 7] } 100 (by decide)
      (by decide)).2.2.2.2.2.2 ws2812_rmt_handle rfl rfl

/-! ## Starting a session -/

/-- The loop of the Clocked-Shift conversion reads the slot counts of the handle, not its
buffer. -/
theorem pwe_io_spi_convert_loop_buffer (h : pwe_io_spi_handle_t) (b : List Nat)
    (data : List Nat) (len : Nat) :
    ∀ (fuel : Nat) (st : spi_state),
      pwe_io_spi_convert_loop { h with buffer := b } data len fuel st =
        pwe_io_spi_convert_loop h data len fuel st := by
  intro fuel
  induction fuel with
  | zero => intro st; rfl
  | succ fuel ih =>
    intro st
    unfold pwe_io_spi_convert_loop
    have hstep : pwe_io_spi_convert_step { h with buffer := b } data st =
        pwe_io_spi_convert_step h data st := rfl
    rw [hstep]
    by_cases hlt : st.bits_src_proceeded < len
    · rw [if_pos hlt, if_pos hlt]
      cases pwe_io_spi_convert_step h data st with
      | none => rfl
      | some st1 => exact ih st1
    · rw [if_neg hlt, if_neg hlt]

/-- The Clocked-Shift conversion on a handle laid out by its constructor, with at least
one slot and at most 8 slots per symbol: it succeeds, and the buffer it leaves and the
length it returns are the same whatever the buffer held before. -/
theorem pwe_io_spi_convert_buffer_run (h : pwe_io_spi_handle_t) (data : List Nat) (len : Nat)
    (hcap : len ≤ h.max_payload_length)
    (h1 : h.t1h + h.t1l ≤ 8) (h0 : h.t0h + h.t0l ≤ 8)
    (hdata : len ≤ 8 * data.length) (halloc : spi_handle_allocated h)
    (hslot : 0 < h.t1h + h.t1l + h.t0h + h.t0l) :
    ∃ frame, ∀ (b : List Nat) (outgoing_buffer_len : Nat), b.length = h.buffer.length →
      pwe_io_spi_convert_buffer { h with buffer := b } data len outgoing_buffer_len =
        some (ESP_OK, { h with buffer := frame }, spi_slot_sum h data len) := by
  obtain ⟨hsize, hwrap, hbuf⟩ := halloc
  have hceil : UINTCEILDIV h.buffer_size 8 = (h.buffer_size + 7) / 8 := by
    unfold UINTCEILDIV
    rw [show h.buffer_size + 8 - 1 = h.buffer_size + 7 by omega, Nat.mod_eq_of_lt hwrap]
  have hL : h.buffer.length < 2 ^ 29 := by rw [hbuf, hceil]; omega
  have hS : 0 < max (h.t0h + h.t0l) (h.t1h + h.t1l) := by
    rcases Nat.le_total (h.t0h + h.t0l) (h.t1h + h.t1l) with hm | hm
    · rw [Nat.max_eq_right hm]; omega
    · rw [Nat.max_eq_left hm]; omega
  have hroom : ∀ k, k < len → spi_slot_sum h data k < 8 * h.buffer.length := by
    intro k hk
    have a := spi_slot_sum_le h data k
    have b : max (h.t0h + h.t0l) (h.t1h + h.t1l) * (k + 1) ≤ h.buffer_size := by
      rw [hsize]; exact Nat.mul_le_mul_left _ (by omega)
    rw [Nat.mul_succ] at b
    rw [hbuf, hceil]
    omega
  have hfin : spi_slot_sum h data len < 2 ^ 32 := by
    have a := spi_slot_sum_le h data len
    have b : max (h.t0h + h.t0l) (h.t1h + h.t1l) * len ≤ h.buffer_size := by
      rw [hsize]; exact Nat.mul_le_mul_left _ hcap
    omega
  obtain ⟨st2, hrun, _, hoff, _, _⟩ :=
    pwe_io_spi_convert_loop_offsets h data len h.buffer.length h1 h0 hdata hL hroom len 0
      { buffer := List.replicate h.buffer.length 0, bits_src_proceeded := 0,
        overflow_byte := 0x00, bit_offset_dest := 0, byte_offset_dest := 0 }
      (Nat.zero_le _) (by omega) rfl rfl (by show 0 < 16; omega) (by simp)
  refine ⟨st2.buffer, ?_⟩
  intro b out hb
  have hmem : memset_zero b (UINTCEILDIV h.buffer_size 8) =
      some (List.replicate h.buffer.length 0) := by
    unfold memset_zero
    rw [← hbuf, ← hb, if_pos (Nat.le_refl _)]
    simp
  have hge : h.max_payload_length ≥ len := hcap
  unfold pwe_io_spi_convert_buffer
  simp only [hge, if_true, hmem, pwe_io_spi_convert_loop_buffer, hrun, Option.bind_eq_bind,
    Option.some_bind, hoff, Nat.mod_eq_of_lt hfin]

theorem spi_slot_sum_zero_bytes (h : pwe_io_spi_handle_t) :
    spi_slot_sum h [0, 0] 16 = 16 * (h.t0h + h.t0l) := by
  have hb : ∀ i, src_bit [0, 0] i = false := by
    intro i
    unfold src_bit
    have : ([0, 0] : List Nat).getD (i / 8) 0 = 0 := by
      rcases Nat.lt_or_ge (i / 8) 2 with hlt | hge
      · interval_cases (i / 8) <;> rfl
      · rw [List.getD_eq_default _ _ (by simpa using hge)]
    rw [this]
    exact Nat.zero_testBit _
  simp only [spi_slot_sum, spi_slots, hb, Bool.false_eq_true, if_false]
  omega

/-- The disarm packet and its bytes. -/
theorem dshot_disarm_packet :
    dshot_value 0 = 0 ∧ dshot_checksum (dshot_packet_nocsum 0 false) = 0 ∧
    dshot_packet 0 false = 0 ∧ u16_bytes (dshot_out_buffer (dshot_packet 0 false)) = [0, 0] := by
  decide

/-- The Buffered-Waveform conversion of the two zero bytes on a handle of capacity 16. -/
theorem pwe_io_rmt_convert_zero_bytes (h : pwe_io_rmt_handle_t)
    (hcap : h.max_payload_length = 16) (halloc : h.buffer.length = 16)
    (outgoing_buffer_len : Nat) :
    pwe_io_rmt_convert_buffer h [0, 0] 16 outgoing_buffer_len =
      some (ESP_OK, { h with buffer := List.replicate 16 (rmt_bit0 h) }, 16) := by
  obtain ⟨b2, hrun, hlen, hmid, _⟩ :=
    pwe_io_rmt_convert_buffer_run h [0, 0] 16 outgoing_buffer_len (by omega) (by omega)
      (by simp)
  have hb2 : b2 = List.replicate 16 (rmt_bit0 h) := by
    apply List.ext_getElem?
    intro i
    rcases Nat.lt_or_ge i 16 with hi | hi
    · rw [hmid i hi, List.getElem?_replicate, if_pos hi]
      have : ([0, 0] : List Nat).getD (i / 8) 0 = 0 := by
        have : i / 8 < 2 := by omega
        interval_cases (i / 8) <;> rfl
      rw [this, Nat.zero_testBit]
      rfl
    · rw [List.getElem?_eq_none (by omega), List.getElem?_eq_none (by simp; omega)]
  rw [hrun, hb2]

/-- `dshot_update` with thrust 0 and no telemetry on a Buffered-Waveform session of
capacity 16. -/
theorem dshot_update_disarm_rmt (s : dshot_s) (h : pwe_io_rmt_handle_t)
    (hs : s.pwe = some (pwe_t.rmt h)) (hcap : h.max_payload_length = 16)
    (halloc : h.buffer.length = 16) :
    dshot_update (some s) 0 false =
      some (ESP_OK, some { s with
        pwe := some (pwe_t.rmt { h with buffer := List.replicate 16 (rmt_bit0 h) }),
        io_buffer_len := 16 }) := by
  have hrun := pwe_io_rmt_convert_zero_bytes h hcap halloc s.io_buffer_len
  unfold dshot_update
  simp only [Nat.zero_le, if_true, dshot_disarm_packet.2.2.2, hs, pwe_io_convert_buffer,
    pwe_t.convert_buffer, pwe_t.max_payload_length, hcap, Nat.le_refl, hrun, Option.map_some',
    Option.bind_eq_bind, Option.some_bind]

/-- `dshot_update` with thrust 0 and no telemetry on a Clocked-Shift session of capacity
16 whose handle is laid out by its constructor and has between 1 and 8 slots per symbol. -/
theorem dshot_update_disarm_spi (s : dshot_s) (h : pwe_io_spi_handle_t)
    (hs : s.pwe = some (pwe_t.spi h)) (hcap : h.max_payload_length = 16)
    (h1 : h.t1h + h.t1l ≤ 8) (h0 : h.t0h + h.t0l ≤ 8) (halloc : spi_handle_allocated h)
    (hslot : 0 < h.t1h + h.t1l + h.t0h + h.t0l) :
    ∃ frame,
      (∀ (b : List Nat) (outgoing_buffer_len : Nat), b.length = h.buffer.length →
        pwe_io_spi_convert_buffer { h with buffer := b } [0, 0] 16 outgoing_buffer_len =
          some (ESP_OK, { h with buffer := frame }, 16 * (h.t0h + h.t0l))) ∧
      dshot_update (some s) 0 false =
        some (ESP_OK, some { s with
          pwe := some (pwe_t.spi { h with buffer := frame }),
          io_buffer_len := 16 * (h.t0h + h.t0l) }) := by
  obtain ⟨frame, hframe⟩ :=
    pwe_io_spi_convert_buffer_run h [0, 0] 16 (by omega) h1 h0 (by simp) halloc hslot
  rw [spi_slot_sum_zero_bytes] at hframe
  refine ⟨frame, hframe, ?_⟩
  have hrun := hframe h.buffer s.io_buffer_len rfl
  have hh : ({ h with buffer := h.buffer } : pwe_io_spi_handle_t) = h := rfl
  rw [hh] at hrun
  unfold dshot_update
  simp only [Nat.zero_le, if_true, dshot_disarm_packet.2.2.2, hs, pwe_io_convert_buffer,
    pwe_t.convert_buffer, pwe_t.max_payload_length, hcap, Nat.le_refl, hrun, Option.map_some',
    Option.bind_eq_bind, Option.some_bind]

/-- `dshot_start` once its update has succeeded. -/
theorem dshot_start_after_update (hw : hw_env) (s updated : dshot_s) (interval_us timer : Nat)
    (hupd : dshot_update (some s) 0 false = some (ESP_OK, some updated)) :
    dshot_start hw (some s) interval_us timer =
      some (if hw hw_call.esp_timer_create ≠ ESP_OK then hw hw_call.esp_timer_create
            else hw (hw_call.esp_timer_start_periodic timer interval_us),
            some (if hw hw_call.esp_timer_create ≠ ESP_OK then updated
                  else { updated with periodic_timer := some timer }),
            [dshot_event.call hw_call.spinlock_acquire, dshot_event.convert_buffer,
             dshot_event.call hw_call.spinlock_release,
             dshot_event.call hw_call.esp_timer_create] ++
            if hw hw_call.esp_timer_create ≠ ESP_OK then []
            else [dshot_event.call (hw_call.esp_timer_start_periodic timer interval_us)]) := by
  unfold dshot_start
  simp only [hupd, Option.bind_eq_bind, Option.some_bind, dshot_update_events, Nat.zero_le,
    if_true, ne_eq, not_true_eq_false, if_false]
  by_cases hc : hw hw_call.esp_timer_create = ESP_OK
  · simp [hc]
  · simp [hc]

/-- C21. The packet for thrust 0 without telemetry is the all-zero packet
(value 0, checksum 0), and the two bytes handed to the encoder are `[0, 0]`.  Whatever the
session held before (any staged buffer, any staged length), `dshot_start` on a session of
capacity 16 leaves the conversion of these two bytes staged.  On the Buffered-Waveform
backend these are 16 descriptors, each the record with `t0h` ticks (as a 15-bit field) at
level 1 and `t0l` ticks at level 0, and the handle keeps its capacity, configuration and
tick counts.  On the Clocked-Shift backend, with at most 8 slots per symbol, a handle laid
out by its constructor and at least one slot configured, it is the frame of 16 zero
symbols, of length `16 * (t0h + t0l)` slots, the same for every earlier content of the
buffer.  The trace shows the order: the update, inside the critical section, comes before
`esp_timer_create`, and `esp_timer_start_periodic` follows only when the creation
succeeded. -/
theorem dshot_start_stages_disarm_frame (hw : hw_env) (s : dshot_s)
    (interval_us timer : Nat) :
    (dshot_value 0 = 0 ∧ dshot_checksum (dshot_packet_nocsum 0 false) = 0 ∧
      dshot_packet 0 false = 0 ∧
      u16_bytes (dshot_out_buffer (dshot_packet 0 false)) = [0, 0]) ∧
    (∀ h : pwe_io_rmt_handle_t, s.pwe = some (pwe_t.rmt h) → h.max_payload_length = 16 →
      h.buffer.length = 16 →
      (∀ (b : List rmt_item32_t) (outgoing_buffer_len : Nat), b.length = 16 →
        ∃ h2, pwe_io_rmt_convert_buffer { h with buffer := b } [0, 0] 16 outgoing_buffer_len =
            some (ESP_OK, h2, 16) ∧
          h2.buffer = List.replicate 16
            { duration0 := h.t0h % 2 ^ 15, level0 := 1, duration1 := h.t0l % 2 ^ 15,
              level1 := 0 }) ∧
      ∃ s2 h2,
        dshot_start hw (some s) interval_us timer =
          some (if hw hw_call.esp_timer_create ≠ ESP_OK then hw hw_call.esp_timer_create
                else hw (hw_call.esp_timer_start_periodic timer interval_us),
                some s2,
                [dshot_event.call hw_call.spinlock_acquire, dshot_event.convert_buffer,
                 dshot_event.call hw_call.spinlock_release,
                 dshot_event.call hw_call.esp_timer_create] ++
                if hw hw_call.esp_timer_create ≠ ESP_OK then []
                else [dshot_event.call
                        (hw_call.esp_timer_start_periodic timer interval_us)]) ∧
        s2.pwe = some (pwe_t.rmt h2) ∧ s2.io_buffer_len = 16 ∧
        s2.periodic_timer =
          (if hw hw_call.esp_timer_create ≠ ESP_OK then s.periodic_timer else some timer) ∧
        (h2.max_payload_length = 16 ∧ h2.rmt_conf = h.rmt_conf ∧ h2.trst = h.trst ∧
          h2.t1h = h.t1h ∧ h2.t1l = h.t1l ∧ h2.t0h = h.t0h ∧ h2.t0l = h.t0l) ∧
        h2.buffer = List.replicate 16
          { duration0 := h.t0h % 2 ^ 15, level0 := 1, duration1 := h.t0l % 2 ^ 15,
            level1 := 0 }) ∧
    (∀ h : pwe_io_spi_handle_t, s.pwe = some (pwe_t.spi h) → h.max_payload_length = 16 →
      h.t1h + h.t1l ≤ 8 → h.t0h + h.t0l ≤ 8 → spi_handle_allocated h →
      0 < h.t1h + h.t1l + h.t0h + h.t0l →
      ∃ frame,
        (∀ (b : List Nat) (outgoing_buffer_len : Nat), b.length = h.buffer.length →
          pwe_io_spi_convert_buffer { h with buffer := b } [0, 0] 16 outgoing_buffer_len =
            some (ESP_OK, { h with buffer := frame }, 16 * (h.t0h + h.t0l))) ∧
        dshot_start hw (some s) interval_us timer =
          some (if hw hw_call.esp_timer_create ≠ ESP_OK then hw hw_call.esp_timer_create
                else hw (hw_call.esp_timer_start_periodic timer interval_us),
                some { pwe := some (pwe_t.spi { h with buffer := frame }),
                       io_buffer_len := 16 * (h.t0h + h.t0l),
                       periodic_timer :=
                         if hw hw_call.esp_timer_create ≠ ESP_OK then s.periodic_timer
                         else some timer },
                [dshot_event.call hw_call.spinlock_acquire, dshot_event.convert_buffer,
                 dshot_event.call hw_call.spinlock_release,
                 dshot_event.call hw_call.esp_timer_create] ++
                if hw hw_call.esp_timer_create ≠ ESP_OK then []
                else [dshot_event.call
                        (hw_call.esp_timer_start_periodic timer interval_us)])) := by
  refine ⟨dshot_disarm_packet, ?_, ?_⟩
  · intro h hs hcap halloc
    refine ⟨fun b out hb =>
      ⟨_, pwe_io_rmt_convert_zero_bytes { h with buffer := b } hcap hb out, rfl⟩, ?_⟩
    have hstart := dshot_start_after_update hw s _ interval_us timer
      (dshot_update_disarm_rmt s h hs hcap halloc)
    by_cases hc : hw hw_call.esp_timer_create = ESP_OK
    · refine ⟨_, { h with buffer := List.replicate 16 (rmt_bit0 h) }, hstart, ?_, ?_, ?_,
        ⟨hcap, rfl, rfl, rfl, rfl, rfl, rfl⟩, rfl⟩
      · simp [hc]
      · simp [hc]
      · simp [hc]
    · refine ⟨_, { h with buffer := List.replicate 16 (rmt_bit0 h) }, hstart, ?_, ?_, ?_,
        ⟨hcap, rfl, rfl, rfl, rfl, rfl, rfl⟩, rfl⟩
      · simp [hc]
      · simp [hc]
      · simp [hc]
  · intro h hs hcap h1 h0 halloc hslot
    obtain ⟨frame, hframe, hupd⟩ := dshot_update_disarm_spi s h hs hcap h1 h0 halloc hslot
    refine ⟨frame, hframe, ?_⟩
    rw [dshot_start_after_update hw s _ interval_us timer hupd]
    by_cases hc : hw hw_call.esp_timer_create = ESP_OK
    · simp [hc]
    · simp [hc]

theorem dshot_start_stages_disarm_frame_witness :
    (∃ s2 h2,
      dshot_start (fun _ => ESP_OK)
          (some { pwe := some (pwe_t.rmt
                    { dshot600_rmt_handle with
                      buffer := List.replicate 16
                        { duration0 := 25, level0 := 1, duration1 := 8, level1 := 0 } }),
                  io_buffer_len := 3 }) 1000 7 =
        some (ESP_OK, some s2,
              [dshot_event.call hw_call.spinlock_acquire, dshot_event.convert_buffer,
               dshot_event.call hw_call.spinlock_release,
               dshot_event.call hw_call.esp_timer_create,
               dshot_event.call (hw_call.esp_timer_start_periodic 7 1000)]) ∧
      s2.pwe = some (pwe_t.rmt h2) ∧ s2.io_buffer_len = 16 ∧ s2.periodic_timer = some 7 ∧
      h2.buffer = List.replicate 16
        { duration0 := 13, level0 := 1, duration1 := 21, level1 := 0 }) ∧
    (∃ frame,
      dshot_start (fun _ => ESP_OK)
          (some { pwe := some (pwe_t.spi
                    { dshot600_spi_handle with buffer := List.replicate 10 0xFF }),
                  io_buffer_len := 3 }) 1000 7 =
        some (ESP_OK,
              some { pwe := some (pwe_t.spi { dshot600_spi_handle with buffer := frame }),
                     io_buffer_len := 80, periodic_timer := some 7 },
              [dshot_event.call hw_call.spinlock_acquire, dshot_event.convert_buffer,
               dshot_event.call hw_call.spinlock_release,
               dshot_event.call hw_call.esp_timer_create,
               dshot_event.call (hw_call.esp_timer_start_periodic 7 1000)]) ∧
      pwe_io_spi_convert_buffer dshot600_spi_handle [0, 0] 16 0 =
        some (ESP_OK, { dshot600_spi_handle with buffer := frame }, 80)) := by
  obtain ⟨s2, h2, hrun, hpwe, hlen, htimer, _, hbuf⟩ :=
    ((dshot_start_stages_disarm_frame (fun _ => ESP_OK)
      { pwe := some (pwe_t.rmt
          { dshot600_rmt_handle with
            buffer := List.replicate 16
              { duration0 := 25, level0 := 1, duration1 := 8, level1 := 0 } }),
        io_buffer_len := 3 } 1000 7).2.1
      { dshot600_rmt_handle with
        buffer := List.replicate 16
          { duration0 := 25, level0 := 1, duration1 := 8, level1 := 0 } } rfl rfl rfl).2
  obtain ⟨frame, hconv, hstart⟩ :=
    (dshot_start_stages_disarm_frame (fun _ => ESP_OK)
      { pwe := some (pwe_t.spi { dshot600_spi_handle with buffer := List.replicate 10 0xFF }),
        io_buffer_len := 3 } 1000 7).2.2
      { dshot600_spi_handle with buffer := List.replicate 10 0xFF } rfl rfl (by decide)
      (by decide) (by decide) (by decide)
  exact ⟨⟨s2, h2, hrun, hpwe, hlen, htimer, hbuf⟩, frame, hstart,
    hconv (List.replicate 10 0) 0 rfl⟩

/-- C21 (failing input). `dshot_new_pwe_spi` returns `ESP_OK` and a session for the timing
whose four durations are 1 ns with tolerance 40 ns: the handle has the slot counts
0, 0, 0, 0 and a buffer of 0 bytes.  On this session `dshot_start` has no defined result,
for every timer and interval: its disarm update converts 16 bits, and the first symbol
stores a byte at index 0 of the empty buffer.  The same holds for the handle that the
constructor returns for the durations 100, 100, 900, 900 ns with tolerance 100 ns, whose
0 symbol has 18 slots: the mask `0xff << (8 - 9)` of the conversion is a shift by a
negative amount.  In neither case is a disarm frame staged. -/
theorem dshot_start_undefined_sessions :
    (∀ (spi_conf : pwe_io_spi_config_t) (io_buffer_len : Nat),
      dshot_new_pwe_spi (fun _ => ESP_OK) (some one_ns_config) (some spi_conf) true true
          (some io_buffer_len) =
        some (ESP_OK,
              some { pwe := some (pwe_t.spi one_ns_spi_handle), io_buffer_len := io_buffer_len },
              [hw_call.spi_bus_initialize 2, hw_call.spi_bus_add_device 25000000])) ∧
    (∀ (hw : hw_env) (io_buffer_len interval_us timer : Nat),
      dshot_start hw
        (some { pwe := some (pwe_t.spi one_ns_spi_handle), io_buffer_len := io_buffer_len })
        interval_us timer = none) ∧
    (∀ spi_conf : pwe_io_spi_config_t,
      pwe_new_spi_backend (some long_zero_config) (some spi_conf) 16 true =
        some (ESP_OK, some
          { max_payload_length := 16, sclk := 10000000, t1h := 1, t1l := 1, t0h := 9,
            t0l := 9, trst := 50000, buffer_size := 288,
            buffer := List.replicate 36 0 })) ∧
    (∀ (hw : hw_env) (io_buffer_len interval_us timer : Nat),
      dshot_start hw
        (some { pwe := some (pwe_t.spi
                  { max_payload_length := 16, sclk := 10000000, t1h := 1, t1l := 1, t0h := 9,
                    t0l := 9, trst := 50000, buffer_size := 288,
                    buffer := List.replicate 36 0 }),
                io_buffer_len := io_buffer_len })
        interval_us timer = none) := by
  refine ⟨fun spi_conf n => ?_, fun hw n interval_us timer => ?_, fun spi_conf => ?_,
    fun hw n interval_us timer => ?_⟩
  · have hnew : pwe_new_spi_backend (some one_ns_config) (some spi_conf) 16 true =
        some (ESP_OK, some one_ns_spi_handle) :=
      ((pwe_new_spi_backend_eq one_ns_config spi_conf 16 40 (by decide!)).2 (by decide)).trans
        (by decide)
    simp only [dshot_new_pwe_spi, hnew, Option.bind_eq_bind, Option.some_bind]
    rfl
  · rfl
  · exact ((pwe_new_spi_backend_eq long_zero_config spi_conf 16 100 (by decide!)).2
      (by decide)).trans (by decide)
  · rfl

/-! ## The lock discipline of the two actors -/

theorem lock_discipline_cons (held : Bool) (e : dshot_event) (es : List dshot_event) :
    lock_discipline held (e :: es) =
      if e = dshot_event.call hw_call.spinlock_acquire then
        (if held then none else lock_discipline true es)
      else if e = dshot_event.call hw_call.spinlock_release then
        (if held then lock_discipline false es else none)
      else if e.accesses_frame && !held then none else lock_discipline held es := by
  cases e with
  | call c => cases c <;> simp [lock_discipline]
  | convert_buffer => simp [lock_discipline]
  | io_write len calls => simp [lock_discipline]

theorem lock_step_eq (holder : Option dshot_actor) (a : dshot_actor) (e : dshot_event) :
    lock_step holder a e =
      if e = dshot_event.call hw_call.spinlock_acquire then
        (if holder = none then some (some a) else none)
      else if e = dshot_event.call hw_call.spinlock_release then some none
      else some holder := by
  cases e with
  | call c => cases c <;> simp [lock_step]
  | convert_buffer => simp [lock_step]
  | io_write len calls => simp [lock_step]

theorem actor_events_cons (a b : dshot_actor) (f : dshot_event)
    (rest : List (dshot_actor × dshot_event)) :
    actor_events a ((b, f) :: rest) =
      if b = a then f :: actor_events a rest else actor_events a rest := by
  unfold actor_events
  by_cases h : b = a
  · simp [h]
  · simp [h]

theorem lock_discipline_append (xs ys : List dshot_event) :
    ∀ held, lock_discipline held (xs ++ ys) =
      (lock_discipline held xs).bind fun held2 => lock_discipline held2 ys := by
  induction xs with
  | nil => intro held; simp [lock_discipline]
  | cons e es ih =>
    intro held
    rw [List.cons_append, lock_discipline_cons, lock_discipline_cons]
    split_ifs <;> simp [ih]

theorem lock_discipline_flatten (ops : List (List dshot_event))
    (h : ∀ op ∈ ops, lock_discipline false op = some false) :
    lock_discipline false ops.flatten = some false := by
  induction ops with
  | nil => rfl
  | cons op ops ih =>
    rw [List.flatten_cons, lock_discipline_append, h op (List.mem_cons_self _ _)]
    exact ih fun o ho => h o (List.mem_cons_of_mem _ ho)

/-- Along a schedule that the lock admits and in which every actor keeps the lock
discipline, an actor that touches the outgoing buffer or its length is the holder of the
lock at that moment. -/
theorem lock_run_holder :
    ∀ (pre : List (dshot_actor × dshot_event)) (schedule : List (dshot_actor × dshot_event))
      (holder : Option dshot_actor) (held : dshot_actor → Bool),
      (∀ a, held a = true → holder = some a) →
      (∀ a, lock_discipline (held a) (actor_events a schedule) ≠ none) →
      lock_run holder schedule ≠ none →
      ∀ (a : dshot_actor) (e : dshot_event) (post : List (dshot_actor × dshot_event)),
        schedule = pre ++ (a, e) :: post → e.accesses_frame = true →
        lock_run holder pre = some (some a) := by
  intro pre
  induction pre with
  | nil =>
    intro schedule holder held hinv hdisc _ a e post hs hacc
    subst hs
    have hd := hdisc a
    rw [List.nil_append, actor_events_cons, if_pos rfl, lock_discipline_cons] at hd
    have hne1 : e ≠ dshot_event.call hw_call.spinlock_acquire := by
      intro h; rw [h] at hacc; exact absurd hacc (by decide)
    have hne2 : e ≠ dshot_event.call hw_call.spinlock_release := by
      intro h; rw [h] at hacc; exact absurd hacc (by decide)
    rw [if_neg hne1, if_neg hne2, hacc] at hd
    have hheld : held a = true := by
      cases hh : held a with
      | true => rfl
      | false => rw [hh] at hd; simp at hd
    rw [hinv a hheld]
    rfl
  | cons bf pre ih =>
    intro schedule holder held hinv hdisc hrun a e post hs hacc
    obtain ⟨b, f⟩ := bf
    subst hs
    rw [List.cons_append] at hrun hdisc
    simp only [lock_run] at hrun ⊢
    cases hstep : lock_step holder b f with
    | none => rw [hstep] at hrun; simp at hrun
    | some next =>
      rw [hstep] at hrun
      simp only [Option.some_bind] at hrun ⊢
      have hdb := hdisc b
      rw [actor_events_cons, if_pos rfl, lock_discipline_cons] at hdb
      have hother : ∀ c, c ≠ b →
          lock_discipline (held c) (actor_events c (pre ++ (a, e) :: post)) ≠ none := by
        intro c hc
        have := hdisc c
        rw [actor_events_cons, if_neg (Ne.symm hc)] at this
        exact this
      rw [lock_step_eq] at hstep
      by_cases h1 : f = dshot_event.call hw_call.spinlock_acquire
      · rw [if_pos h1] at hstep hdb
        have hfree : holder = none := by
          by_contra hn; rw [if_neg hn] at hstep; simp at hstep
        rw [if_pos hfree] at hstep
        simp only [Option.some.injEq] at hstep
        have hb : held b = false := by
          cases hh : held b with
          | false => rfl
          | true => rw [hh] at hdb; simp at hdb
        rw [hb] at hdb
        simp only [Bool.false_eq_true, if_false] at hdb
        refine ih _ next (fun c => if c = b then true else held c) ?_ ?_ hrun a e post rfl hacc
        · intro c hc
          by_cases hcb : c = b
          · rw [← hstep, hcb]
          · simp only [hcb, if_false] at hc
            have := hinv c hc
            rw [hfree] at this
            simp at this
        · intro c
          by_cases hcb : c = b
          · subst hcb; simpa using hdb
          · simp only [hcb, if_false]; exact hother c hcb
      · rw [if_neg h1] at hstep hdb
        by_cases h2 : f = dshot_event.call hw_call.spinlock_release
        · rw [if_pos h2] at hstep hdb
          simp only [Option.some.injEq] at hstep
          have hb : held b = true := by
            cases hh : held b with
            | true => rfl
            | false => rw [hh] at hdb; simp at hdb
          rw [hb] at hdb
          simp only [if_true] at hdb
          refine ih _ next (fun c => if c = b then false else held c) ?_ ?_ hrun a e post rfl hacc
          · intro c hc
            by_cases hcb : c = b
            · simp [hcb] at hc
            · simp only [hcb, if_false] at hc
              have k1 := hinv c hc
              have k2 := hinv b hb
              rw [k1] at k2
              simp only [Option.some.injEq] at k2
              exact absurd k2 hcb
          · intro c
            by_cases hcb : c = b
            · subst hcb; simpa using hdb
            · simp only [hcb, if_false]; exact hother c hcb
        · rw [if_neg h2] at hstep hdb
          simp only [Option.some.injEq] at hstep
          subst hstep
          have hdb2 : lock_discipline (held b) (actor_events b (pre ++ (a, e) :: post)) ≠ none := by
            intro hn
            apply hdb
            split_ifs
            · rfl
            · exact hn
          refine ih _ holder held hinv ?_ hrun a e post rfl hacc
          intro c
          by_cases hcb : c = b
          · subst hcb; exact hdb2
          · exact hother c hcb

theorem dshot_update_events_discipline (hdl : dshot_handle_t) (thrust : Nat) :
    lock_discipline false (dshot_update_events hdl thrust) = some false := by
  cases hdl with
  | none => rfl
  | some s =>
    simp only [dshot_update_events]
    split_ifs <;> rfl

/-- C27. Both actors keep the lock discipline: in `dshot_update` and in the periodic
resend step every event that reads or writes the outgoing buffer or its length lies
between an acquire and the next release of the session lock by the same actor, and each
of them ends with the lock released.  With the lock as a mutual-exclusion primitive it
follows that in every schedule of updates by the application and resend steps by the
timer task, an actor that touches the buffer or its length holds the lock at that moment,
so the other actor, which would have to hold it too, does not touch them then. -/
theorem dshot_frame_access_under_lock :
    (∀ (hdl : dshot_handle_t) (thrust : Nat),
      lock_discipline false (dshot_update_events hdl thrust) = some false) ∧
    (∀ (hw : hw_env) (s : dshot_s), ∃ events,
      periodic_timer_callback hw (some s) = some events ∧
      lock_discipline false events = some false) ∧
    (∀ (updates : List (dshot_handle_t × Nat)) (resends : List (hw_env × dshot_s))
        (schedule : List (dshot_actor × dshot_event)),
      actor_events dshot_actor.application schedule =
        (updates.map fun u => dshot_update_events u.1 u.2).flatten →
      actor_events dshot_actor.resend_task schedule =
        (resends.map fun r => (periodic_timer_callback r.1 (some r.2)).getD []).flatten →
      lock_run none schedule ≠ none →
      ∀ (pre : List (dshot_actor × dshot_event)) (a : dshot_actor) (e : dshot_event)
          (post : List (dshot_actor × dshot_event)),
        schedule = pre ++ (a, e) :: post → e.accesses_frame = true →
        lock_run none pre = some (some a)) := by
  refine ⟨dshot_update_events_discipline, fun hw s => ⟨_, rfl, rfl⟩, ?_⟩
  intro updates resends schedule happ hres hrun pre a e post hs hacc
  refine lock_run_holder pre schedule none (fun _ => false) (by simp) ?_ hrun a e post hs hacc
  intro c
  cases c with
  | application =>
    rw [happ, lock_discipline_flatten]
    · simp
    · intro op hop
      simp only [List.mem_map] at hop
      obtain ⟨u, -, rfl⟩ := hop
      exact dshot_update_events_discipline u.1 u.2
  | resend_task =>
    rw [hres, lock_discipline_flatten]
    · simp
    · intro op hop
      simp only [List.mem_map] at hop
      obtain ⟨r, -, rfl⟩ := hop
      rfl

theorem dshot_frame_access_under_lock_witness :
    lock_run none
      [(dshot_actor.application, dshot_event.call hw_call.spinlock_acquire),
       (dshot_actor.application, dshot_event.convert_buffer),
       (dshot_actor.application, dshot_event.call hw_call.spinlock_release),
       (dshot_actor.resend_task, dshot_event.call hw_call.spinlock_acquire)] =
      some (some dshot_actor.resend_task) :=
  dshot_frame_access_under_lock.2.2 [(some dshot600_rmt_session, 0)]
    [(fun _ => ESP_OK, dshot600_rmt_session)]
    [(dshot_actor.application, dshot_event.call hw_call.spinlock_acquire),
     (dshot_actor.application, dshot_event.convert_buffer),
     (dshot_actor.application, dshot_event.call hw_call.spinlock_release),
     (dshot_actor.resend_task, dshot_event.call hw_call.spinlock_acquire),
     (dshot_actor.resend_task,
       dshot_event.io_write 16 [hw_call.rmt_write_items 0 dshot600_rmt_handle.buffer 16]),
     (dshot_actor.resend_task, dshot_event.call hw_call.spinlock_release)]
    (by decide) (by decide) (by decide)
    [(dshot_actor.application, dshot_event.call hw_call.spinlock_acquire),
     (dshot_actor.application, dshot_event.convert_buffer),
     (dshot_actor.application, dshot_event.call hw_call.spinlock_release),
     (dshot_actor.resend_task, dshot_event.call hw_call.spinlock_acquire)]
    dshot_actor.resend_task
    (dshot_event.io_write 16 [hw_call.rmt_write_items 0 dshot600_rmt_handle.buffer 16])
    [(dshot_actor.resend_task, dshot_event.call hw_call.spinlock_release)]
    rfl rfl

/-! ## The DShot presets on the Buffered-Waveform backend -/

/-- `dshot_new_pwe_rmt` on non-NULL configurations: the backend is created with the clock
divisor 4 and capacity 16, whatever divisor the caller gave. -/
theorem dshot_new_pwe_rmt_eq (APB_CLK_FREQ : Nat) (hw : hw_env) (pwe_conf : pwe_config_t)
    (rmt_conf : rmt_config_t) (hdl : Bool) (block : rmt_block) (dshot_block : Option Nat)
    (h : pwe_io_rmt_handle_t)
    (hnew : pwe_new_rmt_backend APB_CLK_FREQ (some pwe_conf) (some { rmt_conf with clk_div := 4 })
      16 (some block) = some (ESP_OK, some h)) :
    dshot_new_pwe_rmt APB_CLK_FREQ hw (some pwe_conf) (some rmt_conf) hdl (some block)
        dshot_block =
      dshot_new_tail hw (some (pwe_t.rmt h)) hdl dshot_block := by
  simp only [dshot_new_pwe_rmt, hnew, Option.bind_eq_bind, Option.some_bind, ne_eq,
    not_true_eq_false, if_false, Option.map_some']

/-- The Buffered-Waveform constructor on a feasible timing at an 80 MHz base clock with
the clock divisor 4, in which case `ITEM_MIN_STEP_NS` is 50. -/
theorem pwe_new_rmt_backend_div4 (config : pwe_config_t) (channel : Nat) (block : rmt_block)
    (hok : ¬ rmt_timing_infeasible config 50) :
    pwe_new_rmt_backend 80000000 (some config) (some { channel := channel, clk_div := 4 }) 16
        (some block) =
      some (ESP_OK, some (dshot_rmt_handle channel block
        (if config.TRST / 1000 = 0 then 1 else config.TRST / 1000)
        ((config.T1H + 25) / 50) ((config.T1L + 25) / 50)
        ((config.T0H + 25) / 50) ((config.T0L + 25) / 50))) := by
  have e := pwe_new_rmt_backend_eq 80000000 config { channel := channel, clk_div := 4 } 16
    (some block) (show rmt_clock_ok 80000000 4 by decide)
  have hs : (1000000000 : Nat) / (80000000 / 4) = 50 := by norm_num
  simp only [hs] at e
  rw [e, if_neg hok]
  rfl

/-- C38. At an 80 MHz base clock and with the clock divisor 4, `ITEM_MIN_STEP_NS` is 50,
and each of the four DShot presets passes both feasibility checks of
`pwe_new_rmt_backend`.  `dshot_new_pwe_rmt` creates the backend with the divisor 4
whatever divisor the caller's configuration holds, so for each preset the backend is
created, with the tick counts 100/33/50/83, 50/17/25/42, 25/8/13/21 and 13/4/6/10, all of
them at least 1. -/
theorem dshot_presets_feasible_on_rmt (hw : hw_env) (rmt_conf : rmt_config_t) (hdl : Bool)
    (block : rmt_block) (dshot_block : Option Nat) :
    rmt_min_step 80000000 4 = some 50 ∧
    (¬ rmt_timing_infeasible PWE_DSHOT150_CONFIG 50 ∧
      ¬ rmt_timing_infeasible PWE_DSHOT300_CONFIG 50 ∧
      ¬ rmt_timing_infeasible PWE_DSHOT600_CONFIG 50 ∧
      ¬ rmt_timing_infeasible PWE_DSHOT1200_CONFIG 50) ∧
    (pwe_new_rmt_backend 80000000 (some PWE_DSHOT150_CONFIG)
        (some { rmt_conf with clk_div := 4 }) 16 (some block) =
      some (ESP_OK, some (dshot_rmt_handle rmt_conf.channel block 13 100 33 50 83)) ∧
     dshot_new_pwe_rmt 80000000 hw (some PWE_DSHOT150_CONFIG) (some rmt_conf) hdl (some block)
        dshot_block =
      dshot_new_tail hw (some (pwe_t.rmt (dshot_rmt_handle rmt_conf.channel block 13 100 33 50 83)))
        hdl dshot_block) ∧
    (pwe_new_rmt_backend 80000000 (some PWE_DSHOT300_CONFIG)
        (some { rmt_conf with clk_div := 4 }) 16 (some block) =
      some (ESP_OK, some (dshot_rmt_handle rmt_conf.channel block 6 50 17 25 42)) ∧
     dshot_new_pwe_rmt 80000000 hw (some PWE_DSHOT300_CONFIG) (some rmt_conf) hdl (some block)
        dshot_block =
      dshot_new_tail hw (some (pwe_t.rmt (dshot_rmt_handle rmt_conf.channel block 6 50 17 25 42)))
        hdl dshot_block) ∧
    (pwe_new_rmt_backend 80000000 (some PWE_DSHOT600_CONFIG)
        (some { rmt_conf with clk_div := 4 }) 16 (some block) =
      some (ESP_OK, some (dshot_rmt_handle rmt_conf.channel block 3 25 8 13 21)) ∧
     dshot_new_pwe_rmt 80000000 hw (some PWE_DSHOT600_CONFIG) (some rmt_conf) hdl (some block)
        dshot_block =
      dshot_new_tail hw (some (pwe_t.rmt (dshot_rmt_handle rmt_conf.channel block 3 25 8 13 21)))
        hdl dshot_block) ∧
    (pwe_new_rmt_backend 80000000 (some PWE_DSHOT1200_CONFIG)
        (some { rmt_conf with clk_div := 4 }) 16 (some block) =
      some (ESP_OK, some (dshot_rmt_handle rmt_conf.channel block 1 13 4 6 10)) ∧
     dshot_new_pwe_rmt 80000000 hw (some PWE_DSHOT1200_CONFIG) (some rmt_conf) hdl (some block)
        dshot_block =
      dshot_new_tail hw (some (pwe_t.rmt (dshot_rmt_handle rmt_conf.channel block 1 13 4 6 10)))
        hdl dshot_block) := by
  have h150 := pwe_new_rmt_backend_div4 PWE_DSHOT150_CONFIG rmt_conf.channel block (by decide)
  have h300 := pwe_new_rmt_backend_div4 PWE_DSHOT300_CONFIG rmt_conf.channel block (by decide)
  have h600 := pwe_new_rmt_backend_div4 PWE_DSHOT600_CONFIG rmt_conf.channel block (by decide)
  have h1200 := pwe_new_rmt_backend_div4 PWE_DSHOT1200_CONFIG rmt_conf.channel block (by decide)
  refine ⟨by decide, ⟨by decide, by decide, by decide, by decide⟩,
    ⟨h150, dshot_new_pwe_rmt_eq _ hw _ rmt_conf hdl block dshot_block _ h150⟩,
    ⟨h300, dshot_new_pwe_rmt_eq _ hw _ rmt_conf hdl block dshot_block _ h300⟩,
    ⟨h600, dshot_new_pwe_rmt_eq _ hw _ rmt_conf hdl block dshot_block _ h600⟩,
    ⟨h1200, dshot_new_pwe_rmt_eq _ hw _ rmt_conf hdl block dshot_block _ h1200⟩⟩

/-! ## Integer step and true tick period -/

/-- What holds of the four tick counts of an accepted configuration. -/
theorem pwe_new_rmt_backend_ticks_run (APB_CLK_FREQ : Nat) (config : pwe_config_t)
    (rmt_conf : rmt_config_t) (buffer_size : Nat) (block : Option rmt_block)
    (h : pwe_io_rmt_handle_t)
    (hclk : rmt_clock_ok APB_CLK_FREQ rmt_conf.clk_div)
    (hacc : pwe_new_rmt_backend APB_CLK_FREQ (some config) (some rmt_conf) buffer_size block =
      some (ESP_OK, some h)) :
    rmt_tick_ok h.t1h config.T1H (1000000000 / (APB_CLK_FREQ / rmt_conf.clk_div)) config.T1H_ACC ∧
    rmt_tick_ok h.t1l config.T1L (1000000000 / (APB_CLK_FREQ / rmt_conf.clk_div)) config.T1L_ACC ∧
    rmt_tick_ok h.t0h config.T0H (1000000000 / (APB_CLK_FREQ / rmt_conf.clk_div)) config.T0H_ACC ∧
    rmt_tick_ok h.t0l config.T0L (1000000000 / (APB_CLK_FREQ / rmt_conf.clk_div)) config.T0L_ACC := by
  have heq := pwe_new_rmt_backend_eq APB_CLK_FREQ config rmt_conf buffer_size block hclk
  obtain ⟨_, hpos, _⟩ := rmt_min_step_eq APB_CLK_FREQ rmt_conf.clk_div hclk
  rw [hacc] at heq
  generalize 1000000000 / (APB_CLK_FREQ / rmt_conf.clk_div) = s at *
  by_cases hbad : rmt_timing_infeasible config s
  · rw [if_pos hbad] at heq; simp at heq
  · rw [if_neg hbad] at heq
    cases block with
    | none => simp at heq
    | some block =>
      simp only [Option.some.injEq, Prod.mk.injEq, true_and] at heq
      subst heq
      unfold rmt_timing_infeasible at hbad
      have tick : ∀ d tol, d ≤ s * 0x7FFF → dist_to_multiple d s < tol →
          rmt_tick_ok ((d + s / 2) / s) d s tol := by
        intro d tol hd hdist
        obtain ⟨ha, hb⟩ := abs_diff_round d s hpos
        have hsym : abs_diff ((d + s / 2) / s * s) d = abs_diff d ((d + s / 2) / s * s) := by
          unfold abs_diff; omega
        refine ⟨rfl, by rw [hsym, ha]; exact hb, by rw [hsym, ha]; exact hdist, ?_⟩
        apply Nat.le_of_lt_succ
        rw [Nat.div_lt_iff_lt_mul hpos]
        omega
      exact ⟨tick _ _ (by omega) (by omega), tick _ _ (by omega) (by omega),
        tick _ _ (by omega) (by omega), tick _ _ (by omega) (by omega)⟩

/-- At 80 MHz the integer step is the true tick period for an even divisor and half a
nanosecond below it for an odd one; it is never 0. -/
theorem rmt_min_step_80MHz : ∀ clk_div, clk_div < 256 → 0 < clk_div →
    rmt_min_step 80000000 clk_div = some (1000000000 / (80000000 / clk_div)) ∧
    0 < 1000000000 / (80000000 / clk_div) ∧
    (clk_div % 2 = 0 → 2 * (1000000000 / (80000000 / clk_div)) = 25 * clk_div) ∧
    (clk_div % 2 = 1 → 2 * (1000000000 / (80000000 / clk_div)) + 1 = 25 * clk_div) := by
  decide!

/-- The error against the true tick period is the error against the integer step plus
what the ticks lose to the truncation of the step. -/
theorem rmt_produced_error2_le (clk_div ticks d m tol : Nat) (hm : 2 * m ≤ 25 * clk_div)
    (herr : abs_diff (ticks * m) d < tol) :
    rmt_produced_error2 clk_div ticks d < 2 * tol + ticks * (25 * clk_div - 2 * m) := by
  unfold rmt_produced_error2 abs_diff at *
  obtain ⟨k, hk⟩ : ∃ k, 25 * clk_div = 2 * m + k := ⟨25 * clk_div - 2 * m, by omega⟩
  rw [hk, show 2 * m + k - 2 * m = k by omega, Nat.mul_add]
  have e : ticks * (2 * m) = 2 * (ticks * m) := by ring
  rw [e]
  generalize ticks * m = x at *
  generalize ticks * k = y at *
  omega

/-- C37 (failing input).  With the clock divisor 1 the integer step is 12 ns while a
tick lasts 12.5 ns.  The timing of four durations of 1200 ns with a tolerance of 1 ns is
accepted, with 100 ticks each, because `100 * 12 = 1200`; the peripheral produces
`100 * 12.5 = 1250` ns, which is 50 ns off (twice the difference is 100), not less than
the tolerance of 1 ns.  The resolution check of lines 182-186 is made against the
truncated step and passes. -/
theorem pwe_new_rmt_backend_accepts_out_of_tolerance :
    rmt_min_step 80000000 1 = some 12 ∧
    (∀ (buffer_size : Nat) (block : rmt_block),
      pwe_new_rmt_backend 80000000 (some tight_1200_config)
          (some { channel := 0, clk_div := 1 }) buffer_size (some block) =
        some (ESP_OK, some
          { max_payload_length := buffer_size, rmt_conf := { channel := 0, clk_div := 1 },
            trst := 1, t1h := 100, t1l := 100, t0h := 100, t0l := 100,
            buffer := (List.range buffer_size).map block.items,
            _total_bits_to_send := block.total_bits })) ∧
    rmt_produced_error2 1 100 tight_1200_config.T1H = 100 ∧
    ¬ (rmt_produced_error2 1 100 tight_1200_config.T1H < 2 * tight_1200_config.T1H_ACC) := by
  refine ⟨by decide, ?_, by decide, by decide⟩
  intro buffer_size block
  have e := pwe_new_rmt_backend_eq 80000000 tight_1200_config { channel := 0, clk_div := 1 }
    buffer_size (some block) (show rmt_clock_ok 80000000 1 by decide)
  have hs : (1000000000 : Nat) / (80000000 / 1) = 12 := by norm_num
  simp only [hs] at e
  rw [e, if_neg (by decide)]
  rfl

/-- C37.  For every clock divisor from 1 to 255 at an 80 MHz base clock the integer step
`minStep` is not 0; it is the true tick period `12.5 * clk_div` ns for an even divisor and
0.5 ns below it for an odd one.  For every accepted configuration with an even divisor and
each of its four durations, the produced duration `ticks * 12.5 * clk_div` differs from
the requested one by less than the tolerance (twice the difference is below twice the
tolerance).  With an odd divisor the acceptance check only bounds `ticks * minStep`, and
the produced duration can miss the tolerance by up to `ticks * 0.5` ns: twice the
difference is below twice the tolerance plus `ticks * (25 * clk_div - 2 * minStep)`. -/
theorem pwe_new_rmt_backend_true_error (config : pwe_config_t) (rmt_conf : rmt_config_t)
    (buffer_size : Nat) (block : Option rmt_block) (h : pwe_io_rmt_handle_t)
    (hdiv : 0 < rmt_conf.clk_div ∧ rmt_conf.clk_div < 256)
    (hacc : pwe_new_rmt_backend 80000000 (some config) (some rmt_conf) buffer_size block =
      some (ESP_OK, some h)) :
    ∃ minStep, rmt_min_step 80000000 rmt_conf.clk_div = some minStep ∧ 0 < minStep ∧
      (rmt_conf.clk_div % 2 = 0 → 2 * minStep = 25 * rmt_conf.clk_div) ∧
      (rmt_conf.clk_div % 2 = 1 → 2 * minStep + 1 = 25 * rmt_conf.clk_div) ∧
      (abs_diff (h.t1h * minStep) config.T1H < config.T1H_ACC ∧
       abs_diff (h.t1l * minStep) config.T1L < config.T1L_ACC ∧
       abs_diff (h.t0h * minStep) config.T0H < config.T0H_ACC ∧
       abs_diff (h.t0l * minStep) config.T0L < config.T0L_ACC) ∧
      (rmt_conf.clk_div % 2 = 0 →
        rmt_produced_error2 rmt_conf.clk_div h.t1h config.T1H < 2 * config.T1H_ACC ∧
        rmt_produced_error2 rmt_conf.clk_div h.t1l config.T1L < 2 * config.T1L_ACC ∧
        rmt_produced_error2 rmt_conf.clk_div h.t0h config.T0H < 2 * config.T0H_ACC ∧
        rmt_produced_error2 rmt_conf.clk_div h.t0l config.T0L < 2 * config.T0L_ACC) ∧
      (rmt_conf.clk_div % 2 = 1 →
        rmt_produced_error2 rmt_conf.clk_div h.t1h config.T1H < 2 * config.T1H_ACC + h.t1h ∧
        rmt_produced_error2 rmt_conf.clk_div h.t1l config.T1L < 2 * config.T1L_ACC + h.t1l ∧
        rmt_produced_error2 rmt_conf.clk_div h.t0h config.T0H < 2 * config.T0H_ACC + h.t0h ∧
        rmt_produced_error2 rmt_conf.clk_div h.t0l config.T0L < 2 * config.T0L_ACC + h.t0l) := by
  obtain ⟨hstep, hpos, heven, hodd⟩ := rmt_min_step_80MHz rmt_conf.clk_div hdiv.2 hdiv.1
  have hclk := rmt_clock_ok_80MHz rmt_conf.clk_div hdiv.2 hdiv.1
  obtain ⟨k1, k2, k3, k4⟩ :=
    pwe_new_rmt_backend_ticks_run 80000000 config rmt_conf buffer_size block h hclk hacc
  generalize 1000000000 / (80000000 / rmt_conf.clk_div) = m at *
  have key : ∀ ticks d tol, abs_diff (ticks * m) d < tol →
      (rmt_conf.clk_div % 2 = 0 → rmt_produced_error2 rmt_conf.clk_div ticks d < 2 * tol) ∧
      (rmt_conf.clk_div % 2 = 1 →
        rmt_produced_error2 rmt_conf.clk_div ticks d < 2 * tol + ticks) := by
    intro ticks d tol herr
    refine ⟨fun he => ?_, fun ho => ?_⟩
    · have := rmt_produced_error2_le rmt_conf.clk_div ticks d m tol (by have := heven he; omega)
        herr
      rw [← heven he] at this
      simpa using this
    · have := rmt_produced_error2_le rmt_conf.clk_div ticks d m tol (by have := hodd ho; omega)
        herr
      rw [← hodd ho, show 2 * m + 1 - 2 * m = 1 by omega, Nat.mul_one] at this
      exact this
  refine ⟨m, hstep, hpos, heven, hodd, ⟨k1.2.2.1, k2.2.2.1, k3.2.2.1, k4.2.2.1⟩, ?_, ?_⟩
  · intro he
    exact ⟨(key _ _ _ k1.2.2.1).1 he, (key _ _ _ k2.2.2.1).1 he, (key _ _ _ k3.2.2.1).1 he,
      (key _ _ _ k4.2.2.1).1 he⟩
  · intro ho
    exact ⟨(key _ _ _ k1.2.2.1).2 ho, (key _ _ _ k2.2.2.1).2 ho, (key _ _ _ k3.2.2.1).2 ho,
      (key _ _ _ k4.2.2.1).2 ho⟩

theorem pwe_new_rmt_backend_true_error_witness :
    ∃ minStep, rmt_min_step 80000000 4 = some minStep ∧ 0 < minStep ∧
      2 * minStep = 25 * 4 ∧
      rmt_produced_error2 4 25 1250 < 2 * 200 ∧ rmt_produced_error2 4 8 416 < 2 * 200 :=
  have w := pwe_new_rmt_backend_true_error PWE_DSHOT600_CONFIG { channel := 0, clk_div := 4 } 16
    (some { total_bits := 0, items := fun _ => rmt_item 0 0 })
    { dshot600_rmt_handle with buffer := List.replicate 16 (rmt_item 0 0) }
    (by decide) (by rfl)
  w.imp fun _ hm => ⟨hm.1, hm.2.1, hm.2.2.1 (by decide), (hm.2.2.2.2.2.1 (by decide)).1,
    (hm.2.2.2.2.2.1 (by decide)).2.1⟩

/-! ## What the period search bounds, and where it starts -/

/-- C32 (failing input).  For the timing T1H = T1L = 100, T0H = T0L = 900 with
tolerances of 10 ns the period search returns 100, because the multiple that it bounds by
4 is that of `max_val`, which is the larger of T1H and T1L only.  The constructor succeeds
with the slot counts 1, 1, 9, 9: the counts of the 0 bit exceed 4 and its symbol has 18
slots.  The mask `0xff << (8 - 9)` of the conversion is then a shift by a negative amount,
and the conversion of a 0 bit is undefined. -/
theorem pwe_new_spi_backend_nine_slots :
    find_suitable_factor 100 100 900 900 10 = some 100 ∧
    (∀ (spi_conf : pwe_io_spi_config_t) (buffer_size : Nat),
      pwe_new_spi_backend (some long_zero_config) (some spi_conf) buffer_size true =
        some (ESP_OK, some
          { max_payload_length := buffer_size, sclk := 10000000, t1h := 1, t1l := 1, t0h := 9,
            t0l := 9, trst := 50000, buffer_size := u32_mul 18 buffer_size,
            buffer := List.replicate (UINTCEILDIV (u32_mul 18 buffer_size) 8) 0 })) ∧
    ¬ (9 ≤ 4) ∧ ¬ (9 + 9 ≤ 8) ∧
    spi_mask 9 0 = none ∧
    pwe_io_spi_convert_buffer
      { max_payload_length := 8, sclk := 10000000, t1h := 1, t1l := 1, t0h := 9,
        t0l := 9, trst := 50000, buffer_size := u32_mul 18 8,
        buffer := List.replicate (UINTCEILDIV (u32_mul 18 8) 8) 0 } [0x00] 1 0 = none := by
  have hf : find_suitable_factor 100 100 900 900 10 = some 100 := by decide!
  refine ⟨hf, ?_, by decide, by decide, by decide, by decide⟩
  intro spi_conf buffer_size
  exact (pwe_new_spi_backend_eq long_zero_config spi_conf buffer_size 100 hf).2 (by decide)

/-- C33 (failing input).  The loop of `find_suitable_factor` starts at the value that
lines 26-31 leave in `min_val`, plus the tolerance, minus 1; line 31 overwrites the result
of line 30, so this value is the largest of T1H, T1L and T0L, without T0H.  For the
durations 100, 100, 900, 100 and tolerance 10 the first candidate is 109, not
`900 + 10 - 1 = 909`.  From there the candidates go down by 1, the last one is 2, and the
candidates 1 and 0 are not examined. -/
theorem find_suitable_factor_first_skips_T0H :
    find_suitable_factor_first 100 100 900 100 10 = 109 ∧
    max (max (max 100 100) 900) 100 + 10 - 1 = 909 ∧
    (∀ a b c d range : Nat,
      find_suitable_factor_first a b c d range =
        u32_sub ((max (max a b) d + range % 2 ^ 16) % 2 ^ 32) 1 ∧
      find_suitable_factor a b c d range =
        (find_suitable_factor_loop a b c d (range % 2 ^ 16) (if a > b then a else b)
          (find_suitable_factor_first a b c d range)
          { current_factor := 0, current_error := (range % 2 ^ 16 + 1) % 2 ^ 16,
            current_multiple := 0 }).bind fun st => some st.current_factor) ∧
    (∀ (a b c d range max_val num : Nat) (st : factor_state),
      find_suitable_factor_loop a b c d range max_val (num + 2) st =
        (find_suitable_factor_body a b c d range max_val (num + 2) st).bind (fun r =>
          if r.2 then some r.1
          else find_suitable_factor_loop a b c d range max_val (num + 1) r.1) ∧
      find_suitable_factor_loop a b c d range max_val 1 st = some st ∧
      find_suitable_factor_loop a b c d range max_val 0 st = some st) := by
  refine ⟨by decide, by decide, ?_, ?_⟩
  · intro a b c d range
    refine ⟨?_, rfl⟩
    unfold find_suitable_factor_first
    simp only []
    congr 3
    split_ifs <;> omega
  · intro a b c d range max_val num st
    refine ⟨?_, rfl, rfl⟩
    rw [find_suitable_factor_loop]
    cases find_suitable_factor_body a b c d range max_val (num + 2) st with
    | none => rfl
    | some r => obtain ⟨st2, left⟩ := r; rfl

/-- The rounded quotient does not decrease when the divisor decreases. -/
theorem round_div_antitone (M p q : Nat) (hq : 0 < q) (hqp : q ≤ p) :
    (M + p / 2) / p ≤ (M + q / 2) / q := by
  rcases Nat.eq_zero_or_pos ((M + p / 2) / p) with h0 | hk
  · rw [h0]; exact Nat.zero_le _
  · rw [Nat.le_div_iff_mul_le hq]
    have h1 : (M + p / 2) / p * p ≤ M + p / 2 := Nat.div_mul_le_self _ _
    obtain ⟨e, rfl⟩ := Nat.exists_eq_add_of_le hqp
    generalize (M + (q + e) / 2) / (q + e) = k at *
    have h2 : k * (q + e) = k * q + k * e := Nat.mul_add _ _ _
    have h3 : e ≤ k * e := Nat.le_mul_of_pos_left e hk
    omega

theorem dist_to_multiple_le_self (x s : Nat) : dist_to_multiple x s ≤ x := by
  unfold dist_to_multiple
  exact Nat.le_trans (Nat.min_le_left _ _) (Nat.mod_le _ _)

theorem ite_gt_eq_max (x y : Nat) : (if x > y then x else y) = max x y := by
  split <;> omega

/-- One pass of the search for durations below `2 ^ 16`, when the multiple of the current
factor is not above the multiple of the candidate: the candidate replaces the current
factor exactly when it is acceptable, its multiple is at most 4 and its worst-case error
is below the current one. -/
theorem find_suitable_factor_body_eq (a b c d range num : Nat) (st : factor_state)
    (ha : a < 2 ^ 16) (hb : b < 2 ^ 16) (hc : c < 2 ^ 16) (hd : d < 2 ^ 16)
    (h2 : 2 ≤ num) (h32 : num < 2 ^ 32)
    (hcm : st.current_multiple ≤ period_multiple a b num) :
    find_suitable_factor_body a b c d range (max a b) num st =
      some (if worst_error a b c d num < range then
          (if 4 < period_multiple a b num then (st, true)
           else if worst_error a b c d num < st.current_error then
             ({ current_factor := num, current_error := worst_error a b c d num,
                current_multiple := period_multiple a b num }, false)
           else (st, false))
        else (st, false)) := by
  have e : ∀ x, x < 2 ^ 16 → calc_aligned_error x num = some (dist_to_multiple x num) :=
    fun x hx => calc_aligned_error_eq x num (by omega) h32 (by omega)
  have m : ∀ x, x < 2 ^ 16 → dist_to_multiple x num % 2 ^ 16 = dist_to_multiple x num :=
    fun x hx => Nat.mod_eq_of_lt (Nat.lt_of_le_of_lt (dist_to_multiple_le_self x num) hx)
  have hM : max a b < 2 ^ 16 := by
    rcases Nat.le_total a b with h | h
    · rw [Nat.max_eq_right h]; exact hb
    · rw [Nat.max_eq_left h]; exact ha
  have hround : UINTROUNDDIV (max a b) num % 2 ^ 16 = period_multiple a b num := by
    have h1 : UINTROUNDDIV (max a b) num = (max a b + num / 2) / num := by
      unfold UINTROUNDDIV; rw [Nat.mod_eq_of_lt (by omega)]
    have h3 := round_div_antitone (max a b) num 2 (by norm_num) h2
    unfold period_multiple
    rw [h1]
    exact Nat.mod_eq_of_lt (by omega)
  unfold find_suitable_factor_body
  simp only [e a ha, e b hb, e c hc, e d hd, m a ha, m b hb, m c hc, m d hd,
    Option.bind_eq_bind, Option.some_bind, ite_gt_eq_max, hround]
  show (if worst_error a b c d num < range then _ else _) = _
  by_cases hw : worst_error a b c d num < range
  · rw [if_pos hw, if_pos hw]
    by_cases h4 : 4 < period_multiple a b num
    · rw [if_pos h4, if_pos h4]
    · rw [if_neg h4, if_neg h4]
      by_cases hlt : worst_error a b c d num < st.current_error
      · rw [if_pos hlt, if_pos (Or.inl ⟨hlt, hcm⟩)]
        rfl
      · rw [if_neg hlt, if_neg]
        rintro (⟨h, _⟩ | ⟨h, _⟩)
        · exact hlt h
        · exact hlt (Nat.lt_of_lt_of_le h (Nat.div_le_self _ _))
  · rw [if_neg hw, if_neg hw]
/-- A pass of the loop that leaves it ends the scan. -/
theorem find_suitable_factor_loop_break (a b c d range max_val x : Nat) (st st2 : factor_state)
    (hb : find_suitable_factor_body a b c d range max_val (x + 2) st = some (st2, true)) :
    find_suitable_factor_loop a b c d range max_val (x + 2) st = some st2 := by
  rw [find_suitable_factor_loop, hb]
  rfl

/-- The scan as a minimisation.  Started at `num` with a current factor whose multiple is
not above the multiples of the periods still to come, the scan ends, and either it keeps
its state and no candidate from `num` down to 2 has an error below the current one, or it
ends with the largest of the candidates of least worst-case error, and that error is
below the one it started with. -/
theorem find_suitable_factor_loop_arg_min (a b c d range : Nat)
    (ha : a < 2 ^ 16) (hb : b < 2 ^ 16) (hc : c < 2 ^ 16) (hd : d < 2 ^ 16) :
    ∀ (num : Nat) (st : factor_state), num < 2 ^ 32 →
      (∀ q, 2 ≤ q → q ≤ num → st.current_multiple ≤ period_multiple a b q) →
      ∃ st2, find_suitable_factor_loop a b c d range (max a b) num st = some st2 ∧
        ((st2 = st ∧ ∀ q, 2 ≤ q → q ≤ num → worst_error a b c d q < range →
            period_multiple a b q ≤ 4 → st.current_error ≤ worst_error a b c d q) ∨
         (2 ≤ st2.current_factor ∧ st2.current_factor ≤ num ∧
          worst_error a b c d st2.current_factor < range ∧
          period_multiple a b st2.current_factor ≤ 4 ∧
          worst_error a b c d st2.current_factor < st.current_error ∧
          ∀ q, 2 ≤ q → q ≤ num → worst_error a b c d q < range →
            period_multiple a b q ≤ 4 →
            worst_error a b c d st2.current_factor ≤ worst_error a b c d q ∧
            (worst_error a b c d q = worst_error a b c d st2.current_factor →
              q ≤ st2.current_factor))) := by
  intro num
  induction num with
  | zero =>
    intro st _ _
    exact ⟨st, rfl, Or.inl ⟨rfl, fun q h2 h0 => by omega⟩⟩
  | succ n ih =>
    intro st h32 hcm
    cases n with
    | zero => exact ⟨st, rfl, Or.inl ⟨rfl, fun q h2 h1 => by omega⟩⟩
    | succ m =>
      have hbody := find_suitable_factor_body_eq a b c d range (m + 2) st ha hb hc hd
        (by omega) h32 (hcm (m + 2) (by omega) (Nat.le_refl _))
      by_cases hw : worst_error a b c d (m + 2) < range
      · rw [if_pos hw] at hbody
        by_cases h4 : 4 < period_multiple a b (m + 2)
        · rw [if_pos h4] at hbody
          refine ⟨st, find_suitable_factor_loop_break _ _ _ _ _ _ _ _ _ hbody,
            Or.inl ⟨rfl, ?_⟩⟩
          intro q h2 hq _ hq4
          have := round_div_antitone (max a b) (m + 2) q (by omega) hq
          unfold period_multiple at h4 hq4
          omega
        · rw [if_neg h4] at hbody
          by_cases hlt : worst_error a b c d (m + 2) < st.current_error
          · rw [if_pos hlt] at hbody
            rw [find_suitable_factor_loop_step _ _ _ _ _ _ _ _ _ hbody]
            have hmono : ∀ q, 2 ≤ q → q ≤ m + 1 →
                period_multiple a b (m + 2) ≤ period_multiple a b q := fun q h2 hq =>
              round_div_antitone (max a b) (m + 2) q (by omega) (by omega)
            obtain ⟨st2, hrun, hres⟩ := ih
              { current_factor := m + 2, current_error := worst_error a b c d (m + 2),
                current_multiple := period_multiple a b (m + 2) } (by omega) hmono
            refine ⟨st2, hrun, Or.inr ?_⟩
            rcases hres with ⟨heq, hall⟩ | ⟨g2, gle, gw, g4, glt, gall⟩
            · have hall2 : ∀ q, 2 ≤ q → q ≤ m + 1 → worst_error a b c d q < range →
                  period_multiple a b q ≤ 4 →
                  worst_error a b c d (m + 2) ≤ worst_error a b c d q := hall
              rw [heq]
              refine ⟨Nat.le_add_left 2 m, Nat.le_refl _, hw, Nat.le_of_not_lt h4, hlt, ?_⟩
              intro q h2 hq hqw hq4
              show worst_error a b c d (m + 2) ≤ worst_error a b c d q ∧
                (worst_error a b c d q = worst_error a b c d (m + 2) → q ≤ m + 2)
              rcases Nat.lt_or_ge q (m + 2) with hlt2 | hge
              · exact ⟨hall2 q h2 (by omega) hqw hq4, fun _ => by omega⟩
              · have : q = m + 2 := by omega
                subst this
                exact ⟨Nat.le_refl _, fun _ => Nat.le_refl _⟩
            · have glt2 : worst_error a b c d st2.current_factor <
                  worst_error a b c d (m + 2) := glt
              refine ⟨g2, by omega, gw, g4, Nat.lt_trans glt2 hlt, ?_⟩
              intro q h2 hq hqw hq4
              rcases Nat.lt_or_ge q (m + 2) with hlt2 | hge
              · exact gall q h2 (by omega) hqw hq4
              · have : q = m + 2 := by omega
                subst this
                exact ⟨Nat.le_of_lt glt2, fun h => absurd h (Nat.ne_of_gt glt2)⟩
          · rw [if_neg hlt] at hbody
            rw [find_suitable_factor_loop_step _ _ _ _ _ _ _ _ _ hbody]
            obtain ⟨st2, hrun, hres⟩ := ih st (by omega) (fun q h2 hq => hcm q h2 (by omega))
            refine ⟨st2, hrun, ?_⟩
            rcases hres with ⟨heq, hall⟩ | ⟨g2, gle, gw, g4, glt, gall⟩
            · refine Or.inl ⟨heq, ?_⟩
              intro q h2 hq hqw hq4
              rcases Nat.lt_or_ge q (m + 2) with hlt2 | hge
              · exact hall q h2 (by omega) hqw hq4
              · have : q = m + 2 := by omega
                subst this
                exact Nat.le_of_not_lt hlt
            · refine Or.inr ⟨g2, by omega, gw, g4, glt, ?_⟩
              intro q h2 hq hqw hq4
              rcases Nat.lt_or_ge q (m + 2) with hlt2 | hge
              · exact gall q h2 (by omega) hqw hq4
              · have : q = m + 2 := by omega
                subst this
                have h5 := Nat.le_of_not_lt hlt
                exact ⟨by omega, fun h => by omega⟩
      · rw [if_neg hw] at hbody
        rw [find_suitable_factor_loop_step _ _ _ _ _ _ _ _ _ hbody]
        obtain ⟨st2, hrun, hres⟩ := ih st (by omega) (fun q h2 hq => hcm q h2 (by omega))
        refine ⟨st2, hrun, ?_⟩
        rcases hres with ⟨heq, hall⟩ | ⟨g2, gle, gw, g4, glt, gall⟩
        · refine Or.inl ⟨heq, ?_⟩
          intro q h2 hq hqw hq4
          rcases Nat.lt_or_ge q (m + 2) with hlt2 | hge
          · exact hall q h2 (by omega) hqw hq4
          · have : q = m + 2 := by omega
            subst this
            exact absurd hqw hw
        · refine Or.inr ⟨g2, by omega, gw, g4, glt, ?_⟩
          intro q h2 hq hqw hq4
          rcases Nat.lt_or_ge q (m + 2) with hlt2 | hge
          · exact gall q h2 (by omega) hqw hq4
          · have : q = m + 2 := by omega
            subst this
            exact absurd hqw hw
/-- The function `find_suitable_factor` is its loop, started at the first candidate with
no current factor, the current error `range + 1` in 16 bits and the current multiple 0. -/
theorem find_suitable_factor_eq_loop (a b c d range : Nat) :
    find_suitable_factor a b c d range =
      (find_suitable_factor_loop a b c d (range % 2 ^ 16) (max a b)
        (find_suitable_factor_first a b c d range)
        { current_factor := 0, current_error := (range % 2 ^ 16 + 1) % 2 ^ 16,
          current_multiple := 0 }).bind (fun st => some st.current_factor) := by
  rw [← ite_gt_eq_max]
  rfl

theorem find_suitable_factor_first_lt (a b c d range : Nat) :
    find_suitable_factor_first a b c d range < 2 ^ 32 := by
  unfold find_suitable_factor_first u32_sub
  exact Nat.mod_lt _ (by norm_num)

/-- C31, the failing input.  With the tolerance 65535 the search for the DShot600
durations returns 0, although 333 is a candidate: the initial current error `range + 1`
wraps to 0 in 16 bits, and no error is below 0. -/
theorem find_suitable_factor_tolerance_65535 :
    find_suitable_factor 1250 416 625 1041 65535 = some 0 ∧
    factor_candidate 1250 416 625 1041 65535 333 := by
  refine ⟨?_, by decide⟩
  rw [find_suitable_factor_eq_loop]
  obtain ⟨st2, hrun, hres⟩ := find_suitable_factor_loop_arg_min 1250 416 625 1041
    (65535 % 2 ^ 16) (by norm_num) (by norm_num) (by norm_num) (by norm_num)
    (find_suitable_factor_first 1250 416 625 1041 65535)
    { current_factor := 0, current_error := (65535 % 2 ^ 16 + 1) % 2 ^ 16,
      current_multiple := 0 }
    (find_suitable_factor_first_lt _ _ _ _ _) (fun q _ _ => Nat.zero_le _)
  rw [hrun]
  rcases hres with ⟨heq, _⟩ | ⟨_, _, _, _, glt, _⟩
  · rw [heq]
    rfl
  · exact absurd glt (Nat.not_lt_zero _)

/-- C31.  For durations below `2 ^ 16` and a tolerance below `2 ^ 16 - 1` the search
`find_suitable_factor` returns, and its result is that of a plain minimisation over the
candidates (the periods from the first value of the scan down to 2 with a worst-case
rounding error below the tolerance and a multiple of at most 4): it is 0 exactly when
there is no candidate, and otherwise it is a candidate of least worst-case error and the
largest of those. -/
theorem find_suitable_factor_arg_min (a b c d range : Nat)
    (ha : a < 2 ^ 16) (hb : b < 2 ^ 16) (hc : c < 2 ^ 16) (hd : d < 2 ^ 16)
    (hr : range < 2 ^ 16 - 1) :
    ∃ r, find_suitable_factor a b c d range = some r ∧
      (r = 0 ↔ ∀ p, ¬ factor_candidate a b c d range p) ∧
      (r ≠ 0 → factor_candidate a b c d range r ∧
        ∀ q, factor_candidate a b c d range q →
          worst_error a b c d r ≤ worst_error a b c d q ∧
          (worst_error a b c d q = worst_error a b c d r → q ≤ r)) := by
  have hr1 : range % 2 ^ 16 = range := Nat.mod_eq_of_lt (by omega)
  have hr2 : (range + 1) % 2 ^ 16 = range + 1 := Nat.mod_eq_of_lt (by omega)
  obtain ⟨st2, hrun, hres⟩ := find_suitable_factor_loop_arg_min a b c d range ha hb hc hd
    (find_suitable_factor_first a b c d range)
    { current_factor := 0, current_error := range + 1, current_multiple := 0 }
    (find_suitable_factor_first_lt _ _ _ _ _) (fun q _ _ => Nat.zero_le _)
  refine ⟨st2.current_factor, ?_, ?_⟩
  · rw [find_suitable_factor_eq_loop, hr1, hr2, hrun]
    rfl
  · rcases hres with ⟨heq, hall⟩ | ⟨g2, gle, gw, g4, _, gall⟩
    · have h0 : st2.current_factor = 0 := by rw [heq]
      have hall2 : ∀ q, 2 ≤ q → q ≤ find_suitable_factor_first a b c d range →
          worst_error a b c d q < range → period_multiple a b q ≤ 4 →
          range + 1 ≤ worst_error a b c d q := hall
      have hnone : ∀ p, ¬ factor_candidate a b c d range p := by
        rintro p ⟨h2, hp, hw, h4⟩
        have := hall2 p h2 hp hw h4
        omega
      exact ⟨⟨fun _ => hnone, fun _ => h0⟩, fun hne => absurd h0 hne⟩
    · have hcand : factor_candidate a b c d range st2.current_factor := ⟨g2, gle, gw, g4⟩
      refine ⟨⟨fun h0 => by omega, fun hnone => absurd hcand (hnone _)⟩, fun _ => ⟨hcand, ?_⟩⟩
      rintro q ⟨h2, hq, hw, h4⟩
      exact gall q h2 hq hw h4

theorem find_suitable_factor_arg_min_witness :
    ∃ r, find_suitable_factor 1250 416 625 1041 200 = some r ∧
      (r = 0 ↔ ∀ p, ¬ factor_candidate 1250 416 625 1041 200 p) ∧
      (r ≠ 0 → factor_candidate 1250 416 625 1041 200 r ∧
        ∀ q, factor_candidate 1250 416 625 1041 200 q →
          worst_error 1250 416 625 1041 r ≤ worst_error 1250 416 625 1041 q ∧
          (worst_error 1250 416 625 1041 q = worst_error 1250 416 625 1041 r → q ≤ r)) :=
  find_suitable_factor_arg_min 1250 416 625 1041 200 (by decide) (by decide) (by decide)
    (by decide) (by decide)

/-! ## The streaming translator, one call -/

/-- The `for` loop of `pwe_rmt_adapter` on a byte that is in bounds, with room for the rest
of the byte in the destination and at least one bit remaining: it translates the bits
`i .. 7` of the byte, or fewer when the remaining bit count runs out first. -/
theorem pwe_rmt_adapter_for_run (bit0 bit1 : rmt_item32_t) (src : List Nat) (byte : Nat) :
    ∀ (fuel i : Nat) (st : adapter_state), i ≤ 8 → 8 - i ≤ fuel →
      src[st.psrc]? = some byte →
      st.pdest + (8 - i) ≤ st.dest.length →
      1 ≤ st.bits_remain_in_input → st.bits_remain_in_input < 2 ^ 32 →
      ∃ st2, pwe_rmt_adapter_for bit0 bit1 src fuel i st = some st2 ∧
        st2.psrc = st.psrc ∧ st2.translated_byte_num = st.translated_byte_num ∧
        st2.pdest = st.pdest + min (8 - i) st.bits_remain_in_input ∧
        st2.translated_bit_num =
          st.translated_bit_num + min (8 - i) st.bits_remain_in_input ∧
        st2.bits_remain_in_input =
          st.bits_remain_in_input - min (8 - i) st.bits_remain_in_input ∧
        st2.dest.length = st.dest.length ∧
        (∀ q, q < st.pdest → st2.dest[q]? = st.dest[q]?) ∧
        (∀ t, t < min (8 - i) st.bits_remain_in_input →
          st2.dest[st.pdest + t]? =
            some (if byte.testBit (7 - (i + t)) then bit1 else bit0)) := by
  intro fuel
  induction fuel with
  | zero =>
    intro i st hi hfuel _ _ _ _
    have hi8 : ¬ i < 8 := by omega
    refine ⟨st, ?_, rfl, rfl, by omega, by omega, by omega, rfl, fun _ _ => rfl, ?_⟩
    · rw [pwe_rmt_adapter_for, if_neg hi8]
    · intro t ht
      omega
  | succ fuel ih =>
    intro i st hi hfuel hbyte hroom hr1 hr32
    by_cases hi8 : i < 8
    · have hp : st.pdest < st.dest.length := by omega
      have hsub : u32_sub st.bits_remain_in_input 1 = st.bits_remain_in_input - 1 := by
        unfold u32_sub
        omega
      rw [pwe_rmt_adapter_for, if_pos hi8]
      simp only [rd, wr, hbyte, if_pos hp, Option.bind_eq_bind, Option.some_bind, hsub,
        bit_set_eq_testBit]
      by_cases hlast : st.bits_remain_in_input - 1 = 0
      · rw [if_pos hlast]
        have hmin : min (8 - i) st.bits_remain_in_input = 1 := by omega
        refine ⟨_, rfl, rfl, rfl, ?_, ?_, ?_, ?_, ?_, ?_⟩
        · rw [hmin]
        · rw [hmin]
        · rw [hmin]
        · exact List.length_set _ _ _
        · intro q hq
          exact List.getElem?_set_ne (by omega)
        · intro t ht
          have ht0 : t = 0 := by omega
          subst ht0
          show (st.dest.set st.pdest _)[st.pdest + 0]? = _
          rw [Nat.add_zero, List.getElem?_set_self hp]
          rfl
      · rw [if_neg hlast]
        obtain ⟨st2, hrun, h1, h2, h3, h4, h5, h6, h7, h8⟩ := ih (i + 1)
          { st with
            dest := st.dest.set st.pdest (if byte.testBit (7 - i) then bit1 else bit0)
            translated_bit_num := st.translated_bit_num + 1
            pdest := st.pdest + 1
            bits_remain_in_input := st.bits_remain_in_input - 1 }
          (by omega) (by omega) hbyte
          (by show st.pdest + 1 + (8 - (i + 1)) ≤ (st.dest.set st.pdest _).length
              rw [List.length_set]; omega)
          (by show 1 ≤ st.bits_remain_in_input - 1; omega)
          (by show st.bits_remain_in_input - 1 < 2 ^ 32; omega)
        simp only [] at h1 h2 h3 h4 h5 h6 h7 h8
        refine ⟨st2, hrun, h1, h2, by omega, by omega, by omega, ?_, ?_, ?_⟩
        · rw [h6, List.length_set]
        · intro q hq
          rw [h7 q (by omega)]
          exact List.getElem?_set_ne (by omega)
        · intro t ht
          rcases Nat.eq_zero_or_pos t with ht0 | htpos
          · subst ht0
            rw [Nat.add_zero, h7 st.pdest (by omega), List.getElem?_set_self hp]
            rfl
          · have e := h8 (t - 1) (by omega)
            have e1 : st.pdest + 1 + (t - 1) = st.pdest + t := by omega
            have e2 : i + 1 + (t - 1) = i + t := by omega
            rw [e1, e2] at e
            exact e
    · refine ⟨st, ?_, rfl, rfl, by omega, by omega, by omega, rfl, fun _ _ => rfl, ?_⟩
      · rw [pwe_rmt_adapter_for, if_neg hi8]
      · intro t ht
        omega
/-- The `while` loop of `pwe_rmt_adapter` from a byte boundary with at least one bit
remaining: it translates whole bytes until the capacity or the remaining bits run out. -/
theorem pwe_rmt_adapter_while_run (bit0 bit1 : rmt_item32_t) (src : List Nat) (bc : Nat) :
    ∀ (fuel : Nat) (st : adapter_state),
      bc - st.psrc ≤ fuel →
      st.translated_byte_num = st.psrc → st.pdest = 8 * st.psrc →
      st.translated_bit_num = 8 * st.psrc →
      1 ≤ st.bits_remain_in_input → st.bits_remain_in_input < 2 ^ 32 →
      st.bits_remain_in_input ≤ 8 * (src.length - st.psrc) →
      8 * bc ≤ st.dest.length →
      ∃ st2, pwe_rmt_adapter_while bit0 bit1 src bc fuel st = some st2 ∧
        st2.translated_byte_num =
          st.psrc + min (bc - st.psrc) ((st.bits_remain_in_input + 7) / 8) ∧
        st2.translated_bit_num =
          8 * st.psrc + min (8 * (bc - st.psrc)) st.bits_remain_in_input ∧
        st2.dest.length = st.dest.length ∧
        (∀ q, q < 8 * st.psrc → st2.dest[q]? = st.dest[q]?) ∧
        (∀ q, 8 * st.psrc ≤ q → q < st2.translated_bit_num →
          st2.dest[q]? = some (if src_bit src q then bit1 else bit0)) := by
  intro fuel
  induction fuel with
  | zero =>
    intro st hfuel hb _ hbits _ _ _ _
    have hge : ¬ st.translated_byte_num < bc := by omega
    refine ⟨st, ?_, by omega, by omega, rfl, fun _ _ => rfl, ?_⟩
    · rw [pwe_rmt_adapter_while, if_neg hge]
    · intro q h1 h2
      omega
  | succ fuel ih =>
    intro st hfuel hb hpd hbits hr1 hr32 hsrc hdest
    by_cases hlt : st.translated_byte_num < bc
    · have hin : st.psrc < src.length := by omega
      have hbyte : src[st.psrc]? = some (src.getD st.psrc 0) := by
        rw [List.getD_eq_getElem?_getD, List.getElem?_eq_getElem hin]
        rfl
      obtain ⟨st1, hfor, h1, h2, h3, h4, h5, h6, h7, h8⟩ :=
        pwe_rmt_adapter_for_run bit0 bit1 src (src.getD st.psrc 0) 8 0 st (by omega)
          (by omega) hbyte (by omega) hr1 hr32
      have hitem : ∀ t, t < min 8 st.bits_remain_in_input →
          st1.dest[8 * st.psrc + t]? = some (if src_bit src (8 * st.psrc + t) then bit1 else bit0) := by
        intro t ht
        have e := h8 t ht
        rw [hpd, Nat.zero_add] at e
        unfold src_bit
        rw [show (8 * st.psrc + t) / 8 = st.psrc by omega,
          show (8 * st.psrc + t) % 8 = t by omega]
        exact e
      rw [pwe_rmt_adapter_while, if_pos hlt, hfor]
      simp only [Option.bind_eq_bind, Option.some_bind]
      by_cases hlast : st1.bits_remain_in_input = 0
      · rw [if_pos hlast]
        refine ⟨_, rfl, ?_, ?_, h6, ?_, ?_⟩
        · show st1.translated_byte_num + 1 = _
          omega
        · show st1.translated_bit_num = _
          omega
        · intro q hq
          exact h7 q (by omega)
        · intro q hq1 hq2
          have hq3 : q < st1.translated_bit_num := hq2
          have e := hitem (q - 8 * st.psrc) (by omega)
          rw [show 8 * st.psrc + (q - 8 * st.psrc) = q by omega] at e
          exact e
      · rw [if_neg hlast]
        obtain ⟨st2, hrun, g1, g2, g3, g4, g5⟩ := ih
          { st1 with translated_byte_num := st1.translated_byte_num + 1, psrc := st1.psrc + 1 }
          (by show bc - (st1.psrc + 1) ≤ fuel; omega)
          (by show st1.translated_byte_num + 1 = st1.psrc + 1; omega)
          (by show st1.pdest = 8 * (st1.psrc + 1); omega)
          (by show st1.translated_bit_num = 8 * (st1.psrc + 1); omega)
          (by show 1 ≤ st1.bits_remain_in_input; omega)
          (by show st1.bits_remain_in_input < 2 ^ 32; omega)
          (by show st1.bits_remain_in_input ≤ 8 * (src.length - (st1.psrc + 1)); omega)
          (by show 8 * bc ≤ st1.dest.length; omega)
        simp only [] at g1 g2 g3 g4 g5
        refine ⟨st2, hrun, by omega, by omega, by omega, ?_, ?_⟩
        · intro q hq
          rw [g4 q (by omega)]
          exact h7 q (by omega)
        · intro q hq1 hq2
          rcases Nat.lt_or_ge q (8 * (st.psrc + 1)) with hq3 | hq3
          · rw [g4 q (by omega)]
            have e := hitem (q - 8 * st.psrc) (by omega)
            rw [show 8 * st.psrc + (q - 8 * st.psrc) = q by omega] at e
            exact e
          · exact g5 q (by omega) hq2
    · refine ⟨st, ?_, by omega, by omega, rfl, fun _ _ => rfl, ?_⟩
      · rw [pwe_rmt_adapter_while, if_neg hlt]
      · intro q h1 h2
        omega
/-- Whatever the state, the `for` loop adds at most `8 - i` descriptors and leaves the byte
count alone. -/
theorem pwe_rmt_adapter_for_bound (bit0 bit1 : rmt_item32_t) (src : List Nat) :
    ∀ (fuel i : Nat) (st st2 : adapter_state),
      pwe_rmt_adapter_for bit0 bit1 src fuel i st = some st2 →
      st2.translated_bit_num ≤ st.translated_bit_num + (8 - i) ∧
      st2.translated_byte_num = st.translated_byte_num := by
  intro fuel
  induction fuel with
  | zero =>
    intro i st st2 h
    rw [pwe_rmt_adapter_for] at h
    split at h
    · exact absurd h (by simp)
    · simp only [Option.some.injEq] at h
      subst h
      exact ⟨by omega, rfl⟩
  | succ fuel ih =>
    intro i st st2 h
    rw [pwe_rmt_adapter_for] at h
    by_cases hi8 : i < 8
    · rw [if_pos hi8] at h
      simp only [Option.bind_eq_bind, Option.bind_eq_some] at h
      obtain ⟨byte, _, dest, _, h⟩ := h
      split at h
      · simp only [Option.some.injEq] at h
        subst h
        exact ⟨by show st.translated_bit_num + 1 ≤ _; omega, rfl⟩
      · have e := ih _ _ _ h
        simp only [] at e
        exact ⟨by omega, e.2⟩
    · rw [if_neg hi8] at h
      simp only [Option.some.injEq] at h
      subst h
      exact ⟨by omega, rfl⟩

/-- Whatever the state, the `while` loop keeps the descriptor count within eight per byte
and the byte count within the capacity. -/
theorem pwe_rmt_adapter_while_bound (bit0 bit1 : rmt_item32_t) (src : List Nat) (bc : Nat) :
    ∀ (fuel : Nat) (st st2 : adapter_state),
      pwe_rmt_adapter_while bit0 bit1 src bc fuel st = some st2 →
      st.translated_bit_num ≤ 8 * st.translated_byte_num → st.translated_byte_num ≤ bc →
      st2.translated_bit_num ≤ 8 * st2.translated_byte_num ∧ st2.translated_byte_num ≤ bc := by
  intro fuel
  induction fuel with
  | zero =>
    intro st st2 h hb hc
    rw [pwe_rmt_adapter_while] at h
    split at h
    · exact absurd h (by simp)
    · simp only [Option.some.injEq] at h
      subst h
      exact ⟨hb, hc⟩
  | succ fuel ih =>
    intro st st2 h hb hc
    rw [pwe_rmt_adapter_while] at h
    by_cases hlt : st.translated_byte_num < bc
    · rw [if_pos hlt] at h
      simp only [Option.bind_eq_bind, Option.bind_eq_some] at h
      obtain ⟨st1, hfor, h⟩ := h
      have e := pwe_rmt_adapter_for_bound bit0 bit1 src 8 0 st st1 hfor
      split at h
      · simp only [Option.some.injEq] at h
        subst h
        exact ⟨by show st1.translated_bit_num ≤ 8 * (st1.translated_byte_num + 1); omega,
          by show st1.translated_byte_num + 1 ≤ bc; omega⟩
      · exact ih _ _ h
          (by show st1.translated_bit_num ≤ 8 * (st1.translated_byte_num + 1); omega)
          (by show st1.translated_byte_num + 1 ≤ bc; omega)
    · rw [if_neg hlt] at h
      simp only [Option.some.injEq] at h
      subst h
      exact ⟨hb, hc⟩

/-- The `for` loop runs to its end whenever its byte is in bounds and the destination has
room for the rest of the byte, whatever the remaining bit count. -/
theorem pwe_rmt_adapter_for_defined (bit0 bit1 : rmt_item32_t) (src : List Nat) :
    ∀ (fuel i : Nat) (st : adapter_state), 8 - i ≤ fuel →
      st.psrc < src.length → st.pdest + (8 - i) ≤ st.dest.length →
      ∃ st2, pwe_rmt_adapter_for bit0 bit1 src fuel i st = some st2 ∧
        st2.psrc = st.psrc ∧ st2.translated_byte_num = st.translated_byte_num ∧
        st2.dest.length = st.dest.length ∧ st2.pdest ≤ st.pdest + (8 - i) := by
  intro fuel
  induction fuel with
  | zero =>
    intro i st hfuel _ _
    have hi8 : ¬ i < 8 := by omega
    exact ⟨st, by rw [pwe_rmt_adapter_for, if_neg hi8], rfl, rfl, rfl, by omega⟩
  | succ fuel ih =>
    intro i st hfuel hin hroom
    by_cases hi8 : i < 8
    · have hp : st.pdest < st.dest.length := by omega
      obtain ⟨byte, hbyte⟩ : ∃ byte, src[st.psrc]? = some byte :=
        ⟨_, List.getElem?_eq_getElem hin⟩
      rw [pwe_rmt_adapter_for, if_pos hi8]
      generalize u32_sub st.bits_remain_in_input 1 = r
      simp only [rd, hbyte, Option.bind_eq_bind, Option.some_bind]
      unfold wr
      rw [if_pos hp, Option.some_bind]
      by_cases hz : r = 0
      · rw [if_pos hz]
        refine ⟨_, rfl, rfl, rfl, ?_, ?_⟩
        · exact List.length_set _ _ _
        · show st.pdest + 1 ≤ _
          omega
      · rw [if_neg hz]
        obtain ⟨st2, hrun, h1, h2, h3, h4⟩ := ih (i + 1)
          { st with
            dest := st.dest.set st.pdest
              (if bit_set byte (7 - i) then bit1 else bit0)
            translated_bit_num := st.translated_bit_num + 1
            pdest := st.pdest + 1
            bits_remain_in_input := r }
          (by omega) hin
          (by show st.pdest + 1 + (8 - (i + 1)) ≤ (st.dest.set st.pdest _).length
              rw [List.length_set]; omega)
        simp only [] at h1 h2 h3 h4
        exact ⟨st2, hrun, h1, h2, by rw [h3, List.length_set], by omega⟩
    · exact ⟨st, by rw [pwe_rmt_adapter_for, if_neg hi8], rfl, rfl, rfl, by omega⟩

/-- The `while` loop runs to its end whenever the source holds the bytes and the
destination the descriptors that the capacity allows, whatever the remaining bit count. -/
theorem pwe_rmt_adapter_while_defined (bit0 bit1 : rmt_item32_t) (src : List Nat) (bc : Nat) :
    ∀ (fuel : Nat) (st : adapter_state), bc - st.translated_byte_num ≤ fuel →
      st.psrc + (bc - st.translated_byte_num) ≤ src.length →
      st.pdest + 8 * (bc - st.translated_byte_num) ≤ st.dest.length →
      ∃ st2, pwe_rmt_adapter_while bit0 bit1 src bc fuel st = some st2 := by
  intro fuel
  induction fuel with
  | zero =>
    intro st hfuel _ _
    have hge : ¬ st.translated_byte_num < bc := by omega
    exact ⟨st, by rw [pwe_rmt_adapter_while, if_neg hge]⟩
  | succ fuel ih =>
    intro st hfuel hsrc hdest
    by_cases hlt : st.translated_byte_num < bc
    · obtain ⟨st1, hfor, h1, h2, h3, h4⟩ :=
        pwe_rmt_adapter_for_defined bit0 bit1 src 8 0 st (by omega) (by omega) (by omega)
      rw [pwe_rmt_adapter_while, if_pos hlt, hfor]
      simp only [Option.bind_eq_bind, Option.some_bind]
      split
      · exact ⟨_, rfl⟩
      · exact ih _
          (by show bc - (st1.translated_byte_num + 1) ≤ fuel; omega)
          (by show st1.psrc + 1 + (bc - (st1.translated_byte_num + 1)) ≤ src.length; omega)
          (by show st1.pdest + 8 * (bc - (st1.translated_byte_num + 1)) ≤ st1.dest.length
              omega)
    · exact ⟨st, by rw [pwe_rmt_adapter_while, if_neg hlt]⟩


/-- The remaining bit count that `pwe_rmt_adapter` computes in 32 bits is the true one, also
when `UINTCEILDIV` wraps. -/
theorem adapter_bits_remain (T s : Nat) (hT : T < 2 ^ 32) (hs1 : 1 ≤ s)
    (hs : s ≤ (T + 7) / 8) :
    u32_sub T (u32_mul (u32_sub (UINTCEILDIV T 8) s) 8) = T - 8 * ((T + 7) / 8 - s) := by
  unfold u32_sub u32_mul UINTCEILDIV
  omega
/-- The translator on non-NULL arguments is its `while` loop, run from the start of the
source and destination with the remaining bit count of line 73. -/
theorem pwe_rmt_adapter_eq (h : pwe_io_rmt_handle_t) (src : List Nat)
    (dest : List rmt_item32_t) (s w : Nat) :
    pwe_rmt_adapter (some h) (some src) (some dest) s w =
      (pwe_rmt_adapter_while (rmt_bit0 h) (rmt_bit1 h) src (w / 8) (w / 8)
        { dest := dest, psrc := 0, pdest := 0, translated_byte_num := 0,
          translated_bit_num := 0,
          bits_remain_in_input := u32_sub h._total_bits_to_send
            (u32_mul (u32_sub (UINTCEILDIV h._total_bits_to_send 8) s) 8) }).bind
        (fun st => some (some st.dest, st.translated_byte_num, st.translated_bit_num)) :=
  rfl

/-- One call of the translator with `s` source bytes remaining of a message of at least
one bit, on memory that holds the `s` bytes and `w` descriptors. -/
theorem pwe_rmt_adapter_run (h : pwe_io_rmt_handle_t) (src : List Nat)
    (dest : List rmt_item32_t) (s w : Nat)
    (hT1 : 1 ≤ h._total_bits_to_send) (hT32 : h._total_bits_to_send < 2 ^ 32)
    (hs1 : 1 ≤ s) (hs : s ≤ (h._total_bits_to_send + 7) / 8)
    (hsrc : s ≤ src.length) (hdest : w ≤ dest.length) :
    ∃ dest2, pwe_rmt_adapter (some h) (some src) (some dest) s w =
        some (some dest2, min (w / 8) s,
          min (8 * (w / 8))
            (h._total_bits_to_send - 8 * ((h._total_bits_to_send + 7) / 8 - s))) ∧
      dest2.length = dest.length ∧
      ∀ k, k < min (8 * (w / 8))
          (h._total_bits_to_send - 8 * ((h._total_bits_to_send + 7) / 8 - s)) →
        dest2[k]? = some (if src_bit src k then rmt_bit1 h else rmt_bit0 h) := by
  obtain ⟨st2, hrun, g1, g2, g3, _, g5⟩ :=
    pwe_rmt_adapter_while_run (rmt_bit0 h) (rmt_bit1 h) src (w / 8) (w / 8)
      { dest := dest, psrc := 0, pdest := 0, translated_byte_num := 0,
        translated_bit_num := 0,
        bits_remain_in_input :=
          h._total_bits_to_send - 8 * ((h._total_bits_to_send + 7) / 8 - s) }
      (by show w / 8 - 0 ≤ w / 8; omega) rfl rfl rfl
      (by show 1 ≤ h._total_bits_to_send - 8 * ((h._total_bits_to_send + 7) / 8 - s); omega)
      (by show h._total_bits_to_send - 8 * ((h._total_bits_to_send + 7) / 8 - s) < 2 ^ 32
          omega)
      (by show h._total_bits_to_send - 8 * ((h._total_bits_to_send + 7) / 8 - s) ≤
            8 * (src.length - 0)
          omega)
      (by show 8 * (w / 8) ≤ dest.length; omega)
  have e1 : st2.translated_byte_num = min (w / 8) s := by
    rw [g1]
    show 0 + min (w / 8 - 0)
      ((h._total_bits_to_send - 8 * ((h._total_bits_to_send + 7) / 8 - s) + 7) / 8) = _
    omega
  have e2 : st2.translated_bit_num = min (8 * (w / 8))
      (h._total_bits_to_send - 8 * ((h._total_bits_to_send + 7) / 8 - s)) := by
    rw [g2]
    show 8 * 0 + min (8 * (w / 8 - 0))
      (h._total_bits_to_send - 8 * ((h._total_bits_to_send + 7) / 8 - s)) = _
    omega
  refine ⟨st2.dest, ?_, g3, ?_⟩
  · rw [pwe_rmt_adapter_eq, adapter_bits_remain _ _ hT32 hs1 hs, hrun, ← e1, ← e2]
    rfl
  · intro k hk
    rw [← e2] at hk
    exact g5 k (Nat.zero_le _) hk

/-- C34.  One call of `pwe_rmt_adapter`.  With a total bit count `T` of at least 1 (a
`uint32_t`), `s` source bytes remaining, `1 ≤ s ≤ ⌈T / 8⌉`, and memory holding the `s`
bytes and `w` descriptors, the call reports `min (w / 8) s` bytes consumed and
`min (8 * (w / 8)) R` descriptors produced, where `R = T - 8 * (⌈T / 8⌉ - s)`.
Descriptor `k` is the record with `t1h` ticks (as a 15-bit field) at level 1 and `t1l`
ticks at level 0 if bit `7 - k % 8` of source byte `k / 8` is set, and the record with
`t0h` ticks at level 1 and `t0l` ticks at level 0 otherwise; when the two records differ,
descriptor `k` is the logical-1 record if and only if that bit is set.  A capacity below 8
yields `(0, 0)` for every input.  For every input the reported descriptor count is at
most `w`, and the call returns whenever the memory holds the `w / 8` bytes and
`8 * (w / 8)` descriptors that the capacity allows. -/
theorem pwe_rmt_adapter_report (h : pwe_io_rmt_handle_t) (src : List Nat)
    (dest : List rmt_item32_t) (s w : Nat) :
    (1 ≤ h._total_bits_to_send → h._total_bits_to_send < 2 ^ 32 → 1 ≤ s →
      s ≤ (h._total_bits_to_send + 7) / 8 → s ≤ src.length → w ≤ dest.length →
      ∃ dest2, pwe_rmt_adapter (some h) (some src) (some dest) s w =
          some (some dest2, min (w / 8) s,
            min (8 * (w / 8))
              (h._total_bits_to_send - 8 * ((h._total_bits_to_send + 7) / 8 - s))) ∧
        dest2.length = dest.length ∧
        (∀ k, k < min (8 * (w / 8))
            (h._total_bits_to_send - 8 * ((h._total_bits_to_send + 7) / 8 - s)) →
          dest2[k]? = some
            (if (src.getD (k / 8) 0).testBit (7 - k % 8) then
              { duration0 := h.t1h % 2 ^ 15, level0 := 1, duration1 := h.t1l % 2 ^ 15,
                level1 := 0 }
             else
              { duration0 := h.t0h % 2 ^ 15, level0 := 1, duration1 := h.t0l % 2 ^ 15,
                level1 := 0 })) ∧
        ((h.t1h % 2 ^ 15 ≠ h.t0h % 2 ^ 15 ∨ h.t1l % 2 ^ 15 ≠ h.t0l % 2 ^ 15) →
          ∀ k, k < min (8 * (w / 8))
              (h._total_bits_to_send - 8 * ((h._total_bits_to_send + 7) / 8 - s)) →
            (dest2[k]? = some
                { duration0 := h.t1h % 2 ^ 15, level0 := 1, duration1 := h.t1l % 2 ^ 15,
                  level1 := 0 } ↔
              (src.getD (k / 8) 0).testBit (7 - k % 8) = true))) ∧
    (w < 8 → ∀ (pwe_rmt : Option pwe_io_rmt_handle_t) (osrc : Option (List Nat))
        (odest : Option (List rmt_item32_t)),
      pwe_rmt_adapter pwe_rmt osrc odest s w = some (odest, 0, 0)) ∧
    (∀ (pwe_rmt : Option pwe_io_rmt_handle_t) (osrc : Option (List Nat))
        (odest : Option (List rmt_item32_t)) (r : Option (List rmt_item32_t) × Nat × Nat),
      pwe_rmt_adapter pwe_rmt osrc odest s w = some r → r.2.2 ≤ w) ∧
    (w / 8 ≤ src.length → 8 * (w / 8) ≤ dest.length →
      ∃ r, pwe_rmt_adapter (some h) (some src) (some dest) s w = some r) := by
  refine ⟨?_, ?_, ?_, ?_⟩
  · intro hT1 hT32 hs1 hs hsrc hdest
    obtain ⟨dest2, hrun, hlen, hitems⟩ :=
      pwe_rmt_adapter_run h src dest s w hT1 hT32 hs1 hs hsrc hdest
    have hdesc : ∀ k, k < min (8 * (w / 8))
        (h._total_bits_to_send - 8 * ((h._total_bits_to_send + 7) / 8 - s)) →
        dest2[k]? = some
          (if (src.getD (k / 8) 0).testBit (7 - k % 8) then
            { duration0 := h.t1h % 2 ^ 15, level0 := 1, duration1 := h.t1l % 2 ^ 15,
              level1 := 0 }
           else
            { duration0 := h.t0h % 2 ^ 15, level0 := 1, duration1 := h.t0l % 2 ^ 15,
              level1 := 0 }) := hitems
    refine ⟨dest2, hrun, hlen, hdesc, ?_⟩
    intro hne k hk
    rw [hdesc k hk]
    cases hbit : (src.getD (k / 8) 0).testBit (7 - k % 8)
    · simp only [Bool.false_eq_true, if_false, Option.some.injEq, rmt_item32_t.mk.injEq,
        and_true, true_and, iff_false, not_and]
      intro e1 e2
      rcases hne with hne | hne
      · exact hne e1.symm
      · exact hne e2.symm
    · simp
  · intro hw pwe_rmt osrc odest
    have h0 : w / 8 = 0 := by omega
    cases pwe_rmt with
    | none => rfl
    | some h2 =>
      cases osrc with
      | none => rfl
      | some src2 =>
        cases odest with
        | none => rfl
        | some dest2 =>
          rw [pwe_rmt_adapter_eq, h0]
          rfl
  · intro pwe_rmt osrc odest r hr
    cases pwe_rmt with
    | none =>
      have e : r = (odest, 0, 0) := by
        have : pwe_rmt_adapter none osrc odest s w = some (odest, 0, 0) := rfl
        rw [this] at hr
        exact (Option.some.inj hr).symm
      rw [e]
      exact Nat.zero_le _
    | some h2 =>
      cases osrc with
      | none =>
        have e : r = (odest, 0, 0) := by
          have : pwe_rmt_adapter (some h2) none odest s w = some (odest, 0, 0) := rfl
          rw [this] at hr
          exact (Option.some.inj hr).symm
        rw [e]
        exact Nat.zero_le _
      | some src2 =>
        cases odest with
        | none =>
          have e : r = (none, 0, 0) := by
            have : pwe_rmt_adapter (some h2) (some src2) none s w = some (none, 0, 0) := rfl
            rw [this] at hr
            exact (Option.some.inj hr).symm
          rw [e]
          exact Nat.zero_le _
        | some dest2 =>
          rw [pwe_rmt_adapter_eq, Option.bind_eq_some] at hr
          obtain ⟨st2, hrun, hres⟩ := hr
          have hb := pwe_rmt_adapter_while_bound _ _ _ _ _ _ _ hrun (Nat.le_refl _)
            (Nat.zero_le _)
          rw [← Option.some.inj hres]
          show st2.translated_bit_num ≤ w
          omega
  · intro hsrc hdest
    obtain ⟨st2, hrun⟩ := pwe_rmt_adapter_while_defined (rmt_bit0 h) (rmt_bit1 h) src (w / 8)
      (w / 8)
      { dest := dest, psrc := 0, pdest := 0, translated_byte_num := 0,
        translated_bit_num := 0,
        bits_remain_in_input := u32_sub h._total_bits_to_send
          (u32_mul (u32_sub (UINTCEILDIV h._total_bits_to_send 8) s) 8) }
      (by show w / 8 - 0 ≤ w / 8; omega) (by show 0 + (w / 8 - 0) ≤ src.length; omega)
      (by show 0 + 8 * (w / 8 - 0) ≤ dest.length; omega)
    exact ⟨_, by rw [pwe_rmt_adapter_eq, hrun]; rfl⟩

theorem pwe_rmt_adapter_report_witness :
    (∃ dest2, pwe_rmt_adapter (some streaming_handle_12) (some [0xA5, 0xF0])
        (some (List.replicate 16 { duration0 := 0, level0 := 0, duration1 := 0, level1 := 0 }))
        2 16 = some (some dest2, 2, 12) ∧
      dest2.length = 16 ∧
      dest2[0]? = some { duration0 := 8, level0 := 1, duration1 := 4, level1 := 0 } ∧
      dest2[1]? = some { duration0 := 4, level0 := 1, duration1 := 8, level1 := 0 } ∧
      dest2[11]? = some { duration0 := 8, level0 := 1, duration1 := 4, level1 := 0 } ∧
      (([0xA5, 0xF0] : List Nat).getD 0 0).testBit 7 = true ∧
      ¬ (dest2[1]? = some { duration0 := 8, level0 := 1, duration1 := 4, level1 := 0 })) ∧
    pwe_rmt_adapter (some streaming_handle_12) (some [0xA5, 0xF0])
      (some (List.replicate 16 { duration0 := 0, level0 := 0, duration1 := 0, level1 := 0 }))
      2 7 =
        some (some (List.replicate 16
          { duration0 := 0, level0 := 0, duration1 := 0, level1 := 0 }), 0, 0) := by
  obtain ⟨dest2, hrun, hlen, hdesc, hiff⟩ :=
    (pwe_rmt_adapter_report streaming_handle_12 [0xA5, 0xF0]
      (List.replicate 16 { duration0 := 0, level0 := 0, duration1 := 0, level1 := 0 })
      2 16).1 (by decide) (by decide) (by decide) (by decide) (by decide) (by decide)
  refine ⟨⟨dest2, hrun, hlen, hdesc 0 (by decide), hdesc 1 (by decide), hdesc 11 (by decide),
    (hiff (by decide) 0 (by decide)).mp (hdesc 0 (by decide)),
    fun e => absurd ((hiff (by decide) 1 (by decide)).mp e) (by decide)⟩, ?_⟩
  exact (pwe_rmt_adapter_report streaming_handle_12 [0xA5, 0xF0]
    (List.replicate 16 { duration0 := 0, level0 := 0, duration1 := 0, level1 := 0 })
    2 7).2.1 (by decide) _ _ _

/-! ## Streaming equals buffered -/

/-- One call of the stream. -/
theorem adapter_stream_step (h : pwe_io_rmt_handle_t) (blocks : Nat → List rmt_item32_t)
    (fuel n : Nat) (src : List Nat) (dest2 items2 : List rmt_item32_t) (b m b2 : Nat)
    (hne : ¬ src.length = 0)
    (hcall : pwe_rmt_adapter (some h) (some src) (some (blocks n)) src.length
      (blocks n).length = some (some dest2, b, m))
    (hrec : adapter_stream h blocks fuel (n + 1) (src.drop b) = some (b2, items2)) :
    adapter_stream h blocks (fuel + 1) n src = some (b + b2, dest2.take m ++ items2) := by
  rw [adapter_stream, if_neg hne, hcall]
  show (adapter_stream h blocks fuel (n + 1) (src.drop b)).bind _ = _
  rw [hrec]
  rfl

theorem adapter_stream_nil (h : pwe_io_rmt_handle_t) (blocks : Nat → List rmt_item32_t)
    (fuel n : Nat) (src : List Nat) (hnil : src.length = 0) :
    adapter_stream h blocks fuel n src = some (0, []) := by
  cases fuel with
  | zero => rw [adapter_stream, if_pos hnil]
  | succ fuel => rw [adapter_stream, if_pos hnil]

theorem src_bit_drop (data : List Nat) (j k : Nat) :
    src_bit (data.drop j) k = src_bit data (8 * j + k) := by
  unfold src_bit
  rw [show (8 * j + k) / 8 = j + k / 8 by omega, show (8 * j + k) % 8 = k % 8 by omega,
    List.getD_eq_getElem?_getD, List.getD_eq_getElem?_getD, List.getElem?_drop]

theorem rmt_descriptors_getElem? (h : pwe_io_rmt_handle_t) (data : List Nat) (n k : Nat) :
    (rmt_descriptors h data n)[k]? =
      if k < n then some (if src_bit data k then rmt_bit1 h else rmt_bit0 h) else none := by
  unfold rmt_descriptors
  rw [List.getElem?_map]
  by_cases hk : k < n
  · rw [List.getElem?_range hk, if_pos hk]
    rfl
  · rw [List.getElem?_eq_none (by rw [List.length_range]; omega), if_neg hk]
    rfl
/-- The stream started after `j` bytes of a message of `T` bits held in `⌈T / 8⌉` bytes:
it consumes the remaining bytes and produces the descriptors of the remaining bits. -/
theorem adapter_stream_run (h : pwe_io_rmt_handle_t) (blocks : Nat → List rmt_item32_t)
    (data : List Nat)
    (hT1 : 1 ≤ h._total_bits_to_send) (hT32 : h._total_bits_to_send < 2 ^ 32)
    (hdata : data.length = (h._total_bits_to_send + 7) / 8)
    (hblocks : ∀ n, 8 ≤ (blocks n).length) :
    ∀ (fuel n j : Nat), j ≤ data.length → data.length - j ≤ fuel →
      adapter_stream h blocks fuel n (data.drop j) =
        some (data.length - j,
          (rmt_descriptors h data h._total_bits_to_send).drop (8 * j)) := by
  intro fuel
  induction fuel with
  | zero =>
    intro n j hj hfuel
    have hnil : (data.drop j).length = 0 := by rw [List.length_drop]; omega
    rw [adapter_stream_nil h blocks 0 n _ hnil]
    have hd : (rmt_descriptors h data h._total_bits_to_send).drop (8 * j) = [] := by
      apply List.drop_eq_nil_of_le
      unfold rmt_descriptors
      rw [List.length_map, List.length_range]
      omega
    rw [hd]
    congr 2
    omega
  | succ fuel ih =>
    intro n j hj hfuel
    rcases Nat.eq_or_lt_of_le hj with hjeq | hjlt
    · have hnil : (data.drop j).length = 0 := by rw [List.length_drop]; omega
      rw [adapter_stream_nil h blocks _ n _ hnil]
      have hd : (rmt_descriptors h data h._total_bits_to_send).drop (8 * j) = [] := by
        apply List.drop_eq_nil_of_le
        unfold rmt_descriptors
        rw [List.length_map, List.length_range]
        omega
      rw [hd]
      congr 2
      omega
    · have hlen : (data.drop j).length = data.length - j := List.length_drop _ _
      have hne : ¬ (data.drop j).length = 0 := by omega
      obtain ⟨dest2, hcall, hd2, hitems⟩ := pwe_rmt_adapter_run h (data.drop j) (blocks n)
        (data.drop j).length (blocks n).length hT1 hT32 (by omega) (by omega)
        (Nat.le_refl _) (Nat.le_refl _)
      have hw := hblocks n
      have hrec := ih (n + 1) (j + min ((blocks n).length / 8) (data.drop j).length)
        (by omega) (by omega)
      rw [← List.drop_drop] at hrec
      rw [adapter_stream_step h blocks fuel n _ _ _ _ _ _ hne hcall hrec]
      congr 2
      · omega
      · apply List.ext_getElem?
        intro k
        rw [List.getElem?_drop, rmt_descriptors_getElem?]
        generalize hm : min (8 * ((blocks n).length / 8)) (h._total_bits_to_send -
          8 * ((h._total_bits_to_send + 7) / 8 - (data.drop j).length)) = m at hitems
        generalize hb : min ((blocks n).length / 8) (data.drop j).length = b
        have hmle : m ≤ dest2.length := by omega
        rcases Nat.lt_or_ge k m with hk | hk
        · have hlt : 8 * j + k < h._total_bits_to_send := by omega
          rw [List.getElem?_append_left (by rw [List.length_take]; omega),
            List.getElem?_take_of_lt hk, hitems k hk, src_bit_drop, if_pos hlt]
        · rw [List.getElem?_append_right (by rw [List.length_take]; omega),
            List.length_take, Nat.min_eq_left hmle, List.getElem?_drop,
            rmt_descriptors_getElem?]
          by_cases hlt : 8 * j + k < h._total_bits_to_send
          · have e1 : 8 * (j + b) + (k - m) = 8 * j + k := by omega
            rw [e1, if_pos hlt]
          · have e1 : 8 * (j + b) + (k - m) = 8 * j + k ∨
                ¬ 8 * (j + b) + (k - m) < h._total_bits_to_send := by omega
            rcases e1 with e1 | e1
            · rw [e1, if_neg hlt]
            · rw [if_neg hlt, if_neg e1]
theorem src_bit_take (data : List Nat) (c k : Nat) (hk : k / 8 < c) :
    src_bit (data.take c) k = src_bit data k := by
  unfold src_bit
  rw [List.getD_eq_getElem?_getD, List.getD_eq_getElem?_getD, List.getElem?_take_of_lt hk]

/-- C35.  Streaming equals buffered.  For a message of `T` bits, `1 ≤ T < 2 ^ 32`, held in
the first `⌈T / 8⌉` bytes of `data`, and blocks of at least 8 descriptors each, the stream
of translator calls on the handle that `pwe_io_rmt_on_the_fly_send` prepares consumes
`⌈T / 8⌉` bytes and produces `T` descriptors, and these are the first `T` descriptors that
`pwe_io_rmt_convert_buffer` writes for the same data and `len = T` on a handle with the same
tick counts.  The byte count that `pwe_io_rmt_on_the_fly_send` passes to the driver is
`⌈T / 8⌉` whenever `T + 7` fits 32 bits. -/
theorem adapter_stream_eq_buffered (hs hb : pwe_io_rmt_handle_t) (data : List Nat)
    (T out : Nat) (blocks : Nat → List rmt_item32_t)
    (hT1 : 1 ≤ T) (hT32 : T < 2 ^ 32) (hdata : (T + 7) / 8 ≤ data.length)
    (hblocks : ∀ n, 8 ≤ (blocks n).length)
    (ht : hb.t1h = hs.t1h ∧ hb.t1l = hs.t1l ∧ hb.t0h = hs.t0h ∧ hb.t0l = hs.t0l)
    (hcap : T ≤ hb.max_payload_length) (halloc : hb.buffer.length = hb.max_payload_length) :
    ∃ items buffer2,
      adapter_stream (pwe_io_rmt_on_the_fly_send_prepare hs T).1 blocks ((T + 7) / 8) 0
        (data.take ((T + 7) / 8)) = some ((T + 7) / 8, items) ∧
      items.length = T ∧
      pwe_io_rmt_convert_buffer hb data T out =
        some (ESP_OK, { hb with buffer := buffer2 }, T) ∧
      buffer2.take T = items ∧
      (T + 7 < 2 ^ 32 → (pwe_io_rmt_on_the_fly_send_prepare hs T).2 = (T + 7) / 8) := by
  have hlen : (data.take ((T + 7) / 8)).length = (T + 7) / 8 := by
    rw [List.length_take]
    exact Nat.min_eq_left hdata
  have hrun := adapter_stream_run (pwe_io_rmt_on_the_fly_send_prepare hs T).1 blocks
    (data.take ((T + 7) / 8)) hT1 hT32 hlen hblocks ((T + 7) / 8) 0 0 (Nat.zero_le _)
    (by omega)
  rw [List.drop_zero, hlen] at hrun
  obtain ⟨buffer2, hconv, hblen, hbits, _⟩ :=
    pwe_io_rmt_convert_buffer_run hb data T out hcap halloc (by omega)
  obtain ⟨h1, h2, h3, h4⟩ := ht
  have hbit1 : rmt_bit1 hb = rmt_bit1 (pwe_io_rmt_on_the_fly_send_prepare hs T).1 := by
    show rmt_item hb.t1h hb.t1l = rmt_item hs.t1h hs.t1l
    rw [h1, h2]
  have hbit0 : rmt_bit0 hb = rmt_bit0 (pwe_io_rmt_on_the_fly_send_prepare hs T).1 := by
    show rmt_item hb.t0h hb.t0l = rmt_item hs.t0h hs.t0l
    rw [h3, h4]
  refine ⟨_, buffer2, hrun, ?_, hconv, ?_, ?_⟩
  · show (List.drop (8 * 0) (rmt_descriptors _ _ T)).length = T
    unfold rmt_descriptors
    rw [List.length_drop, List.length_map, List.length_range]
    omega
  · apply List.ext_getElem?
    intro k
    show (List.take T buffer2)[k]? = (List.drop (8 * 0) (rmt_descriptors _ _ T))[k]?
    rw [List.getElem?_drop, rmt_descriptors_getElem?, Nat.mul_zero, Nat.zero_add]
    by_cases hk : k < T
    · rw [List.getElem?_take_of_lt hk, hbits k hk, if_pos hk, src_bit_take _ _ _ (by omega),
        hbit1, hbit0]
      rfl
    · rw [if_neg hk]
      apply List.getElem?_eq_none
      rw [List.length_take]
      omega
  · intro h7
    show UINTCEILDIV T 8 = (T + 7) / 8
    unfold UINTCEILDIV
    omega

theorem adapter_stream_eq_buffered_witness :
    ∃ items buffer2,
      adapter_stream (pwe_io_rmt_on_the_fly_send_prepare streaming_handle_12 12).1
        (fun _ => List.replicate 8 (rmt_item 0 0)) 2 0 (([0xA5, 0xF0] : List Nat).take 2) =
          some (2, items) ∧
      items.length = 12 ∧
      pwe_io_rmt_convert_buffer
        { streaming_handle_12 with
          max_payload_length := 16, buffer := List.replicate 16 (rmt_item 0 0) }
        [0xA5, 0xF0] 12 0 =
        some (ESP_OK, { streaming_handle_12 with
          max_payload_length := 16, buffer := buffer2 }, 12) ∧
      buffer2.take 12 = items ∧
      (12 + 7 < 2 ^ 32 →
        (pwe_io_rmt_on_the_fly_send_prepare streaming_handle_12 12).2 = (12 + 7) / 8) :=
  adapter_stream_eq_buffered streaming_handle_12
    { streaming_handle_12 with
      max_payload_length := 16, buffer := List.replicate 16 (rmt_item 0 0) }
    [0xA5, 0xF0] 12 0 (fun _ => List.replicate 8 (rmt_item 0 0)) (by decide) (by decide)
    (by decide) (fun _ => (show 8 ≤ (List.replicate 8 (rmt_item 0 0)).length by decide))
    (by decide) (by decide) (by decide)

/-! ## The frame of the Clocked-Shift conversion, bit by bit -/

/-- One pass of the loop body in closed form: the symbol of input bit `k` is written into
the two-byte window that starts at the byte holding the current output position. -/
theorem pwe_io_spi_convert_step_eq (h : pwe_io_spi_handle_t) (data : List Nat)
    (st : spi_state) (k : Nat)
    (h1 : h.t1h + h.t1l ≤ 8) (h0 : h.t0h + h.t0l ≤ 8)
    (hk : st.bits_src_proceeded = k) (hdata : k < 8 * data.length)
    (hbo : st.bit_offset_dest < 16)
    (hroom : st.byte_offset_dest * 8 + st.bit_offset_dest < 8 * st.buffer.length)
    (hsmall : st.buffer.length < 2 ^ 29) :
    pwe_io_spi_convert_step h data st = some
      { buffer := st.buffer.set (if st.bit_offset_dest ≥ 8 then st.byte_offset_dest + 1
            else st.byte_offset_dest)
          (spi_symbol (((if st.bit_offset_dest ≥ 8 then st.overflow_byte
              else st.buffer.getD st.byte_offset_dest 0) <<< 8) % 2 ^ 16)
            (spi_slots_high h (src_bit data k)) (spi_slots_low h (src_bit data k))
            (st.bit_offset_dest % 8) / 256),
        bits_src_proceeded := k + 1,
        overflow_byte := spi_symbol (((if st.bit_offset_dest ≥ 8 then st.overflow_byte
              else st.buffer.getD st.byte_offset_dest 0) <<< 8) % 2 ^ 16)
            (spi_slots_high h (src_bit data k)) (spi_slots_low h (src_bit data k))
            (st.bit_offset_dest % 8) % 256,
        bit_offset_dest := st.bit_offset_dest % 8 + spi_slots_high h (src_bit data k) +
          spi_slots_low h (src_bit data k),
        byte_offset_dest := if st.bit_offset_dest ≥ 8 then st.byte_offset_dest + 1
            else st.byte_offset_dest } := by
  have hrd : rd data (st.bits_src_proceeded / 8) =
      some (data.getD (st.bits_src_proceeded / 8) 0) := rd_eq_getD (by omega)
  have hcur : rd st.buffer st.byte_offset_dest =
      some (st.buffer.getD st.byte_offset_dest 0) := rd_eq_getD (by omega)
  have hbit : bit_set (data.getD (st.bits_src_proceeded / 8) 0) (7 - st.bits_src_proceeded % 8)
      = src_bit data k := by
    rw [bit_set_eq_testBit, hk]; rfl
  have hbyte : st.byte_offset_dest < st.buffer.length := by omega
  have wr_ok : ∀ (i v : Nat), i < st.buffer.length →
      wr st.buffer i v = some (st.buffer.set i v) := by
    intro i v hi; unfold wr; rw [if_pos hi]
  have m1 : ∀ x y : Nat, x < 16 → y ≤ 8 → (x + y) % 2 ^ 32 = x + y :=
    fun x y hx hy => Nat.mod_eq_of_lt (by omega)
  have m3 : (st.byte_offset_dest + 1) % 2 ^ 32 = st.byte_offset_dest + 1 :=
    Nat.mod_eq_of_lt (by omega)
  unfold pwe_io_spi_convert_step
  simp only [hrd, hcur, hbit, Option.bind_eq_bind, Option.some_bind]
  cases hb : src_bit data k <;> by_cases hge : st.bit_offset_dest ≥ 8 <;>
    simp only [hge, if_true, if_false, Bool.false_eq_true, spi_mask]
  · have c1 : h.t0h ≤ 8 ∧ st.bit_offset_dest % 8 < 32 := ⟨by omega, by omega⟩
    have e1 := m1 (st.bit_offset_dest % 8) h.t0h (by omega) (by omega)
    have c2 : h.t0l ≤ 8 ∧ st.bit_offset_dest % 8 + h.t0h < 32 := ⟨by omega, by omega⟩
    have e2 := m1 (st.bit_offset_dest % 8 + h.t0h) h.t0l (by omega) (by omega)
    simp only [c1, e1, c2, e2, m3, and_self, if_true, Option.some_bind,
      wr_ok _ _ (show st.byte_offset_dest + 1 < st.buffer.length by omega)]
    rw [hk]
    rfl
  · have c1 : h.t0h ≤ 8 ∧ st.bit_offset_dest < 32 := ⟨by omega, by omega⟩
    have e1 := m1 st.bit_offset_dest h.t0h (by omega) (by omega)
    have c2 : h.t0l ≤ 8 ∧ st.bit_offset_dest + h.t0h < 32 := ⟨by omega, by omega⟩
    have e2 := m1 (st.bit_offset_dest + h.t0h) h.t0l (by omega) (by omega)
    have ho8 : st.bit_offset_dest % 8 = st.bit_offset_dest := Nat.mod_eq_of_lt (by omega)
    simp only [c1, e1, c2, e2, and_self, if_true, Option.some_bind, wr_ok _ _ hbyte]
    rw [hk, ho8]
    rfl
  · have c1 : h.t1h ≤ 8 ∧ st.bit_offset_dest % 8 < 32 := ⟨by omega, by omega⟩
    have e1 := m1 (st.bit_offset_dest % 8) h.t1h (by omega) (by omega)
    have c2 : h.t1l ≤ 8 ∧ st.bit_offset_dest % 8 + h.t1h < 32 := ⟨by omega, by omega⟩
    have e2 := m1 (st.bit_offset_dest % 8 + h.t1h) h.t1l (by omega) (by omega)
    simp only [c1, e1, c2, e2, m3, and_self, if_true, Option.some_bind,
      wr_ok _ _ (show st.byte_offset_dest + 1 < st.buffer.length by omega)]
    rw [hk]
    rfl
  · have c1 : h.t1h ≤ 8 ∧ st.bit_offset_dest < 32 := ⟨by omega, by omega⟩
    have e1 := m1 st.bit_offset_dest h.t1h (by omega) (by omega)
    have c2 : h.t1l ≤ 8 ∧ st.bit_offset_dest + h.t1h < 32 := ⟨by omega, by omega⟩
    have e2 := m1 (st.bit_offset_dest + h.t1h) h.t1l (by omega) (by omega)
    have ho8 : st.bit_offset_dest % 8 = st.bit_offset_dest := Nat.mod_eq_of_lt (by omega)
    simp only [c1, e1, c2, e2, and_self, if_true, Option.some_bind, wr_ok _ _ hbyte]
    rw [hk, ho8]
    rfl
theorem spi_mask16_bit (t o i : Nat) (ht : t ≤ 8) (ho : o < 16) (hi : i < 16) :
    (spi_mask16 t o).testBit (15 - i) = decide (o ≤ i ∧ i < o + t) := by
  have key : ∀ t, t < 9 → ∀ o, o < 16 → ∀ i, i < 16 →
      (spi_mask16 t o).testBit (15 - i) = decide (o ≤ i ∧ i < o + t) := by
    decide!
  exact key t (by omega) o ho i hi

theorem spi_symbol_bit (temp th tl o i : Nat) (hth : th ≤ 8) (htl : tl ≤ 8)
    (ho : o + th < 16) (hi : i < 16) :
    (spi_symbol temp th tl o).testBit (15 - i) =
      ((temp.testBit (15 - i) || decide (o ≤ i ∧ i < o + th)) &&
        !decide (o + th ≤ i ∧ i < o + th + tl)) := by
  have hff : (0xFFFF : Nat).testBit (15 - i) = true := by
    have e := Nat.testBit_two_pow_sub_one 16 (15 - i)
    rw [show (2 : Nat) ^ 16 - 1 = 0xFFFF by norm_num] at e
    rw [e]
    exact decide_eq_true (by omega)
  unfold spi_symbol
  rw [Nat.testBit_and, Nat.testBit_or, Nat.testBit_xor, hff,
    spi_mask16_bit th o i hth (by omega) hi, spi_mask16_bit tl (o + th) i htl ho hi,
    Bool.true_xor]

theorem spi_window_load_bit (x i : Nat) (hi : i < 16) :
    ((x <<< 8) % 2 ^ 16).testBit (15 - i) = (decide (i < 8) && x.testBit (7 - i)) := by
  rw [Nat.testBit_mod_two_pow, Nat.testBit_shiftLeft]
  by_cases h8 : i < 8
  · rw [decide_eq_true (show 15 - i < 16 by omega), decide_eq_true (show 15 - i ≥ 8 by omega),
      decide_eq_true h8, show 15 - i - 8 = 7 - i by omega]
    rfl
  · rw [decide_eq_false (show ¬ 15 - i ≥ 8 by omega), decide_eq_false h8]
    simp

theorem spi_window_high_bit (y i : Nat) (hi : i < 8) :
    (y / 256).testBit (7 - i) = y.testBit (15 - i) := by
  rw [show (256 : Nat) = 2 ^ 8 by norm_num, ← Nat.shiftRight_eq_div_pow,
    Nat.testBit_shiftRight, show 8 + (7 - i) = 15 - i by omega]

theorem spi_window_low_bit (y i : Nat) (hi : i < 8) :
    (y % 256).testBit (7 - i) = y.testBit (15 - (8 + i)) := by
  rw [show (256 : Nat) = 2 ^ 8 by norm_num, Nat.testBit_mod_two_pow,
    decide_eq_true (show 7 - i < 8 by omega), show 15 - (8 + i) = 7 - i by omega]
  rfl

theorem spi_slots_eq (h : pwe_io_spi_handle_t) (b : Bool) :
    spi_slots h b = spi_slots_high h b + spi_slots_low h b := by
  cases b <;> rfl

theorem spi_expected_bit_succ (h : pwe_io_spi_handle_t) (data : List Nat) (k p : Nat) :
    spi_expected_bit h data (k + 1) p =
      (spi_expected_bit h data k p ||
        decide (spi_slot_sum h data k ≤ p ∧
          p < spi_slot_sum h data k + spi_slots_high h (src_bit data k))) := by
  unfold spi_expected_bit
  rw [List.range_succ, List.any_append]
  simp only [List.any_cons, List.any_nil, Bool.or_false]

theorem spi_expected_bit_ge (h : pwe_io_spi_handle_t) (data : List Nat) :
    ∀ (k p : Nat), spi_slot_sum h data k ≤ p → spi_expected_bit h data k p = false := by
  intro k
  induction k with
  | zero => intro p _; rfl
  | succ k ih =>
    intro p hp
    have hs : spi_slot_sum h data (k + 1) =
        spi_slot_sum h data k + spi_slots h (src_bit data k) := rfl
    rw [hs, spi_slots_eq] at hp
    rw [spi_expected_bit_succ, ih p (by omega), Bool.false_or]
    exact decide_eq_false (by omega)

theorem getD_set_self (l : List Nat) (i v : Nat) (hi : i < l.length) :
    (l.set i v).getD i 0 = v := by
  rw [List.getD_eq_getElem?_getD, List.getElem?_set_self hi]
  rfl

theorem getD_set_ne (l : List Nat) (i j v : Nat) (hij : i ≠ j) :
    (l.set i v).getD j 0 = l.getD j 0 := by
  rw [List.getD_eq_getElem?_getD, List.getD_eq_getElem?_getD, List.getElem?_set_ne hij]

theorem getD_replicate_zero (n j : Nat) : (List.replicate n 0).getD j 0 = 0 := by
  rw [List.getD_eq_getElem?_getD, List.getElem?_replicate]
  split <;> rfl
/-- One pass of the loop body keeps `spi_frame_inv`. -/
theorem pwe_io_spi_convert_step_frame (h : pwe_io_spi_handle_t) (data : List Nat)
    (st : spi_state) (k : Nat)
    (h1 : h.t1h + h.t1l ≤ 8) (h0 : h.t0h + h.t0l ≤ 8)
    (hdata : k < 8 * data.length)
    (hinv : spi_frame_inv h data k st)
    (hroom : spi_slot_sum h data k < 8 * st.buffer.length)
    (hsmall : st.buffer.length < 2 ^ 29) :
    ∃ st2, pwe_io_spi_convert_step h data st = some st2 ∧
      spi_frame_inv h data (k + 1) st2 ∧ st2.buffer.length = st.buffer.length := by
  obtain ⟨hk, hoff, hbo, _, hI1, hI2, hI3⟩ := hinv
  have hstep := pwe_io_spi_convert_step_eq h data st k h1 h0 hk hdata hbo
    (by rw [hoff]; exact hroom) hsmall
  have hslots : spi_slots_high h (src_bit data k) + spi_slots_low h (src_bit data k) ≤ 8 := by
    cases src_bit data k
    · exact h0
    · exact h1
  have hsum : spi_slot_sum h data (k + 1) = spi_slot_sum h data k +
      (spi_slots_high h (src_bit data k) + spi_slots_low h (src_bit data k)) := by
    rw [← spi_slots_eq]
    rfl
  have hE := spi_expected_bit_succ h data k
  generalize spi_slots_high h (src_bit data k) = th at hstep hslots hsum hE
  generalize spi_slots_low h (src_bit data k) = tl at hstep hslots hsum
  generalize hB : (if st.bit_offset_dest ≥ 8 then st.byte_offset_dest + 1
    else st.byte_offset_dest) = B at hstep
  generalize hx : (if st.bit_offset_dest ≥ 8 then st.overflow_byte
    else st.buffer.getD st.byte_offset_dest 0) = x at hstep
  generalize hY : spi_symbol ((x <<< 8) % 2 ^ 16) th tl (st.bit_offset_dest % 8) = Y at hstep
  have hpos : 8 * B + st.bit_offset_dest % 8 = spi_slot_sum h data k := by
    rw [← hB, ← hoff]
    split <;> omega
  have hBle : st.byte_offset_dest ≤ B ∧ B ≤ st.byte_offset_dest + 1 := by
    rw [← hB]
    split <;> omega
  have hBlen : B < st.buffer.length := by omega
  have ho8 : st.bit_offset_dest % 8 < 8 := Nat.mod_lt _ (by norm_num)
  have hT : ∀ i, i < 16 → ((x <<< 8) % 2 ^ 16).testBit (15 - i) =
      spi_expected_bit h data k (8 * B + i) := by
    intro i hi
    rw [spi_window_load_bit x i hi]
    by_cases h8 : i < 8
    · rw [decide_eq_true h8, Bool.true_and]
      by_cases hge : st.bit_offset_dest ≥ 8
      · rw [if_pos hge] at hB hx
        rw [← hB, ← hx]
        exact hI2 i h8
      · rw [if_neg hge] at hB hx
        rw [← hB, ← hx]
        have e := hI1 (8 * st.byte_offset_dest + i) (by omega)
        unfold src_bit at e
        rw [show (8 * st.byte_offset_dest + i) / 8 = st.byte_offset_dest by omega,
          show (8 * st.byte_offset_dest + i) % 8 = i by omega] at e
        exact e
    · rw [decide_eq_false h8, Bool.false_and]
      exact (spi_expected_bit_ge h data k _ (by omega)).symm
  have hYb : ∀ i, i < 16 → Y.testBit (15 - i) =
      spi_expected_bit h data (k + 1) (8 * B + i) := by
    intro i hi
    rw [← hY, spi_symbol_bit _ th tl _ i (by omega) (by omega) (by omega) hi, hT i hi, hE,
      ← hpos]
    by_cases hlow : st.bit_offset_dest % 8 + th ≤ i ∧ i < st.bit_offset_dest % 8 + th + tl
    · rw [spi_expected_bit_ge h data k _ (by omega), decide_eq_true hlow,
        decide_eq_false (show ¬ (st.bit_offset_dest % 8 ≤ i ∧ i < st.bit_offset_dest % 8 + th)
          by omega),
        decide_eq_false (show ¬ (8 * B + st.bit_offset_dest % 8 ≤ 8 * B + i ∧
          8 * B + i < 8 * B + st.bit_offset_dest % 8 + th) by omega)]
      rfl
    · rw [decide_eq_false hlow, Bool.not_false, Bool.and_true]
      congr 1
      exact decide_eq_decide.mpr (by omega)
  refine ⟨_, hstep, ⟨rfl, ?_, ?_, ?_, ?_, ?_, ?_⟩, List.length_set _ _ _⟩
  · show B * 8 + (st.bit_offset_dest % 8 + th + tl) = spi_slot_sum h data (k + 1)
    omega
  · show st.bit_offset_dest % 8 + th + tl < 16
    omega
  · intro j hj
    have hjk : j = k := by omega
    subst hjk
    show 8 * B ≤ spi_slot_sum h data j ∧ spi_slot_sum h data j < 8 * B + 8
    omega
  · intro p hp
    have hp2 : p < 8 * (B + 1) := hp
    show src_bit (st.buffer.set B (Y / 256)) p = spi_expected_bit h data (k + 1) p
    unfold src_bit
    rcases Nat.lt_or_ge p (8 * B) with hlo | hhi
    · rw [getD_set_ne _ _ _ _ (show B ≠ p / 8 by omega), hE,
        decide_eq_false (show ¬ (spi_slot_sum h data k ≤ p ∧ p < spi_slot_sum h data k + th)
          by omega), Bool.or_false]
      exact hI1 p (by omega)
    · rw [show p / 8 = B by omega, getD_set_self _ _ _ hBlen,
        spi_window_high_bit Y (p % 8) (by omega), hYb (p % 8) (by omega),
        show 8 * B + p % 8 = p by omega]
  · intro i hi
    show (Y % 256).testBit (7 - i) = spi_expected_bit h data (k + 1) (8 * (B + 1) + i)
    rw [spi_window_low_bit Y i hi, hYb (8 + i) (by omega),
      show 8 * B + (8 + i) = 8 * (B + 1) + i by omega]
  · intro j hj
    have hj2 : B < j := hj
    show (st.buffer.set B (Y / 256)).getD j 0 = 0
    rw [getD_set_ne _ _ _ _ (show B ≠ j by omega)]
    exact hI3 j (by omega)
/-- The conversion loop keeps `spi_frame_inv` up to the last input bit. -/
theorem pwe_io_spi_convert_loop_frame (h : pwe_io_spi_handle_t) (data : List Nat)
    (len L : Nat) (h1 : h.t1h + h.t1l ≤ 8) (h0 : h.t0h + h.t0l ≤ 8)
    (hdata : len ≤ 8 * data.length) (hL : L < 2 ^ 29)
    (hroom : ∀ k, k < len → spi_slot_sum h data k < 8 * L) :
    ∀ (fuel k : Nat) (st : spi_state), k ≤ len → len ≤ k + fuel →
      spi_frame_inv h data k st → st.buffer.length = L →
      ∃ st2, pwe_io_spi_convert_loop h data len fuel st = some st2 ∧
        spi_frame_inv h data len st2 ∧ st2.buffer.length = L := by
  intro fuel
  induction fuel with
  | zero =>
    intro k st hk hf hinv hlen
    have : k = len := by omega
    subst this
    refine ⟨st, ?_, hinv, hlen⟩
    unfold pwe_io_spi_convert_loop
    rw [if_neg (by rw [hinv.1]; omega)]
  | succ fuel ih =>
    intro k st hk hf hinv hlen
    unfold pwe_io_spi_convert_loop
    by_cases hlt : k < len
    · rw [if_pos (by rw [hinv.1]; exact hlt)]
      obtain ⟨st1, hstep, hinv1, hl1⟩ :=
        pwe_io_spi_convert_step_frame h data st k h1 h0 (by omega) hinv
          (by rw [hlen]; exact hroom k hlt) (by rw [hlen]; exact hL)
      obtain ⟨st2, hrun, hr⟩ := ih (k + 1) st1 (by omega) (by omega) hinv1 (by rw [hl1, hlen])
      refine ⟨st2, ?_, hr⟩
      rw [hstep]
      exact hrun
    · have : k = len := by omega
      subst this
      rw [if_neg (by rw [hinv.1]; omega)]
      exact ⟨st, rfl, hinv, hlen⟩

/-- C36.  For slot counts with at most 8 slots per symbol and at least one slot, a handle
laid out by its constructor, data holding `len` bits and `len` up to the capacity: when the
output length is a multiple of 8, or more generally when the symbol of the last input bit
ends at or before the end of the byte in which it starts, the conversion succeeds and the
buffer it leaves equals the reference expansion at every bit position below the output
length and is 0 at every bit position from the output length to the end of the buffer. -/
theorem pwe_io_spi_convert_buffer_frame (h : pwe_io_spi_handle_t) (data : List Nat)
    (len outgoing_buffer_len : Nat)
    (hcap : len ≤ h.max_payload_length)
    (h1 : h.t1h + h.t1l ≤ 8) (h0 : h.t0h + h.t0l ≤ 8)
    (hdata : len ≤ 8 * data.length) (halloc : spi_handle_allocated h)
    (hslot : 0 < h.t1h + h.t1l + h.t0h + h.t0l)
    (hlast : spi_slot_sum h data len % 8 = 0 ∨
      ∀ j, len = j + 1 → spi_slot_sum h data len ≤ 8 * (spi_slot_sum h data j / 8 + 1)) :
    ∃ frame, pwe_io_spi_convert_buffer h data len outgoing_buffer_len =
        some (ESP_OK, { h with buffer := frame }, spi_slot_sum h data len) ∧
      frame.length = h.buffer.length ∧
      (∀ p, p < spi_slot_sum h data len →
        src_bit frame p = spi_expected_bit h data len p) ∧
      (∀ p, spi_slot_sum h data len ≤ p → p < 8 * frame.length →
        src_bit frame p = false) := by
  obtain ⟨hsize, hwrap, hbuf⟩ := halloc
  have hceil : UINTCEILDIV h.buffer_size 8 = (h.buffer_size + 7) / 8 := by
    unfold UINTCEILDIV
    rw [show h.buffer_size + 8 - 1 = h.buffer_size + 7 by omega, Nat.mod_eq_of_lt hwrap]
  have hL : h.buffer.length < 2 ^ 29 := by rw [hbuf, hceil]; omega
  have hmem : memset_zero h.buffer (UINTCEILDIV h.buffer_size 8) =
      some (List.replicate h.buffer.length 0) := by
    unfold memset_zero
    rw [← hbuf, if_pos (Nat.le_refl _)]
    simp
  have hS : 0 < max (h.t0h + h.t0l) (h.t1h + h.t1l) := by
    rcases Nat.le_total (h.t0h + h.t0l) (h.t1h + h.t1l) with hm | hm
    · rw [Nat.max_eq_right hm]; omega
    · rw [Nat.max_eq_left hm]; omega
  have hroom : ∀ k, k < len → spi_slot_sum h data k < 8 * h.buffer.length := by
    intro k hk
    have a := spi_slot_sum_le h data k
    have b : max (h.t0h + h.t0l) (h.t1h + h.t1l) * (k + 1) ≤ h.buffer_size := by
      rw [hsize]; exact Nat.mul_le_mul_left _ (by omega)
    rw [Nat.mul_succ] at b
    rw [hbuf, hceil]
    omega
  have hfin : spi_slot_sum h data len < 2 ^ 32 := by
    have a := spi_slot_sum_le h data len
    have b : max (h.t0h + h.t0l) (h.t1h + h.t1l) * len ≤ h.buffer_size := by
      rw [hsize]; exact Nat.mul_le_mul_left _ hcap
    omega
  have hinv0 : spi_frame_inv h data 0
      { buffer := List.replicate h.buffer.length 0, bits_src_proceeded := 0,
        overflow_byte := 0x00, bit_offset_dest := 0, byte_offset_dest := 0 } := by
    refine ⟨rfl, rfl, by show 0 < 16; omega, ?_, ?_, ?_, ?_⟩
    · intro j hj
      omega
    · intro p _
      show src_bit (List.replicate h.buffer.length 0) p = false
      unfold src_bit
      rw [getD_replicate_zero, Nat.zero_testBit]
    · intro i _
      show (0 : Nat).testBit (7 - i) = false
      exact Nat.zero_testBit _
    · intro j _
      exact getD_replicate_zero _ _
  obtain ⟨st2, hrun, ⟨_, hoff, hbo, hprev, hI1, _, hI3⟩, hlen2⟩ :=
    pwe_io_spi_convert_loop_frame h data len h.buffer.length h1 h0 hdata hL hroom len 0
      { buffer := List.replicate h.buffer.length 0, bits_src_proceeded := 0,
        overflow_byte := 0x00, bit_offset_dest := 0, byte_offset_dest := 0 }
      (Nat.zero_le _) (by omega) hinv0 (by simp)
  have hsl : ∀ j, len = j + 1 →
      spi_slot_sum h data len ≤ spi_slot_sum h data j + 8 := by
    intro j hj
    have e : spi_slot_sum h data (j + 1) =
        spi_slot_sum h data j + spi_slots h (src_bit data j) := rfl
    have e2 : spi_slots h (src_bit data j) ≤ 8 := by
      cases src_bit data j
      · exact h0
      · exact h1
    rw [hj, e]
    omega
  have ho : st2.bit_offset_dest ≤ 8 := by
    rcases Nat.eq_zero_or_pos len with hz | hpos
    · have e : spi_slot_sum h data len = 0 := by rw [hz]; rfl
      omega
    · obtain ⟨j, hj⟩ : ∃ j, len = j + 1 := ⟨len - 1, by omega⟩
      have hp := hprev j hj
      have hs := hsl j hj
      rcases hlast with hmod | hend
      · omega
      · have := hend j hj
        omega
  refine ⟨st2.buffer, ?_, hlen2, ?_, ?_⟩
  · unfold pwe_io_spi_convert_buffer
    simp only [ge_iff_le, if_pos hcap, hmem, hrun, Option.bind_eq_bind, Option.some_bind, hoff,
      Nat.mod_eq_of_lt hfin]
  · intro p hp
    exact hI1 p (by omega)
  · intro p hp _
    rcases Nat.lt_or_ge p (8 * (st2.byte_offset_dest + 1)) with hlo | hhi
    · rw [hI1 p hlo]
      exact spi_expected_bit_ge h data len p hp
    · unfold src_bit
      rw [hI3 (p / 8) (by omega), Nat.zero_testBit]
theorem pwe_io_spi_convert_buffer_frame_witness :
    (∃ frame, pwe_io_spi_convert_buffer dshot600_spi_handle [0x12, 0x34] 16 0 =
        some (ESP_OK, { dshot600_spi_handle with buffer := frame },
          spi_slot_sum dshot600_spi_handle [0x12, 0x34] 16) ∧
      frame.length = dshot600_spi_handle.buffer.length ∧
      (∀ p, p < spi_slot_sum dshot600_spi_handle [0x12, 0x34] 16 →
        src_bit frame p = spi_expected_bit dshot600_spi_handle [0x12, 0x34] 16 p) ∧
      (∀ p, spi_slot_sum dshot600_spi_handle [0x12, 0x34] 16 ≤ p → p < 8 * frame.length →
        src_bit frame p = false)) ∧
    (∃ frame, pwe_io_spi_convert_buffer dshot600_spi_handle [0x80] 3 0 =
        some (ESP_OK, { dshot600_spi_handle with buffer := frame },
          spi_slot_sum dshot600_spi_handle [0x80] 3) ∧
      frame.length = dshot600_spi_handle.buffer.length ∧
      (∀ p, p < spi_slot_sum dshot600_spi_handle [0x80] 3 →
        src_bit frame p = spi_expected_bit dshot600_spi_handle [0x80] 3 p) ∧
      (∀ p, spi_slot_sum dshot600_spi_handle [0x80] 3 ≤ p → p < 8 * frame.length →
        src_bit frame p = false)) ∧
    spi_slot_sum dshot600_spi_handle [0x12, 0x34] 16 = 80 ∧
    spi_slot_sum dshot600_spi_handle [0x80] 3 = 15 :=
  ⟨pwe_io_spi_convert_buffer_frame dshot600_spi_handle [0x12, 0x34] 16 0 (by decide)
      (by decide) (by decide) (by decide) (by decide) (by decide) (Or.inl (by decide)),
    pwe_io_spi_convert_buffer_frame dshot600_spi_handle [0x80] 3 0 (by decide)
      (by decide) (by decide) (by decide) (by decide) (by decide)
      (Or.inr (fun j hj => by
        have hj2 : j = 2 := by omega
        subst hj2
        decide)),
    by decide, by decide⟩

end PWE
